import Mathlib

/-!
# COCO: Authenticator and Verifier services

A shallow embedding of `src/coco/authenticator.js`, `src/coco/verifier.js`,
`src/util/coco/coco-auth.js`, `src/util/coco/coco-verify.js` and the in-memory branch of
`src/db/DatabaseHandler.js`; of the client state `src/util/coco/coco-client.js` with the
wrappers it calls (`src/util/coconut/coconutClientState.js`, `src/util/oprf/oprfClient.js`);
of the utilities `src/util/randomGen.js`, `src/util/argonHash.js`,
`src/util/uint8Arrayutils.js`, `src/util/oprf/oprfServer.js`; and of the call of
`handleRegisterRequest` made by `register` in `src/coco/client.js`.

Modelling conventions.

* The credential engine and the blinding engine (WASM / voprf) are external: they are the
  fields of `Engine`. Every call made to them is recorded in a trace of `EngineCall`s, so
  that "no proof was verified" and "nothing was signed" are statements about the trace.
  The engines are taken as constructed; an exception they throw is the answer `none`.
* `Math.floor(Date.now() / 1000)` is the parameter `currentTime`.
* Arguments are typed as the JSDoc of the source types them (strings, arrays of raw
  attributes); a verification-key argument, which the code passes as a string, an array,
  `null` or `undefined` depending on the call site, is a `JSVal`.
* A JavaScript number is a binary64 value, written as the fraction `num / den` it equals
  (with `den` positive). `Number(string)`, `+` and `-` give the binary64 value nearest to
  the exact result, a tie going to the even significand (`JSNum.toBinary64`); comparisons
  are exact. The sign of zero is not kept apart: it shows in no comparison and no string.
* A string is a sequence of Unicode code points (no lone surrogates); a byte array is the
  list of its elements. The hash functions (SHA-512, Argon2id) are parameters.
* A storage collection is the list of its `{key, value}` items in insertion order, as in
  the `inMemory` branch of `DatabaseHandler`; an absent collection is the empty list. The
  in-memory operations never report an error, so the `{ error }` branches that follow a
  store call are not reachable and are left out.
-/

namespace Coco

/-! ## JavaScript strings and numbers -/

/-- ECMAScript WhiteSpace and LineTerminator code points: what `String.prototype.trim`
removes and what `Number(string)` skips at both ends. -/
def isJSWhiteSpace (c : Char) : Bool :=
  let n := c.toNat
  n == 0x9 || n == 0xA || n == 0xB || n == 0xC || n == 0xD || n == 0x20 || n == 0xA0 ||
  n == 0x1680 || (decide (0x2000 ≤ n) && decide (n ≤ 0x200A)) || n == 0x2028 ||
  n == 0x2029 || n == 0x202F || n == 0x205F || n == 0x3000 || n == 0xFEFF

/-- The test `!s.trim()`: nothing is left of `s` after trimming. -/
def isBlank (s : String) : Bool := s.toList.all isJSWhiteSpace

/-- Number of binary digits of `n`, by halving at most `fuel` times. -/
def bitLengthAux : Nat → Nat → Nat
  | 0, _ => 0
  | fuel + 1, n => if n = 0 then 0 else bitLengthAux fuel (n / 2) + 1

/-- Number of binary digits of `n`: `0` for `0`, otherwise `floor (log2 n) + 1`. -/
def bitLength (n : Nat) : Nat := bitLengthAux n n

/-- Number of decimal digits of `n`, by dividing by ten at most `fuel` times. -/
def decimalLengthAux : Nat → Nat → Nat
  | 0, _ => 0
  | fuel + 1, n => if n = 0 then 0 else decimalLengthAux fuel (n / 10) + 1

/-- Number of decimal digits of `n`: `0` for `0`, otherwise `floor (log10 n) + 1`. -/
def decimalLength (n : Nat) : Nat := decimalLengthAux n n

/-- The quotient `n / d` rounded to the nearest integer, a tie going to the even one. -/
def roundQuotient (n d : Nat) : Nat :=
  if d < 2 * (n % d) ∨ (2 * (n % d) = d ∧ n / d % 2 = 1) then n / d + 1 else n / d

/-- A JavaScript number: `NaN`, an infinity, or the finite value `num / den`. -/
inductive JSNum where
  | nan
  | inf (negative : Bool)
  | fin (num : Int) (den : Nat)
  deriving DecidableEq, Repr

namespace JSNum

/-- The global function `isNaN` on a number. -/
def isNaN : JSNum → Bool
  | nan => true
  | _ => false

/-- The comparison `a > b`; false as soon as one side is `NaN`. -/
def gt : JSNum → JSNum → Bool
  | nan, _ => false
  | _, nan => false
  | inf false, inf false => false
  | inf false, _ => true
  | inf true, _ => false
  | fin _ _, inf negative => negative
  | fin a b, fin c d => decide (c * (b : Int) < a * (d : Int))

/-- The comparison `a >= b`; false as soon as one side is `NaN`. -/
def ge : JSNum → JSNum → Bool
  | nan, _ => false
  | _, nan => false
  | inf false, _ => true
  | inf true, inf negative => negative
  | inf true, fin _ _ => false
  | fin _ _, inf negative => negative
  | fin a b, fin c d => decide (c * (b : Int) ≤ a * (d : Int))

/-- The binary64 value nearest to the positive fraction `p / q`, a tie going to the even
significand: `some (n, d)` for the value `n / d`, `none` beyond the range. A value is
`m * 2 ^ u` where `u`, the exponent of the last place, is at least `-1074` and the
significand `m` is at most `2 ^ 53`; `e` is the exponent of the leading bit of `p / q`. -/
def roundPositive (p q : Nat) : Option (Nat × Nat) :=
  let e0 : Int := (bitLength p : Int) - (bitLength q : Int)
  let below : Bool :=
    if 0 ≤ e0 then decide (p < q * 2 ^ e0.toNat) else decide (p * 2 ^ (-e0).toNat < q)
  let e : Int := if below then e0 - 1 else e0
  let u : Int := max (e - 52) (-1074)
  let m : Nat :=
    if 0 ≤ u then roundQuotient p (q * 2 ^ u.toNat)
    else roundQuotient (p * 2 ^ (-u).toNat) q
  if 972 ≤ u ∨ (u = 971 ∧ m = 9007199254740992) then none
  else if 0 ≤ u then some (m * 2 ^ u.toNat, 1)
  else some (m, 2 ^ (-u).toNat)

/-- The Number value of a real: the binary64 value nearest to it, an infinity beyond the
range. Integers of magnitude up to `2 ^ 53` are values and stay as they are. -/
def toBinary64 : JSNum → JSNum
  | nan => nan
  | inf negative => inf negative
  | fin num den =>
    if den = 1 ∧ num.natAbs ≤ 9007199254740992 then fin num 1
    else if num = 0 then fin 0 1
    else
      match roundPositive num.natAbs den with
      | none => inf (decide (num < 0))
      | some (n, d) => fin (num.sign * (n : Int)) d

/-- The subtraction `a - b`: the Number value of the exact difference. -/
def sub : JSNum → JSNum → JSNum
  | nan, _ => nan
  | _, nan => nan
  | inf s, inf t => if s == t then nan else inf s
  | inf s, fin _ _ => inf s
  | fin _ _, inf t => inf (!t)
  | fin a b, fin c d => toBinary64 (fin (a * (d : Int) - c * (b : Int)) (b * d))

/-- The addition `a + b`: the Number value of the exact sum. -/
def add : JSNum → JSNum → JSNum
  | nan, _ => nan
  | _, nan => nan
  | inf s, inf t => if s == t then inf s else nan
  | inf s, fin _ _ => inf s
  | fin _ _, inf t => inf t
  | fin a b, fin c d => toBinary64 (fin (a * (d : Int) + c * (b : Int)) (b * d))

/-- Unary minus. -/
def neg : JSNum → JSNum
  | nan => nan
  | inf s => inf (!s)
  | fin a b => fin (-a) b

/-- The expression `x || 0` on a number `x`: `NaN` and zero are falsy. -/
def orZero : JSNum → JSNum
  | nan => fin 0 1
  | inf s => inf s
  | fin a b => if a = 0 then fin 0 1 else fin a b

/-- The fraction `p / q` times `10 ^ e`. -/
def scale10 (p q : Nat) (e : Int) : Nat × Nat :=
  if 0 ≤ e then (p * 10 ^ e.toNat, q) else (p, q * 10 ^ (-e).toNat)

/-- The search of Number::toString for the digits of the positive value `p / q`, where
`10 ^ (n - 1) ≤ p / q < 10 ^ n`: the least `k` from `k` on, and the integer `s` of `k`
digits, such that `s * 10 ^ (n - k)` has the Number value `p / q`; of two such `s` the one
nearer to `p / q`, the even one when they are as near. Seventeen digits always do, so a
search started at `k = 1` with seventeen steps does not run out. -/
def shortestDigits (p q : Nat) (n : Int) : Nat → Nat → Nat × Nat
  | 0, k => ((scale10 p q (k - n)).1 / (scale10 p q (k - n)).2, k)
  | fuel + 1, k =>
    let a := (scale10 p q (k - n)).1
    let b := (scale10 p q (k - n)).2
    let low := a / b
    let high := low + 1
    let value : Nat → JSNum := fun s =>
      toBinary64 (fin ((scale10 s 1 (n - k)).1 : Int) (scale10 s 1 (n - k)).2)
    let hits : Nat → Bool := fun s =>
      (value s).ge (fin (p : Int) q) && (fin (p : Int) q).ge (value s)
    let lowFirst : Bool := decide (2 * a < (2 * low + 1) * b) ||
      (decide (2 * a = (2 * low + 1) * b) && decide (low % 2 = 0))
    if hits low && hits high then (if lowFirst then (low, k) else (high, k))
    else if hits low then (low, k)
    else if hits high then (high, k)
    else shortestDigits p q n fuel (k + 1)

/-- The string of Number::toString for the digits `s` (there are `k` of them) and the
decimal exponent `n`. -/
def formatDigits (s k : Nat) (n : Int) : String :=
  let digits := (Nat.toDigits 10 s)
  if (k : Int) ≤ n ∧ n ≤ 21 then String.mk (digits ++ List.replicate (n.toNat - k) '0')
  else if 0 < n ∧ n ≤ 21 then
    String.mk (digits.take n.toNat ++ '.' :: digits.drop n.toNat)
  else if -6 < n ∧ n ≤ 0 then
    String.mk ('0' :: '.' :: List.replicate (-n).toNat '0' ++ digits)
  else
    let exponent := (if 0 ≤ n - 1 then "e+" else "e-") ++ toString (n - 1).natAbs
    if k = 1 then String.mk digits ++ exponent
    else String.mk (digits.take 1 ++ '.' :: digits.drop 1) ++ exponent

/-- The string of a positive value `p / q` (Number::toString, radix 10). -/
def magnitudeToString (p q : Nat) : String :=
  let n0 : Int := (decimalLength p : Int) - (decimalLength q : Int)
  let below : Bool :=
    if 0 ≤ n0 then decide (p < q * 10 ^ n0.toNat) else decide (p * 10 ^ (-n0).toNat < q)
  let n : Int := if below then n0 else n0 + 1
  let found := shortestDigits p q n 17 1
  if found.1 = 10 ^ found.2 then formatDigits 1 1 (n + 1)
  else formatDigits found.1 found.2 n

/-- The method `toString()` of a number. An integer of magnitude up to `2 ^ 53` is written
in full. -/
def toString : JSNum → String
  | nan => "NaN"
  | inf negative => if negative then "-Infinity" else "Infinity"
  | fin num den =>
    if num = 0 then "0"
    else if den = 1 ∧ num.natAbs ≤ 9007199254740992 then ToString.toString num
    else (if num < 0 then "-" else "") ++ magnitudeToString num.natAbs den

end JSNum

/-- Value of a digit character (decimal digit or hexadecimal letter). -/
def digitValue (c : Char) : Nat :=
  let n := c.toNat
  if 48 ≤ n ∧ n ≤ 57 then n - 48
  else if 97 ≤ n ∧ n ≤ 102 then n - 87
  else if 65 ≤ n ∧ n ≤ 70 then n - 55
  else 0

/-- The character is a digit of the given base (2, 8, 10 or 16). -/
def isDigitOf (base : Nat) (c : Char) : Bool :=
  let n := c.toNat
  ((decide (48 ≤ n) && decide (n ≤ 57)) || (decide (97 ≤ n) && decide (n ≤ 102)) ||
    (decide (65 ≤ n) && decide (n ≤ 70))) && decide (digitValue c < base)

/-- Positional value of a digit string. -/
def digitsValue (base : Nat) (ds : List Char) : Nat :=
  ds.foldl (fun acc c => acc * base + digitValue c) 0

/-- NonDecimalIntegerLiteral after its `0x` / `0o` / `0b` marker. -/
def parseNonDecimal (base : Nat) (ds : List Char) : JSNum :=
  if ds.isEmpty || !ds.all (isDigitOf base) then JSNum.nan
  else JSNum.fin (digitsValue base ds) 1

/-- ExponentPart after its `e` / `E`, applied to the mantissa `mant / 10 ^ fracLen`. -/
def applyExponent (mant fracLen : Nat) (cs : List Char) : JSNum :=
  let negative := cs.head? == some '-'
  let ds := if cs.head? == some '-' || cs.head? == some '+' then cs.tail else cs
  if ds.isEmpty || !ds.all (isDigitOf 10) then JSNum.nan
  else if negative then JSNum.fin mant (10 ^ (fracLen + digitsValue 10 ds))
  else JSNum.fin ((mant * 10 ^ digitsValue 10 ds : Nat) : Int) (10 ^ fracLen)

/-- StrUnsignedDecimalLiteral: `Infinity`, or digits with an optional fraction and an
optional exponent, at least one digit before or after the dot. -/
def parseUnsignedDecimal (cs : List Char) : JSNum :=
  if cs == "Infinity".toList then JSNum.inf false
  else
    let intPart := cs.takeWhile (isDigitOf 10)
    let afterInt := cs.dropWhile (isDigitOf 10)
    let hasDot := afterInt.head? == some '.'
    let fracPart := if hasDot then afterInt.tail.takeWhile (isDigitOf 10) else []
    let rest := if hasDot then afterInt.tail.dropWhile (isDigitOf 10) else afterInt
    if intPart.isEmpty && fracPart.isEmpty then JSNum.nan
    else
      let mant := digitsValue 10 (intPart ++ fracPart)
      match rest with
      | [] => JSNum.fin mant (10 ^ fracPart.length)
      | e :: ex =>
        if e == 'e' || e == 'E' then applyExponent mant fracPart.length ex else JSNum.nan

/-- StrNumericLiteral: a non-decimal integer literal or a signed decimal literal. -/
def parseNumeric (cs : List Char) : JSNum :=
  match cs with
  | c0 :: c1 :: ds =>
    if c0 == '0' && (c1 == 'x' || c1 == 'X') then parseNonDecimal 16 ds
    else if c0 == '0' && (c1 == 'o' || c1 == 'O') then parseNonDecimal 8 ds
    else if c0 == '0' && (c1 == 'b' || c1 == 'B') then parseNonDecimal 2 ds
    else if c0 == '+' then parseUnsignedDecimal (c1 :: ds)
    else if c0 == '-' then (parseUnsignedDecimal (c1 :: ds)).neg
    else parseUnsignedDecimal cs
  | _ => parseUnsignedDecimal cs

/-- Both ends of the string stripped of white space. -/
def trimChars (cs : List Char) : List Char :=
  ((cs.dropWhile isJSWhiteSpace).reverse.dropWhile isJSWhiteSpace).reverse

/-- The conversion `Number(s)` of a string (ECMAScript StringToNumber): white space is
trimmed, the empty string is `0`, anything that is not a numeric literal is `NaN`, and a
numeric literal gives the Number value of the real it denotes. -/
def Number (s : String) : JSNum :=
  let cs := trimChars s.toList
  if cs.isEmpty then JSNum.fin 0 1 else (parseNumeric cs).toBinary64

/-! ## Configuration (`src/config.js`) -/

/-- Validity window of an Authenticator-facing token, in seconds. -/
def AUTHENTICATOR_TOKEN_VALIDITY : Int := 60

/-- Validity window of a Verifier-facing access token, in seconds (30 days). -/
def VERIFIER_TOKEN_VALIDITY : Int := 2592000

/-! ## Attributes, engine and call trace -/

/-- A raw attribute `{ value, is_private }` as declared by the WASM wrapper. -/
structure RawAttribute where
  value : String
  is_private : Bool
  deriving DecidableEq, Repr

/-- The JavaScript values that reach a verification-key parameter: `undefined`, `null`,
one key string, or an array of key strings. -/
inductive JSVal where
  | undefined
  | null
  | str (s : String)
  | arr (items : List String)
  deriving DecidableEq, Repr

/-- The external engines. `none` stands for a thrown exception. -/
structure Engine where
  /-- The call `CoconutVerifier.aggregateAndVerify(verificationKeys, proof, attributes)`. -/
  aggregateAndVerify : JSVal → String → List RawAttribute → Option Bool
  /-- The call `CoconutAuthenticator.signAndGetKey(request, publicKey, attributes)`,
  giving `(blindSignature, verificationKey)`. -/
  signAndGetKey : String → String → List RawAttribute → Option (String × String)
  /-- Deserialise, blind-evaluate and serialise an OPRF evaluation request. -/
  blindEvaluate : String → Option String

/-- One call made to an external engine. -/
inductive EngineCall where
  | verify (keys : JSVal) (proof : String) (attrs : List RawAttribute)
  | sign (request publicKey : String) (attrs : List RawAttribute)
  | oprfEval (request : String)
  deriving DecidableEq, Repr

/-- The call is a proof verification. -/
def EngineCall.isVerify : EngineCall → Bool
  | EngineCall.verify _ _ _ => true
  | _ => false

/-- The call is a blind signature. -/
def EngineCall.isSign : EngineCall → Bool
  | EngineCall.sign _ _ _ => true
  | _ => false

/-- The call is an OPRF evaluation. -/
def EngineCall.isOprfEval : EngineCall → Bool
  | EngineCall.oprfEval _ => true
  | _ => false

/-- Result of a signing step: `{ error }` or `{ blindSignature, verificationKey }`. -/
inductive SignResult where
  | error (msg : String)
  | signed (blindSignature verificationKey : String)
  deriving DecidableEq, Repr

/-- The test `result.error` on a signing result. -/
def SignResult.isError : SignResult → Bool
  | SignResult.error _ => true
  | SignResult.signed _ _ => false

/-! ## `COCOAuthState` (`src/util/coco/coco-auth.js`) -/

/-- The method `_verifyProof`: the engine's answer, `false` when the engine throws. -/
def _verifyProof (E : Engine) (verificationKeys : JSVal) (proof : String)
    (clientPublicAttributes : List RawAttribute) : Bool × List EngineCall :=
  ((E.aggregateAndVerify verificationKeys proof clientPublicAttributes).getD false,
    [EngineCall.verify verificationKeys proof clientPublicAttributes])

/-- The method `_generateBlindSignature`. -/
def _generateBlindSignature (E : Engine) (blindSignRequest clientPublicKey : String)
    (clientPublicAttributes : List RawAttribute) : SignResult × List EngineCall :=
  (match E.signAndGetKey blindSignRequest clientPublicKey clientPublicAttributes with
    | some (blindSignature, verificationKey) => SignResult.signed blindSignature verificationKey
    | none => SignResult.error "Failed to generate blind signature.",
    [EngineCall.sign blindSignRequest clientPublicKey clientPublicAttributes])

/-- The method `_performOPRFEval`: the serialised evaluation, or an error. -/
def _performOPRFEval (E : Engine) (serializedEvalReq : String) :
    Except String String × List EngineCall :=
  (match E.blindEvaluate serializedEvalReq with
    | some evaluation => Except.ok evaluation
    | none => Except.error "Failed to perform OPRF evaluation.",
    [EngineCall.oprfEval serializedEvalReq])

/-- The `iat` / `exp` / `scope` block shared, up to the scope string, by
`coco_authenticator_step_0`, `_2`, `_3` and `_4` (and `coco_verifier_step_1`):
`none` when the three checks pass, otherwise the error that is returned. -/
def authenticatorAttributeCheck (scope : String) (validity currentTime : Int)
    (clientPublicAttributes : List RawAttribute) : Option String :=
  let iatAttr := clientPublicAttributes.find? (fun attr => !(Number attr.value).isNaN)
  let iatNumber : JSNum :=
    match iatAttr with
    | some attr => Number attr.value
    | none => JSNum.nan
  let expAttr := clientPublicAttributes.find? (fun attr =>
    (Number attr.value).gt iatNumber.orZero)
  let scopeAttr := clientPublicAttributes.find? (fun attr => attr.value == scope)
  match iatAttr with
  | none => some "Invalid `iat` attribute."
  | some iat =>
    if (Number iat.value).gt (JSNum.fin currentTime 1) then some "Invalid `iat` attribute."
    else
      match expAttr with
      | none => some "Invalid `exp` attribute."
      | some exp =>
        if ((Number exp.value).sub (Number iat.value)).gt (JSNum.fin validity 1) then
          some "Invalid `exp` attribute."
        else
          match scopeAttr with
          | none => some "Invalid `scope` attribute."
          | some _ => none

/-- The value an `async` function hands back to a caller: a promise of its result. -/
structure Promise (α : Type) where
  /-- What `await` yields. -/
  settled : α

/-- The property `error` read on a promise object itself (a call that was not awaited):
a promise has no such property, so the read gives `undefined`. -/
def Promise.error {α : Type} (_p : Promise α) : Option String := none

/-- Result of `coco_authenticator_step_0`: `true` or `{ error }`. -/
inductive AccessResult where
  | granted
  | error (msg : String)
  deriving DecidableEq, Repr

/-- The method `coco_authenticator_step_0` (an `async` method): registration-token check
for scope `register:uid`. -/
def coco_authenticator_step_0 (E : Engine) (currentTime : Int) (verificationKeys : JSVal)
    (proof : String) (clientPublicAttributes : List RawAttribute) :
    Promise AccessResult × List EngineCall :=
  if isBlank proof then (⟨AccessResult.error "Invalid proof."⟩, [])
  else
    match verificationKeys with
    | JSVal.arr _ =>
      match authenticatorAttributeCheck "register:uid" AUTHENTICATOR_TOKEN_VALIDITY currentTime
          clientPublicAttributes with
      | some e => (⟨AccessResult.error e⟩, [])
      | none =>
        let v := _verifyProof E verificationKeys proof clientPublicAttributes
        if v.1 then (⟨AccessResult.granted⟩, v.2)
        else (⟨AccessResult.error "Proof verification failed."⟩, v.2)
    | _ => (⟨AccessResult.error "Input parameters must be of the correct data type."⟩, [])

/-- The method `coco_authenticator_step_2`: attribute checks for scope `evaluate:OPRF`,
then a blind signature. -/
def coco_authenticator_step_2 (E : Engine) (currentTime : Int)
    (blindSignRequest clientPublicKey : String) (clientPublicAttributes : List RawAttribute) :
    SignResult × List EngineCall :=
  if isBlank blindSignRequest then (SignResult.error "Invalid blind signature request.", [])
  else if isBlank clientPublicKey then (SignResult.error "Invalid client public key.", [])
  else
    match authenticatorAttributeCheck "evaluate:OPRF" AUTHENTICATOR_TOKEN_VALIDITY currentTime
        clientPublicAttributes with
    | some e => (SignResult.error e, [])
    | none => _generateBlindSignature E blindSignRequest clientPublicKey clientPublicAttributes

/-- The method `coco_authenticator_step_3` (an `async` method): attribute checks for scope
`evaluate:OPRF`, proof verification, then the OPRF evaluation. -/
def coco_authenticator_step_3 (E : Engine) (currentTime : Int) (verificationKeys : JSVal)
    (proof : String) (clientPublicAttributes : List RawAttribute) (EvalReq : String) :
    Promise (Except String String) × List EngineCall :=
  if isBlank proof then (⟨Except.error "Invalid proof."⟩, [])
  else if isBlank EvalReq then (⟨Except.error "Invalid evaluation request."⟩, [])
  else
    match verificationKeys with
    | JSVal.arr _ =>
      match authenticatorAttributeCheck "evaluate:OPRF" AUTHENTICATOR_TOKEN_VALIDITY currentTime
          clientPublicAttributes with
      | some e => (⟨Except.error e⟩, [])
      | none =>
        let v := _verifyProof E verificationKeys proof clientPublicAttributes
        if v.1 then
          let r := _performOPRFEval E EvalReq
          (⟨r.1⟩, v.2 ++ r.2)
        else (⟨Except.error "Proof verification failed."⟩, v.2)
    | _ => (⟨Except.error "Input parameters must be of the correct data type."⟩, [])

/-- The method `coco_authenticator_step_4`: attribute checks for scope `prove:identity`,
proof verification against one key, then a blind signature over `userPublicAttributes`. -/
def coco_authenticator_step_4 (E : Engine) (currentTime : Int) (verificationKey proof : String)
    (clientPublicAttributes : List RawAttribute) (blindSignRequest clientPublicKey : String)
    (userPublicAttributes : List RawAttribute) : SignResult × List EngineCall :=
  if isBlank verificationKey then (SignResult.error "Invalid verification key.", [])
  else if isBlank proof then (SignResult.error "Invalid proof.", [])
  else if isBlank blindSignRequest then (SignResult.error "Invalid blind signature request.", [])
  else if isBlank clientPublicKey then (SignResult.error "Invalid client public key.", [])
  else
    match authenticatorAttributeCheck "prove:identity" AUTHENTICATOR_TOKEN_VALIDITY currentTime
        clientPublicAttributes with
    | some e => (SignResult.error e, [])
    | none =>
      let v := _verifyProof E (JSVal.str verificationKey) proof clientPublicAttributes
      if v.1 then
        let r := _generateBlindSignature E blindSignRequest clientPublicKey userPublicAttributes
        (r.1, v.2 ++ r.2)
      else (SignResult.error "Proof verification failed.", v.2)

/-! ## In-memory `DatabaseHandler` (`src/db/DatabaseHandler.js`) -/

/-- One stored item `{ key, value }`. -/
structure Item (α : Type) where
  key : String
  value : α
  deriving DecidableEq, Repr

/-- The comparison `item[key] === value` of a stored key string with a query value. -/
def strictEqualsKey (itemKey : String) (query : JSVal) : Bool :=
  match query with
  | JSVal.str s => itemKey == s
  | _ => false

namespace DatabaseHandler

/-- The `inMemory` branch of `save`: the item is pushed at the end of the collection. -/
def save {α : Type} (collection : List (Item α)) (data : Item α) : List (Item α) :=
  collection ++ [data]

/-- The `inMemory` branch of `retrieve`: the items whose key is the queried one. -/
def retrieve {α : Type} (collection : List (Item α)) (key : JSVal) : List (Item α) :=
  collection.filter (fun item => strictEqualsKey item.key key)

/-- The `inMemory` branch of `delete`: the items whose key is not the queried one. -/
def delete {α : Type} (collection : List (Item α)) (key : JSVal) : List (Item α) :=
  collection.filter (fun item => !strictEqualsKey item.key key)

end DatabaseHandler

/-! ## Authenticator service (`src/coco/authenticator.js`) -/

/-- The record `{ VerificationKey }` stored under an `id`. -/
structure AuthRecord where
  VerificationKey : String
  deriving DecidableEq, Repr

/-- State seen by one Authenticator: its local collection `auth_storage`, the shared
collection `global_storage`, and the trace of engine calls made so far. -/
structure AuthState where
  localDB : List (Item AuthRecord)
  globalDB : List (Item String)
  calls : List EngineCall
  deriving DecidableEq, Repr

/-- What an Authenticator operation returns: `{ error }`, `{ Signature, VK }` or
`{ Evaluation }`. -/
inductive AuthResponse where
  | error (msg : String)
  | signature (Signature VK : String)
  | evaluation (Evaluation : String)
  deriving DecidableEq, Repr

/-- The response is an `{ error }` object. -/
def AuthResponse.isError : AuthResponse → Bool
  | AuthResponse.error _ => true
  | _ => false

/-- The response is `{ Signature, VK }`. -/
def AuthResponse.isSignature : AuthResponse → Bool
  | AuthResponse.signature _ _ => true
  | _ => false

namespace Authenticator

/-- The helper `getFromStorage`: `data?.value || null` for the first item found. A stored
record is an object, hence truthy; `none` is `null`. -/
def getFromStorage (localDB : List (Item AuthRecord)) (key : String) : Option AuthRecord :=
  ((DatabaseHandler.retrieve localDB (JSVal.str key)).head?).map (fun data => data.value)

/-- The helper `getFromGlobalStorage`: `data?.value || null` for the first item found. The
value is a string; the empty string is falsy, and so is the `undefined` of a missing item. -/
def getFromGlobalStorage (globalDB : List (Item String)) (key : JSVal) : JSVal :=
  match (DatabaseHandler.retrieve globalDB key).head? with
  | some data => if data.value = "" then JSVal.null else JSVal.str data.value
  | none => JSVal.null

/-- The helper `setInStorage` on the in-memory store (which never fails). -/
def setInStorage (localDB : List (Item AuthRecord)) (key : String) (value : AuthRecord) :
    List (Item AuthRecord) :=
  DatabaseHandler.save localDB ⟨key, value⟩

/-- The helper `deleteFromStorage` on the in-memory store (which never fails). -/
def deleteFromStorage (localDB : List (Item AuthRecord)) (key : String) :
    List (Item AuthRecord) :=
  DatabaseHandler.delete localDB (JSVal.str key)

/-- The helper `setInGlobalStorage` on the in-memory store (which never fails). -/
def setInGlobalStorage (globalDB : List (Item String)) (key value : String) :
    List (Item String) :=
  DatabaseHandler.save globalDB ⟨key, value⟩

/-- The operation `handleBlindSignatureRequest`. -/
def handleBlindSignatureRequest (E : Engine) (currentTime : Int)
    (blindSignRequest publicKey : String) (publicAttributes : List RawAttribute)
    (st : AuthState) : AuthResponse × AuthState :=
  let result := coco_authenticator_step_2 E currentTime blindSignRequest publicKey publicAttributes
  match result.1 with
  | SignResult.error e => (AuthResponse.error e, { st with calls := st.calls ++ result.2 })
  | SignResult.signed blindSignature verificationKey =>
    (AuthResponse.signature blindSignature verificationKey,
      { st with
        globalDB := setInGlobalStorage st.globalDB verificationKey verificationKey
        calls := st.calls ++ result.2 })

/-- The operation `handleOPRFEvaluation`. -/
def handleOPRFEvaluation (E : Engine) (currentTime : Int) (verificationKeys : JSVal)
    (proof : String) (publicAttributes : List RawAttribute) (evalRequest : String)
    (st : AuthState) : AuthResponse × AuthState :=
  let value := getFromGlobalStorage st.globalDB verificationKeys
  if value = JSVal.undefined then (AuthResponse.error "Undefined verification key", st)
  else
    let result := coco_authenticator_step_3 E currentTime verificationKeys proof
      publicAttributes evalRequest
    match result.1.settled with
    | Except.error e => (AuthResponse.error e, { st with calls := st.calls ++ result.2 })
    | Except.ok evaluation =>
      (AuthResponse.evaluation evaluation, { st with calls := st.calls ++ result.2 })

/-- The operation `handleRegisterRequest`. The call of `coco_authenticator_step_0` is not
awaited: `accessrights` is the promise, and `accessrights.error` is read on it. -/
def handleRegisterRequest (E : Engine) (currentTime : Int) (id currentVerificationKey
    proof : String) (publicAttributes : List RawAttribute) (blindSignRequest publicKey : String)
    (publicAttributesToken : List RawAttribute) (registrationTokenProof : String)
    (registrationTokenPublicAttribute : List RawAttribute)
    (registrationTokenVerificationKey : JSVal) (st : AuthState) : AuthResponse × AuthState :=
  if (getFromStorage st.localDB id).isSome then (AuthResponse.error "ID already exists.", st)
  else
    let value := getFromGlobalStorage st.globalDB registrationTokenVerificationKey
    if value = JSVal.undefined then (AuthResponse.error "Undefined verification key", st)
    else
      let accessrights := coco_authenticator_step_0 E currentTime value registrationTokenProof
        registrationTokenPublicAttribute
      match accessrights.1.error with
      | some e => (AuthResponse.error e, { st with calls := st.calls ++ accessrights.2 })
      | none =>
        let result := coco_authenticator_step_4 E currentTime currentVerificationKey proof
          publicAttributes blindSignRequest publicKey publicAttributesToken
        match result.1 with
        | SignResult.error e =>
          (AuthResponse.error e, { st with calls := st.calls ++ accessrights.2 ++ result.2 })
        | SignResult.signed blindSignature verificationKey =>
          (AuthResponse.signature blindSignature verificationKey,
            { localDB := setInStorage st.localDB id ⟨currentVerificationKey⟩
              globalDB := setInGlobalStorage st.globalDB verificationKey verificationKey
              calls := st.calls ++ accessrights.2 ++ result.2 })

/-- The operation `handleLoginRequest`. -/
def handleLoginRequest (E : Engine) (currentTime : Int) (id proof : String)
    (publicAttributes : List RawAttribute) (blindSignRequest publicKey : String)
    (publicAttributesToken : List RawAttribute) (st : AuthState) : AuthResponse × AuthState :=
  match getFromStorage st.localDB id with
  | none => (AuthResponse.error "ID not found.", st)
  | some storedData =>
    let result := coco_authenticator_step_4 E currentTime storedData.VerificationKey proof
      publicAttributes blindSignRequest publicKey publicAttributesToken
    match result.1 with
    | SignResult.error e => (AuthResponse.error e, { st with calls := st.calls ++ result.2 })
    | SignResult.signed blindSignature verificationKey =>
      (AuthResponse.signature blindSignature verificationKey,
        { st with
          globalDB := setInGlobalStorage st.globalDB verificationKey verificationKey
          calls := st.calls ++ result.2 })

/-- The operation `handleChangeAuthenticationDataRequest`. -/
def handleChangeAuthenticationDataRequest (E : Engine) (currentTime : Int)
    (oldId oldProof : String) (oldPublicAttributes : List RawAttribute)
    (newId newVerificationKey proof : String) (publicAttributes : List RawAttribute)
    (blindSignRequest publicKey : String) (publicAttributesToken : List RawAttribute)
    (st : AuthState) : AuthResponse × AuthState :=
  match getFromStorage st.localDB oldId with
  | none => (AuthResponse.error "Old ID not found.", st)
  | some oldData =>
    let firstStepResult := coco_authenticator_step_4 E currentTime oldData.VerificationKey
      oldProof oldPublicAttributes blindSignRequest publicKey publicAttributesToken
    match firstStepResult.1 with
    | SignResult.error e =>
      (AuthResponse.error e, { st with calls := st.calls ++ firstStepResult.2 })
    | SignResult.signed _ _ =>
      let secondStepResult := coco_authenticator_step_4 E currentTime newVerificationKey
        proof publicAttributes blindSignRequest publicKey publicAttributesToken
      match secondStepResult.1 with
      | SignResult.error e =>
        (AuthResponse.error e,
          { st with calls := st.calls ++ firstStepResult.2 ++ secondStepResult.2 })
      | SignResult.signed blindSignature verificationKey =>
        (AuthResponse.signature blindSignature verificationKey,
          { localDB := deleteFromStorage
              (setInStorage st.localDB newId ⟨newVerificationKey⟩) oldId
            globalDB := setInGlobalStorage st.globalDB verificationKey verificationKey
            calls := st.calls ++ firstStepResult.2 ++ secondStepResult.2 })

/-- The operation `handleDeleteCredentialRequest`. -/
def handleDeleteCredentialRequest (E : Engine) (currentTime : Int) (id proof : String)
    (publicAttributes : List RawAttribute) (recoveryID recoveryProof : String)
    (recoveryPublicAttributes : List RawAttribute) (blindSignRequest publicKey : String)
    (publicAttributesToken : List RawAttribute) (st : AuthState) : AuthResponse × AuthState :=
  match getFromStorage st.localDB id with
  | none => (AuthResponse.error "ID not found.", st)
  | some idData =>
    let firstStepResult := coco_authenticator_step_4 E currentTime idData.VerificationKey
      proof publicAttributes blindSignRequest publicKey publicAttributesToken
    match firstStepResult.1 with
    | SignResult.error e =>
      (AuthResponse.error e, { st with calls := st.calls ++ firstStepResult.2 })
    | SignResult.signed _ _ =>
      match getFromStorage st.localDB recoveryID with
      | none =>
        (AuthResponse.error "ID not found.", { st with calls := st.calls ++ firstStepResult.2 })
      | some idData1 =>
        let secondStepResult := coco_authenticator_step_4 E currentTime
          idData1.VerificationKey recoveryProof recoveryPublicAttributes blindSignRequest
          publicKey publicAttributesToken
        match secondStepResult.1 with
        | SignResult.error e =>
          (AuthResponse.error e,
            { st with calls := st.calls ++ firstStepResult.2 ++ secondStepResult.2 })
        | SignResult.signed blindSignature verificationKey =>
          (AuthResponse.signature blindSignature verificationKey,
            { localDB := deleteFromStorage (deleteFromStorage st.localDB id) recoveryID
              globalDB := setInGlobalStorage st.globalDB verificationKey verificationKey
              calls := st.calls ++ firstStepResult.2 ++ secondStepResult.2 })

end Authenticator

/-! ## `COCOVerifyState` (`src/util/coco/coco-verify.js`) -/

/-- Result of `coco_verifier_step_2`: an `{ error }` object or a boolean. -/
inductive VerifyResult where
  | error (msg : String)
  | bool (b : Bool)
  deriving DecidableEq, Repr

/-- The `iat` / `exp` / `scope` block of `coco_verifier_step_2`, with the scope string and
the validity window as parameters: `none` when the three checks pass, otherwise the error
that is returned. Only attributes with `is_private` false are looked at. -/
def verifierAttributeCheck (scope : String) (validity currentTime : Int)
    (clientPublicAttributes : List RawAttribute) : Option String :=
  let iatAttr := clientPublicAttributes.find? (fun attr =>
    !attr.is_private && !(Number attr.value).isNaN)
  let iatNumber : JSNum :=
    match iatAttr with
    | some attr => Number attr.value
    | none => JSNum.nan
  let expAttr := clientPublicAttributes.find? (fun attr =>
    !attr.is_private && !(Number attr.value).isNaN && (Number attr.value).gt iatNumber.orZero)
  let scopeAttr := clientPublicAttributes.find? (fun attr =>
    !attr.is_private && attr.value == scope)
  let iatValue : JSNum := iatNumber
  let expValue : JSNum :=
    match expAttr with
    | some attr => Number attr.value
    | none => JSNum.nan
  if iatValue.isNaN || iatValue.gt (JSNum.fin currentTime 1) then
    some "Invalid `iat` attribute."
  else if expValue.isNaN || (JSNum.fin currentTime 1).ge expValue ||
      (expValue.sub iatValue).gt (JSNum.fin validity 1) then
    some "Invalid `exp` attribute."
  else
    match scopeAttr with
    | none => some "Invalid `scope` attribute."
    | some _ => none

/-- The method `coco_verifier_step_2`: attribute checks for scope `access:uid`, then proof
verification. The keys must be an array. -/
def coco_verifier_step_2 (E : Engine) (currentTime : Int) (verificationKeys : JSVal)
    (proof : String) (clientPublicAttributes : List RawAttribute) :
    VerifyResult × List EngineCall :=
  match verificationKeys with
  | JSVal.arr _ =>
    match verifierAttributeCheck "access:uid" VERIFIER_TOKEN_VALIDITY currentTime
        clientPublicAttributes with
    | some e => (VerifyResult.error e, [])
    | none =>
      let isValid := _verifyProof E verificationKeys proof clientPublicAttributes
      (VerifyResult.bool isValid.1, isValid.2)
  | JSVal.str s =>
    if isBlank s then
      (VerifyResult.error "Input verification key must be of the correct data type.", [])
    else (VerifyResult.error "Input parameters must be of the correct data type.", [])
  | _ => (VerifyResult.error "Input verification key must be of the correct data type.", [])

/-! ## Verifier service (`src/coco/verifier.js`) -/

/-- The mapping value `{ userId }` stored under a username. -/
structure UserMapping where
  userId : String
  deriving DecidableEq, Repr

/-- The user record `{ Salts, VerificationKeys }`. -/
structure UserRecord where
  Salts : List String
  VerificationKeys : List String
  deriving DecidableEq, Repr

/-- State seen by the Verifier. The local store has the collections `meta`,
`username_to_userid` and `userid_to_userdata`. A user record is a JavaScript object that
the code mutates in place and stores again, so `userid_to_userdata` holds references
(indices) into `heap`, the list of the record objects allocated so far. -/
structure VerifierState where
  metadata : List (Item JSVal)
  username_to_userid : List (Item UserMapping)
  userid_to_userdata : List (Item Nat)
  heap : List UserRecord
  globalDB : List (Item String)
  calls : List EngineCall
  deriving DecidableEq, Repr

/-- What a Verifier operation returns. -/
inductive VerifierResponse where
  /-- The object `{ error: msg }`. -/
  | error (msg : String)
  /-- The object `{ error: true }`. -/
  | errorFlag
  /-- The object `{ exists: true, userId }`. -/
  | existsTrue (userId : String)
  /-- The object `{ exists: false }`. -/
  | existsFalse
  /-- The object `{ exists: false, userId, pepper, Signature, VK }`. -/
  | registrationIssued (userId : String) (pepper : JSVal) (Signature VK : String)
  /-- The object `{ exists: true, userId, salts, pepper }`. -/
  | loginData (userId : String) (salts : Option (List String)) (pepper : JSVal)
  /-- The object `{ registered }`. -/
  | registered (ok : Bool)
  /-- The object `{ logged }`. -/
  | logged (ok : Bool)
  /-- The object `{ updated }`. -/
  | updated (ok : Bool)
  /-- The object `{ deleted }`. -/
  | deleted (ok : Bool)
  deriving DecidableEq, Repr

/-- The response reports success: `registered`, `logged`, `updated` or `deleted` is true. -/
def VerifierResponse.isSuccess : VerifierResponse → Bool
  | VerifierResponse.registered ok => ok
  | VerifierResponse.logged ok => ok
  | VerifierResponse.updated ok => ok
  | VerifierResponse.deleted ok => ok
  | _ => false

namespace Verifier

/-- The helper `getFromStorage` on a collection whose values are objects (truthy):
the value of the first item found, `none` for `null`. -/
def getFromStorage {α : Type} (collection : List (Item α)) (key : String) : Option α :=
  ((DatabaseHandler.retrieve collection (JSVal.str key)).head?).map (fun data => data.value)

/-- The helper `getFromGlobalStorage`: `data?.value || null` for the first item found. -/
def getFromGlobalStorage (globalDB : List (Item String)) (key : JSVal) : JSVal :=
  match (DatabaseHandler.retrieve globalDB key).head? with
  | some data => if data.value = "" then JSVal.null else JSVal.str data.value
  | none => JSVal.null

/-- The inner function `isVerificationSuccessful`: exactly the boolean `true`. -/
def isVerificationSuccessful (result : VerifyResult) : Bool :=
  match result with
  | VerifyResult.error _ => false
  | VerifyResult.bool b => b

/-- The loop that fills `ValidatedVerificationKeys`: each key is fetched from the global
registry; the first falsy fetch ends the operation with an error. -/
def validateVerificationKeys (globalDB : List (Item String)) :
    List String → Except String (List String)
  | [] => Except.ok []
  | key :: rest =>
    match getFromGlobalStorage globalDB (JSVal.str key) with
    | JSVal.str fetchedKey =>
      match validateVerificationKeys globalDB rest with
      | Except.ok validated => Except.ok (fetchedKey :: validated)
      | Except.error e => Except.error e
    | _ => Except.error ("Verification key " ++ key ++ " invalid or missing")

/-- Assignment of a field on the record objects with the given references. -/
def mutateObjects (refs : List Nat) (f : UserRecord → UserRecord) :
    Nat → List UserRecord → List UserRecord
  | _, [] => []
  | i, object :: rest =>
    (if refs.contains i then f object else object) :: mutateObjects refs f (i + 1) rest

/-- The helper `updateInStorage` on `userid_to_userdata` with the update
`{ VerificationKeys }`: the field is set on the value of every item found. -/
def updateInStorage (st : VerifierState) (key : String) (VerificationKeys : List String) :
    VerifierState :=
  let found := (DatabaseHandler.retrieve st.userid_to_userdata (JSVal.str key)).map
    (fun item => item.value)
  { st with
    heap := mutateObjects found (fun o => { o with VerificationKeys := VerificationKeys }) 0
      st.heap }

/-- The operation `completeRegistration`. -/
def completeRegistration (E : Engine) (currentTime : Int) (username userId : String)
    (salts VerificationKeys : List String) (AccessTokenProof : String)
    (PublicAttributes : List RawAttribute) (st : VerifierState) :
    VerifierResponse × VerifierState :=
  match getFromStorage st.username_to_userid username with
  | some userMapping => (VerifierResponse.existsTrue userMapping.userId, st)
  | none =>
    match validateVerificationKeys st.globalDB VerificationKeys with
    | Except.error e => (VerifierResponse.error e, st)
    | Except.ok ValidatedVerificationKeys =>
      let verificationResult := coco_verifier_step_2 E currentTime
        (JSVal.arr ValidatedVerificationKeys) AccessTokenProof PublicAttributes
      if isVerificationSuccessful verificationResult.1 then
        (VerifierResponse.registered true,
          { st with
            username_to_userid := DatabaseHandler.save st.username_to_userid ⟨username, ⟨userId⟩⟩
            userid_to_userdata := DatabaseHandler.save st.userid_to_userdata
              ⟨userId, st.heap.length⟩
            heap := st.heap ++ [⟨salts, ValidatedVerificationKeys⟩]
            calls := st.calls ++ verificationResult.2 })
      else (VerifierResponse.registered false, { st with calls := st.calls ++ verificationResult.2 })

/-- The operation `completeLogin`. -/
def completeLogin (E : Engine) (currentTime : Int) (username : String)
    (VerificationKeys : List String) (AccessTokenProof : String)
    (PublicAttributes : List RawAttribute) (st : VerifierState) :
    VerifierResponse × VerifierState :=
  match getFromStorage st.username_to_userid username with
  | none => (VerifierResponse.existsFalse, st)
  | some userMapping =>
    match validateVerificationKeys st.globalDB VerificationKeys with
    | Except.error e => (VerifierResponse.error e, st)
    | Except.ok ValidatedVerificationKeys =>
      let verificationResult := coco_verifier_step_2 E currentTime
        (JSVal.arr ValidatedVerificationKeys) AccessTokenProof PublicAttributes
      if isVerificationSuccessful verificationResult.1 then
        (VerifierResponse.logged true,
          updateInStorage { st with calls := st.calls ++ verificationResult.2 }
            userMapping.userId ValidatedVerificationKeys)
      else (VerifierResponse.logged false, { st with calls := st.calls ++ verificationResult.2 })

/-- The operation `handleUpdateSaltsRequest`. The fetched `userData` is the stored object
itself: its `Salts` field is assigned, then the same object is saved once more. -/
def handleUpdateSaltsRequest (E : Engine) (currentTime : Int) (username : String)
    (new_salts VerificationKeys : List String) (AccessTokenProof : String)
    (PublicAttributes : List RawAttribute) (st : VerifierState) :
    VerifierResponse × VerifierState :=
  match getFromStorage st.username_to_userid username with
  | none => (VerifierResponse.error "User not found", st)
  | some userMapping =>
    match validateVerificationKeys st.globalDB VerificationKeys with
    | Except.error e => (VerifierResponse.error e, st)
    | Except.ok ValidatedVerificationKeys =>
      let verificationResult := coco_verifier_step_2 E currentTime
        (JSVal.arr ValidatedVerificationKeys) AccessTokenProof PublicAttributes
      if isVerificationSuccessful verificationResult.1 then
        match getFromStorage st.userid_to_userdata userMapping.userId with
        | some userData =>
          (VerifierResponse.updated true,
            { st with
              heap := mutateObjects [userData] (fun o => { o with Salts := new_salts }) 0 st.heap
              userid_to_userdata := DatabaseHandler.save st.userid_to_userdata
                ⟨userMapping.userId, userData⟩
              calls := st.calls ++ verificationResult.2 })
        | none =>
          (VerifierResponse.updated false, { st with calls := st.calls ++ verificationResult.2 })
      else (VerifierResponse.updated false, { st with calls := st.calls ++ verificationResult.2 })

/-- The operation `handleDeleteUserRequest`. -/
def handleDeleteUserRequest (E : Engine) (currentTime : Int) (username : String)
    (VerificationKeys : List String) (AccessTokenProof : String)
    (PublicAttributes : List RawAttribute) (st : VerifierState) :
    VerifierResponse × VerifierState :=
  match getFromStorage st.username_to_userid username with
  | none => (VerifierResponse.error "User not found", st)
  | some userMapping =>
    match validateVerificationKeys st.globalDB VerificationKeys with
    | Except.error e => (VerifierResponse.error e, st)
    | Except.ok ValidatedVerificationKeys =>
      let verificationResult := coco_verifier_step_2 E currentTime
        (JSVal.arr ValidatedVerificationKeys) AccessTokenProof PublicAttributes
      if isVerificationSuccessful verificationResult.1 then
        (VerifierResponse.deleted true,
          { st with
            username_to_userid := DatabaseHandler.delete st.username_to_userid
              (JSVal.str username)
            userid_to_userdata := DatabaseHandler.delete st.userid_to_userdata
              (JSVal.str userMapping.userId)
            calls := st.calls ++ verificationResult.2 })
      else (VerifierResponse.deleted false, { st with calls := st.calls ++ verificationResult.2 })

/-- The operation `handleUsernameUpdateRequest`. -/
def handleUsernameUpdateRequest (E : Engine) (currentTime : Int) (username new_username : String)
    (VerificationKeys : List String) (AccessTokenProof : String)
    (PublicAttributes : List RawAttribute) (st : VerifierState) :
    VerifierResponse × VerifierState :=
  match getFromStorage st.username_to_userid username with
  | none => (VerifierResponse.error "User not found", st)
  | some userMapping =>
    match getFromStorage st.username_to_userid new_username with
    | some newUserMapping => (VerifierResponse.existsTrue newUserMapping.userId, st)
    | none =>
      match validateVerificationKeys st.globalDB VerificationKeys with
      | Except.error e => (VerifierResponse.error e, st)
      | Except.ok ValidatedVerificationKeys =>
        let verificationResult := coco_verifier_step_2 E currentTime
          (JSVal.arr ValidatedVerificationKeys) AccessTokenProof PublicAttributes
        if isVerificationSuccessful verificationResult.1 then
          (VerifierResponse.updated true,
            { st with
              username_to_userid := DatabaseHandler.delete
                (DatabaseHandler.save st.username_to_userid ⟨new_username, ⟨userMapping.userId⟩⟩)
                (JSVal.str username)
              calls := st.calls ++ verificationResult.2 })
        else
          (VerifierResponse.updated false, { st with calls := st.calls ++ verificationResult.2 })

end Verifier

/-! ## Remaining operations of the Verifier service -/

/-- The constant `VERIFIER_PEPPER_COLLECTION` of `src/config.js`: the key of the pepper in
the collection `meta`. -/
def VERIFIER_PEPPER_COLLECTION : String := "pepper"

/-- JavaScript truthiness of a value: `undefined`, `null` and the empty string are falsy. -/
def JSVal.truthy : JSVal → Bool
  | JSVal.undefined => false
  | JSVal.null => false
  | JSVal.str s => !(s == "")
  | JSVal.arr _ => true

/-- The method `coco_verifier_step_0`: the generated random hex string, or `null` when the
generator throws. The argument is the outcome of `generateSecureRandom(32)`. -/
def coco_verifier_step_0 (random : Option String) : JSVal :=
  match random with
  | some pepper => JSVal.str pepper
  | none => JSVal.null

/-- The method `coco_verifier_step_1`: attribute checks for scope `register:uid` (the same
block as in the Authenticator steps), then a blind signature. -/
def coco_verifier_step_1 (E : Engine) (currentTime : Int)
    (blindSignRequest clientPublicKey : String) (clientPublicAttributes : List RawAttribute) :
    SignResult × List EngineCall :=
  if isBlank blindSignRequest then (SignResult.error "Invalid blind signature request.", [])
  else if isBlank clientPublicKey then (SignResult.error "Invalid client public key.", [])
  else
    match authenticatorAttributeCheck "register:uid" AUTHENTICATOR_TOKEN_VALIDITY currentTime
        clientPublicAttributes with
    | some e => (SignResult.error e, [])
    | none => _generateBlindSignature E blindSignRequest clientPublicKey clientPublicAttributes

namespace Verifier

/-- The helper `getFromStorage` on the collection `meta`, whose values are strings or
`null`: `data?.value || null` for the first item found. -/
def getFromMetaStorage (metadata : List (Item JSVal)) (key : String) : JSVal :=
  match (DatabaseHandler.retrieve metadata (JSVal.str key)).head? with
  | some data => if data.value.truthy then data.value else JSVal.null
  | none => JSVal.null

/-- The helper `getFromStorage` on `userid_to_userdata`, followed by the dereference of the
record object found. -/
def getUserData (st : VerifierState) (userId : String) : Option UserRecord :=
  (getFromStorage st.userid_to_userdata userId).bind (fun ref => st.heap[ref]?)

/-- The inner function `initPepper`. The argument is the outcome of the random generator,
which is consulted only when no truthy pepper is stored. -/
def initPepper (random : Option String) (st : VerifierState) : VerifierState :=
  let existingPepper := getFromMetaStorage st.metadata VERIFIER_PEPPER_COLLECTION
  if existingPepper.truthy then st
  else
    let newPepper := coco_verifier_step_0 random
    { st with metadata := DatabaseHandler.save st.metadata ⟨VERIFIER_PEPPER_COLLECTION, newPepper⟩ }

/-- The operation `handleRegistrationRequest`. The argument `uuid` is the value of
`uuidv4()`. -/
def handleRegistrationRequest (E : Engine) (currentTime : Int) (uuid username : String)
    (blindSignRequest publicKey : String) (publicAttributes : List RawAttribute)
    (st : VerifierState) : VerifierResponse × VerifierState :=
  let userMapping := getFromStorage st.username_to_userid username
  let pepper := getFromMetaStorage st.metadata VERIFIER_PEPPER_COLLECTION
  match userMapping with
  | some mapping => (VerifierResponse.existsTrue mapping.userId, st)
  | none =>
    let userId := uuid
    let result := coco_verifier_step_1 E currentTime blindSignRequest publicKey publicAttributes
    match result.1 with
    | SignResult.error _ =>
      (VerifierResponse.errorFlag, { st with calls := st.calls ++ result.2 })
    | SignResult.signed blindSignature verificationKey =>
      (VerifierResponse.registrationIssued userId pepper blindSignature verificationKey,
        { st with
          globalDB := DatabaseHandler.save st.globalDB ⟨verificationKey, verificationKey⟩
          calls := st.calls ++ result.2 })

/-- The operation `handleLoginRequest`. -/
def handleLoginRequest (username : String) (st : VerifierState) :
    VerifierResponse × VerifierState :=
  match getFromStorage st.username_to_userid username with
  | none => (VerifierResponse.existsFalse, st)
  | some userMapping =>
    let userId := userMapping.userId
    let userData := getUserData st userId
    let pepper := getFromMetaStorage st.metadata VERIFIER_PEPPER_COLLECTION
    (VerifierResponse.loginData userId (userData.map (fun o => o.Salts)) pepper, st)

/-- The loop of `credentialLogin` over the positions of the stored key list: true when
some stored key is not strictly equal to the supplied value at its position (`undefined`
past the end of the supplied list). -/
def keysMismatch : List String → List String → Bool
  | [], _ => false
  | _ :: _, [] => true
  | stored :: storedRest, supplied :: suppliedRest =>
    if stored = supplied then keysMismatch storedRest suppliedRest else true

/-- The operation `credentialLogin`; `none` when it throws, which it does on reading
`userData.VerificationKeys` from a `null` record. -/
def credentialLogin (E : Engine) (currentTime : Int) (username : String)
    (VerificationKeys : List String) (AccessTokenProof : String)
    (PublicAttributes : List RawAttribute) (st : VerifierState) :
    Option VerifierResponse × VerifierState :=
  match getFromStorage st.username_to_userid username with
  | none => (some VerifierResponse.existsFalse, st)
  | some userMapping =>
    match getUserData st userMapping.userId with
    | none => (none, st)
    | some userData =>
      let verificationKeys := userData.VerificationKeys
      if keysMismatch verificationKeys VerificationKeys then
        (some (VerifierResponse.error "Verification Keys Mismatch"), st)
      else
        let verificationResult := coco_verifier_step_2 E currentTime
          (JSVal.arr verificationKeys) AccessTokenProof PublicAttributes
        if isVerificationSuccessful verificationResult.1 then
          (some (VerifierResponse.logged true),
            { st with calls := st.calls ++ verificationResult.2 })
        else
          (some (VerifierResponse.logged false),
            { st with calls := st.calls ++ verificationResult.2 })

end Verifier

/-- One call of a Verifier operation with its arguments, `initPepper` included (it runs
when the service is constructed). -/
inductive VerifierCall where
  | initPepper (random : Option String)
  | handleRegistrationRequest (uuid username blindSignRequest publicKey : String)
      (publicAttributes : List RawAttribute)
  | handleLoginRequest (username : String)
  | completeRegistration (username userId : String) (salts VerificationKeys : List String)
      (AccessTokenProof : String) (PublicAttributes : List RawAttribute)
  | completeLogin (username : String) (VerificationKeys : List String)
      (AccessTokenProof : String) (PublicAttributes : List RawAttribute)
  | credentialLogin (username : String) (VerificationKeys : List String)
      (AccessTokenProof : String) (PublicAttributes : List RawAttribute)
  | handleUpdateSaltsRequest (username : String) (new_salts VerificationKeys : List String)
      (AccessTokenProof : String) (PublicAttributes : List RawAttribute)
  | handleDeleteUserRequest (username : String) (VerificationKeys : List String)
      (AccessTokenProof : String) (PublicAttributes : List RawAttribute)
  | handleUsernameUpdateRequest (username new_username : String)
      (VerificationKeys : List String) (AccessTokenProof : String)
      (PublicAttributes : List RawAttribute)

/-- The state after one call of a Verifier operation. -/
def Verifier.step (E : Engine) (currentTime : Int) (call : VerifierCall) (st : VerifierState) :
    VerifierState :=
  match call with
  | VerifierCall.initPepper random => Verifier.initPepper random st
  | VerifierCall.handleRegistrationRequest uuid username req pk attrs =>
    (Verifier.handleRegistrationRequest E currentTime uuid username req pk attrs st).2
  | VerifierCall.handleLoginRequest username => (Verifier.handleLoginRequest username st).2
  | VerifierCall.completeRegistration username userId salts keys proof attrs =>
    (Verifier.completeRegistration E currentTime username userId salts keys proof attrs st).2
  | VerifierCall.completeLogin username keys proof attrs =>
    (Verifier.completeLogin E currentTime username keys proof attrs st).2
  | VerifierCall.credentialLogin username keys proof attrs =>
    (Verifier.credentialLogin E currentTime username keys proof attrs st).2
  | VerifierCall.handleUpdateSaltsRequest username new_salts keys proof attrs =>
    (Verifier.handleUpdateSaltsRequest E currentTime username new_salts keys proof attrs st).2
  | VerifierCall.handleDeleteUserRequest username keys proof attrs =>
    (Verifier.handleDeleteUserRequest E currentTime username keys proof attrs st).2
  | VerifierCall.handleUsernameUpdateRequest username new_username keys proof attrs =>
    (Verifier.handleUsernameUpdateRequest E currentTime username new_username keys proof
      attrs st).2

/-! ## Remaining operations of the Authenticator service -/

namespace Authenticator

/-- The operation `getOPRFPrivateKey`. The argument is the answer of the blinding engine to
`getPrivateKey()`, `none` when it throws. The stores are not touched. -/
def getOPRFPrivateKey (privateKey : Option String) (st : AuthState) :
    Except String String × AuthState :=
  (match privateKey with
    | some key => Except.ok key
    | none => Except.error "Failed to retrieve OPRF private key.", st)

/-- The operation `handleNFACredentialCreationRequest`. -/
def handleNFACredentialCreationRequest (E : Engine) (currentTime : Int) (id proof : String)
    (publicAttributes : List RawAttribute) (recoveryID recoveryVerificationKey
    recoveryProof : String) (recoveryPublicAttributes : List RawAttribute)
    (blindSignRequest publicKey : String) (publicAttributesToken : List RawAttribute)
    (st : AuthState) : AuthResponse × AuthState :=
  match getFromStorage st.localDB id with
  | none => (AuthResponse.error "ID not found.", st)
  | some idData =>
    let firstStepResult := coco_authenticator_step_4 E currentTime idData.VerificationKey
      proof publicAttributes blindSignRequest publicKey publicAttributesToken
    match firstStepResult.1 with
    | SignResult.error e =>
      (AuthResponse.error e, { st with calls := st.calls ++ firstStepResult.2 })
    | SignResult.signed _ _ =>
      let secondStepResult := coco_authenticator_step_4 E currentTime recoveryVerificationKey
        recoveryProof recoveryPublicAttributes blindSignRequest publicKey publicAttributesToken
      match secondStepResult.1 with
      | SignResult.error e =>
        (AuthResponse.error e,
          { st with calls := st.calls ++ firstStepResult.2 ++ secondStepResult.2 })
      | SignResult.signed blindSignature verificationKey =>
        if (getFromStorage st.localDB recoveryID).isSome then
          (AuthResponse.error "Recovery ID already exists.",
            { st with calls := st.calls ++ firstStepResult.2 ++ secondStepResult.2 })
        else
          (AuthResponse.signature blindSignature verificationKey,
            { localDB := setInStorage st.localDB recoveryID ⟨recoveryVerificationKey⟩
              globalDB := setInGlobalStorage st.globalDB verificationKey verificationKey
              calls := st.calls ++ firstStepResult.2 ++ secondStepResult.2 })

end Authenticator

/-- One call of an Authenticator operation with its arguments. -/
inductive AuthenticatorCall where
  | getOPRFPrivateKey (privateKey : Option String)
  | handleBlindSignatureRequest (blindSignRequest publicKey : String)
      (publicAttributes : List RawAttribute)
  | handleOPRFEvaluation (verificationKeys : JSVal) (proof : String)
      (publicAttributes : List RawAttribute) (evalRequest : String)
  | handleRegisterRequest (id currentVerificationKey proof : String)
      (publicAttributes : List RawAttribute) (blindSignRequest publicKey : String)
      (publicAttributesToken : List RawAttribute) (registrationTokenProof : String)
      (registrationTokenPublicAttribute : List RawAttribute)
      (registrationTokenVerificationKey : JSVal)
  | handleLoginRequest (id proof : String) (publicAttributes : List RawAttribute)
      (blindSignRequest publicKey : String) (publicAttributesToken : List RawAttribute)
  | handleChangeAuthenticationDataRequest (oldId oldProof : String)
      (oldPublicAttributes : List RawAttribute) (newId newVerificationKey proof : String)
      (publicAttributes : List RawAttribute) (blindSignRequest publicKey : String)
      (publicAttributesToken : List RawAttribute)
  | handleNFACredentialCreationRequest (id proof : String)
      (publicAttributes : List RawAttribute) (recoveryID recoveryVerificationKey
      recoveryProof : String) (recoveryPublicAttributes : List RawAttribute)
      (blindSignRequest publicKey : String) (publicAttributesToken : List RawAttribute)
  | handleDeleteCredentialRequest (id proof : String) (publicAttributes : List RawAttribute)
      (recoveryID recoveryProof : String) (recoveryPublicAttributes : List RawAttribute)
      (blindSignRequest publicKey : String) (publicAttributesToken : List RawAttribute)

/-- The state after one call of an Authenticator operation. -/
def Authenticator.step (E : Engine) (currentTime : Int) (call : AuthenticatorCall)
    (st : AuthState) : AuthState :=
  match call with
  | AuthenticatorCall.getOPRFPrivateKey privateKey =>
    (Authenticator.getOPRFPrivateKey privateKey st).2
  | AuthenticatorCall.handleBlindSignatureRequest req pk attrs =>
    (Authenticator.handleBlindSignatureRequest E currentTime req pk attrs st).2
  | AuthenticatorCall.handleOPRFEvaluation keys proof attrs evalRequest =>
    (Authenticator.handleOPRFEvaluation E currentTime keys proof attrs evalRequest st).2
  | AuthenticatorCall.handleRegisterRequest id vk proof attrs req pk tokenAttrs regProof
      regAttrs regKey =>
    (Authenticator.handleRegisterRequest E currentTime id vk proof attrs req pk tokenAttrs
      regProof regAttrs regKey st).2
  | AuthenticatorCall.handleLoginRequest id proof attrs req pk tokenAttrs =>
    (Authenticator.handleLoginRequest E currentTime id proof attrs req pk tokenAttrs st).2
  | AuthenticatorCall.handleChangeAuthenticationDataRequest oldId oldProof oldAttrs newId newVK
      proof attrs req pk tokenAttrs =>
    (Authenticator.handleChangeAuthenticationDataRequest E currentTime oldId oldProof oldAttrs
      newId newVK proof attrs req pk tokenAttrs st).2
  | AuthenticatorCall.handleNFACredentialCreationRequest id proof attrs recoveryID recoveryVK
      recoveryProof recoveryAttrs req pk tokenAttrs =>
    (Authenticator.handleNFACredentialCreationRequest E currentTime id proof attrs recoveryID
      recoveryVK recoveryProof recoveryAttrs req pk tokenAttrs st).2
  | AuthenticatorCall.handleDeleteCredentialRequest id proof attrs recoveryID recoveryProof
      recoveryAttrs req pk tokenAttrs =>
    (Authenticator.handleDeleteCredentialRequest E currentTime id proof attrs recoveryID
      recoveryProof recoveryAttrs req pk tokenAttrs st).2

/-- The Global Key Registries that can be reached from the empty one: at each step some
Authenticator or the Verifier, in any local state and with any engine and clock, runs one
operation on the shared registry. -/
inductive RegistryReachable : List (Item String) → Prop where
  | empty : RegistryReachable []
  | authenticator (E : Engine) (currentTime : Int) (call : AuthenticatorCall)
      (st : AuthState) : RegistryReachable st.globalDB →
      RegistryReachable (Authenticator.step E currentTime call st).globalDB
  | verifier (E : Engine) (currentTime : Int) (call : VerifierCall) (st : VerifierState) :
      RegistryReachable st.globalDB →
      RegistryReachable (Verifier.step E currentTime call st).globalDB

/-! ## Hexadecimal strings and byte arrays (`src/util/uint8Arrayutils.js`)

A byte array (`Uint8Array`, `Buffer`) is the list of its elements, numbers below 256. -/

/-- The hexadecimal digit of a value below 16, in lower case as `Number.prototype.toString(16)`
writes it. -/
def hexDigit (d : Nat) : Char :=
  if d < 10 then Char.ofNat (48 + d) else Char.ofNat (87 + d)

/-- The expression `byte.toString(16).padStart(2, '0')` on an element of a byte array. -/
def byteToHex (byte : Nat) : List Char :=
  [hexDigit (byte / 16), hexDigit (byte % 16)]

/-- The function `uint8ArrayToHex`: the two-digit forms of the elements, joined. -/
def uint8ArrayToHex (uint8Array : List Nat) : String :=
  String.mk (uint8Array.flatMap byteToHex)

/-- The loop `byteArray[i / 2] = parseInt(hexString.slice(i, i + 2), 16)` for
`i = 0, 2, 4, ...` on a string of hexadecimal digits. The array has
`floor(hexString.length / 2)` elements, so the write made for a last single digit falls
outside it and is dropped. -/
def hexPairs : List Char → List Nat
  | c :: d :: rest => (16 * digitValue c + digitValue d) :: hexPairs rest
  | _ => []

/-- The test `/^[0-9a-fA-F]*$/` on the characters of a string. -/
def allHex (cs : List Char) : Bool := cs.all (isDigitOf 16)

/-- The function `hexToUint8Array`; `none` is the `TypeError` it throws. -/
def hexToUint8Array (hexString : String) : Option (List Nat) :=
  if allHex hexString.toList then some (hexPairs hexString.toList) else none

/-! ## Random strings (`src/util/randomGen.js`) -/

/-- The constant `SALT_N_PEPPER_LENGTH` of `src/config.js`. -/
def SALT_N_PEPPER_LENGTH : Int := 32

/-- The function `generateSecureRandom(length)`; `none` is the error it throws. `sha512` is
the hash function, `randomBytes` the output of `crypto.randomBytes(length)` and
`timestampEntropy` the bytes of `Date.now().toString()`. The digest is written in
hexadecimal and cut to its first `length * 2` characters. -/
def generateSecureRandom (sha512 : List Nat → List Nat) (randomBytes timestampEntropy : List Nat)
    (length : Int) : Option String :=
  if length ≤ 0 then none
  else
    let combinedEntropy := randomBytes ++ timestampEntropy
    let secureRandom := sha512 combinedEntropy
    some (String.mk ((secureRandom.flatMap byteToHex).take (length * 2).toNat))

/-- All the answers of a list of calls, `none` as soon as one of them threw. -/
def allOrNone {α : Type} : List (Option α) → Option (List α)
  | [] => some []
  | none :: _ => none
  | some a :: rest =>
    match allOrNone rest with
    | some as => some (a :: as)
    | none => none

/-! ## Hashing (`src/util/argonHash.js`) -/

/-- UTF-8 form of one code point, as `Buffer.from(input, 'utf-8')` writes it. -/
def utf8EncodeCodePoint (n : Nat) : List Nat :=
  if n < 0x80 then [n]
  else if n < 0x800 then [0xC0 + n / 0x40, 0x80 + n % 0x40]
  else if n < 0x10000 then [0xE0 + n / 0x1000, 0x80 + n / 0x40 % 0x40, 0x80 + n % 0x40]
  else [0xF0 + n / 0x40000, 0x80 + n / 0x1000 % 0x40, 0x80 + n / 0x40 % 0x40, 0x80 + n % 0x40]

/-- The buffer `Buffer.from(input, 'utf-8')` of a string. -/
def utf8Encode (cs : List Char) : List Nat :=
  cs.flatMap (fun c => utf8EncodeCodePoint c.toNat)

/-- The test `/^[0-9a-fA-F]+$/` on a string. -/
def isHexString (input : String) : Bool :=
  !input.toList.isEmpty && allHex input.toList

/-- The buffer that `H` makes of one string input: `Buffer.from(input, 'hex')` (pairs of
digits, a last single digit is dropped) when the input is a hexadecimal string,
`Buffer.from(input, 'utf-8')` otherwise. -/
def H.inputBuffer (input : String) : List Nat :=
  if isHexString input then hexPairs input.toList else utf8Encode input.toList

/-- The buffer `combinedInput` of `H`: the buffers of the inputs, concatenated. -/
def H.combinedInput (inputs : List String) : List Nat :=
  inputs.flatMap H.inputBuffer

/-- The function `H(...inputs)` on strings. `argon2id` is the Argon2id hash of a buffer
under the salt derived from it, written in hexadecimal; `none` is a thrown error, which
`H` throws on as `Hash generation failed`. -/
def H (argon2id : List Nat → Option String) (inputs : List String) : Option String :=
  argon2id (H.combinedInput inputs)

/-! ## Client state (`src/util/coco/coco-client.js`)

The credential engine and the blinding engine of the client are external, as those of the
services are. Both randomise: the argument `draw` of an engine function names the
randomness it consumes, so that two calls on equal inputs may answer differently. -/

/-- What proof generation returns: `{ proof, randomizedCredential,
aggregatedVerificationKey }`. -/
structure CredentialProof where
  proof : String
  randomizedCredential : String
  aggregatedVerificationKey : String
  deriving DecidableEq, Repr

/-- The external engines of the client. `none` stands for a thrown exception. -/
structure ClientEngine where
  /-- The call `clientState.prepare_blind_sign()` after the raw attributes were set. -/
  prepare_blind_sign : List RawAttribute → Option String
  /-- The property `clientState.get_client_public_key`. -/
  get_client_public_key : String
  /-- The method `processAndProveCredential` of the credential engine wrapper. -/
  processAndProveCredential : List String → List String → Option CredentialProof
  /-- The calls `randomise_credential` and `prove_credential` made by
  `generateNewProofOfCredential`: the proof and the randomized credential. -/
  randomiseAndProve : Nat → String → String → Option (String × String)
  /-- The call `client.blind([inputBytes])` followed by the two `serialize()` calls: the
  serialized finalize data and the serialized evaluation request. -/
  blind : Nat → List Nat → Option (List Nat × List Nat)

/-- What a token request step returns: `{ publicKey, publicAttributes, blindSignRequest }`. -/
structure BlindSignRequest where
  publicKey : String
  publicAttributes : List RawAttribute
  blindSignRequest : String
  deriving DecidableEq, Repr

/-- The method `configureAndPrepareSign` of `src/util/coconut/coconutClientState.js`. -/
def configureAndPrepareSign (C : ClientEngine) (rawAttributes : List RawAttribute) :
    Option BlindSignRequest :=
  let publicAttributes := rawAttributes.filter (fun attr => !attr.is_private)
  match C.prepare_blind_sign rawAttributes with
  | none => none
  | some blindSignRequest =>
    let publicKey := C.get_client_public_key
    some ⟨publicKey, publicAttributes, blindSignRequest⟩

/-- The method `generateNewProofOfCredential` of the same file: the aggregated verification
key is handed back as it came. -/
def generateNewProofOfCredential (C : ClientEngine) (draw : Nat)
    (aggregatedCredential aggregatedVerificationKey : String) : Option CredentialProof :=
  match C.randomiseAndProve draw aggregatedCredential aggregatedVerificationKey with
  | none => none
  | some (proof, randomizedCredential) =>
    some ⟨proof, randomizedCredential, aggregatedVerificationKey⟩

/-- The method `prepareBlindEvaluation` of `src/util/oprf/oprfClient.js` on a string. -/
def prepareBlindEvaluation (C : ClientEngine) (draw : Nat) (input : String) :
    Option (String × String) :=
  match hexToUint8Array input with
  | none => none
  | some inputBytes =>
    match C.blind draw inputBytes with
    | none => none
    | some (serializedFinalizeData, serializedEvalRequest) =>
      some (uint8ArrayToHex serializedFinalizeData, uint8ArrayToHex serializedEvalRequest)

/-- The private method `_generateRandom`. -/
def _generateRandom (sha512 : List Nat → List Nat) (randomBytes timestampEntropy : List Nat)
    (length : Int) : Option String :=
  if length ≤ 0 then none
  else generateSecureRandom sha512 randomBytes timestampEntropy length

/-- The private method `_hash` on strings. -/
def _hash (argon2id : List Nat → Option String) (input : List String) : Option String :=
  H argon2id input

/-- The private method `_generateBlindSignRequest`; `none` is a thrown error. -/
def _generateBlindSignRequest (C : ClientEngine) (rawAttributes : List RawAttribute) :
    Option BlindSignRequest :=
  if rawAttributes.length = 0 then none
  else
    match configureAndPrepareSign C rawAttributes with
    | none => none
    | some result =>
      if result.publicKey = "" ∨ result.blindSignRequest = "" then none
      else some result

/-- The private method `_generateProof` on two arrays; `none` is a thrown error. -/
def _generateProof (C : ClientEngine) (blindSignatures verificationKeys : List String) :
    Option CredentialProof :=
  match C.processAndProveCredential blindSignatures verificationKeys with
  | none => none
  | some result =>
    if result.proof = "" ∨ result.randomizedCredential = "" ∨
        result.aggregatedVerificationKey = "" then none
    else some result

/-- The private method `_generateNewProof`; `none` is a thrown error. -/
def _generateNewProof (C : ClientEngine) (draw : Nat)
    (randomizedCred aggregatedVerificationKey : String) : Option CredentialProof :=
  if randomizedCred = "" ∨ aggregatedVerificationKey = "" then none
  else
    match generateNewProofOfCredential C draw randomizedCred aggregatedVerificationKey with
    | none => none
    | some result =>
      if result.proof = "" ∨ result.randomizedCredential = "" ∨
          result.aggregatedVerificationKey = "" then none
      else some result

/-- The private method `_blindOPRFInput`: `(hexFinalizeData, hexEvalRequest)`; `none` is a
thrown error. -/
def _blindOPRFInput (C : ClientEngine) (draw : Nat) (priv_input : String) :
    Option (String × String) :=
  match prepareBlindEvaluation C draw priv_input with
  | none => none
  | some (hexFinalizeData, hexEvalRequest) =>
    if hexFinalizeData = "" ∨ hexEvalRequest = "" then none
    else some (hexFinalizeData, hexEvalRequest)

/-- The body shared by `coco_client_step_0`, `coco_client_step_3` and `coco_client_step_6`
once the default parameters are filled in: the three checks, the raw attribute list and
the request; `none` is an error thrown inside the `try` block. -/
def tokenRequest (C : ClientEngine) (sub : String) (iat exp : JSNum) (scope : String) :
    Option BlindSignRequest :=
  if isBlank sub then none
  else if iat.ge exp then none
  else if isBlank scope then none
  else
    let rawAttributes : List RawAttribute :=
      [⟨sub, true⟩, ⟨iat.toString, false⟩, ⟨exp.toString, false⟩, ⟨scope, false⟩]
    _generateBlindSignRequest C rawAttributes

/-- The Number value of an integer argument: the integer itself up to magnitude `2 ^ 53`. -/
def numberOfInt (n : Int) : JSNum := (JSNum.fin n 1).toBinary64

/-- The method `coco_client_step_0(sub, iat, exp, scope)`. The numbers passed for `iat` and
`exp` are integers. A parameter that is not passed is `none` and takes its default:
`Math.floor(Date.now() / 1000)` (the argument `currentTime`),
`iat + AUTHENTICATOR_TOKEN_VALIDITY`, `"register:uid"`. -/
def coco_client_step_0 (C : ClientEngine) (currentTime : Int) (sub : String)
    (iat exp : Option Int) (scope : Option String) : Except String BlindSignRequest :=
  let iat := numberOfInt (iat.getD currentTime)
  let exp :=
    match exp with
    | some e => numberOfInt e
    | none => iat.add (numberOfInt AUTHENTICATOR_TOKEN_VALIDITY)
  let scope := scope.getD "register:uid"
  match tokenRequest C sub iat exp scope with
  | some result => Except.ok result
  | none => Except.error "Failed to generate blind sign request."

/-- The method `coco_client_step_1`: one salt per Authenticator. `entropy i` is what the
`i`-th call of the generator draws: the random bytes and the bytes of the timestamp. -/
def coco_client_step_1 (sha512 : List Nat → List Nat) (entropy : Nat → List Nat × List Nat)
    (number_of_authenticators : Int) : Except String (List String) :=
  if number_of_authenticators ≤ 0 then Except.error "Failed to generate salts."
  else
    match allOrNone ((List.range number_of_authenticators.toNat).map (fun i =>
      _generateRandom sha512 (entropy i).1 (entropy i).2 SALT_N_PEPPER_LENGTH)) with
    | some salts => Except.ok salts
    | none => Except.error "Failed to generate salts."

/-- The method `coco_client_step_2(uid, secret, salts, pepper)`. The argument `salts` is an
array of strings or a value that is not an array. -/
def coco_client_step_2 (argon2id : List Nat → Option String) (uid secret : String)
    (salts : JSVal) (pepper : String) : Except String (List String) :=
  if isBlank uid then Except.error "Failed to generate RIDs."
  else if isBlank secret then Except.error "Failed to generate RIDs."
  else
    match salts with
    | JSVal.arr salts =>
      if isBlank pepper then Except.error "Failed to generate RIDs."
      else
        match allOrNone (salts.map (fun salt =>
          match _hash argon2id [secret, salt] with
          | none => none
          | some hashedSecret => _hash argon2id [uid, hashedSecret, pepper])) with
        | some rids => Except.ok rids
        | none => Except.error "Failed to generate RIDs."
    | _ => Except.error "Failed to generate RIDs."

/-- The method `coco_client_step_3(sub, iat, exp, scope)`, with the defaults
`iat + AUTHENTICATOR_TOKEN_VALIDITY` and `"evaluate:OPRF"`. -/
def coco_client_step_3 (C : ClientEngine) (currentTime : Int) (sub : String)
    (iat exp : Option Int) (scope : Option String) : Except String BlindSignRequest :=
  let iat := numberOfInt (iat.getD currentTime)
  let exp :=
    match exp with
    | some e => numberOfInt e
    | none => iat.add (numberOfInt AUTHENTICATOR_TOKEN_VALIDITY)
  let scope := scope.getD "evaluate:OPRF"
  match tokenRequest C sub iat exp scope with
  | some result => Except.ok result
  | none => Except.error "Failed to generate blind sign request."

/-- What `coco_client_step_4` returns: `{ blindDataArray, evalReqArray, proofArray }`. -/
structure BlindedInputs where
  blindDataArray : List String
  evalReqArray : List String
  proofArray : List String
  deriving DecidableEq, Repr

/-- The loop of `coco_client_step_4` from index `i` on, entered with the credential and
the key that the variables `randomizedCredential` and `aggregatedVerificationKey` hold:
the three arrays it pushes; `none` is a thrown error. -/
def blindedInputsLoop (C : ClientEngine) :
    Nat → String → String → List String → Option BlindedInputs
  | _, _, _, [] => some ⟨[], [], []⟩
  | i, randomizedCredential, aggregatedVerificationKey, rid :: rids =>
    match _generateNewProof C i randomizedCredential aggregatedVerificationKey with
    | none => none
    | some next =>
      match _blindOPRFInput C i rid with
      | none => none
      | some (hexFinalizeData, hexEvalRequest) =>
        match blindedInputsLoop C (i + 1) next.randomizedCredential
          next.aggregatedVerificationKey rids with
        | none => none
        | some rest =>
          some ⟨hexFinalizeData :: rest.blindDataArray, hexEvalRequest :: rest.evalReqArray,
            next.proof :: rest.proofArray⟩

/-- The method `coco_client_step_4(blindSignatures, verificationKeys, rids)` on three
arrays of strings. -/
def coco_client_step_4 (C : ClientEngine) (blindSignatures verificationKeys
    rids : List String) : Except String BlindedInputs :=
  match _generateProof C blindSignatures verificationKeys with
  | none => Except.error "Failed to prepare blinded OPRF inputs."
  | some first =>
    match blindedInputsLoop C 0 first.randomizedCredential first.aggregatedVerificationKey
      rids with
    | none => Except.error "Failed to prepare blinded OPRF inputs."
    | some result => Except.ok result

/-- The method `coco_client_step_6(sub, iat, exp, scope)`, with the defaults
`iat + VERIFIER_TOKEN_VALIDITY` and `"access:uid"`. -/
def coco_client_step_6 (C : ClientEngine) (currentTime : Int) (sub : String)
    (iat exp : Option Int) (scope : Option String) : Except String BlindSignRequest :=
  let iat := numberOfInt (iat.getD currentTime)
  let exp :=
    match exp with
    | some e => numberOfInt e
    | none => iat.add (numberOfInt VERIFIER_TOKEN_VALIDITY)
  let scope := scope.getD "access:uid"
  match tokenRequest C sub iat exp scope with
  | some result => Except.ok result
  | none => Except.error "Failed to generate blind signing request."

/-! ## The blinding engine of an Authenticator (`src/util/oprf/oprfServer.js`) -/

/-- The state of an `OPRFServerHandler` once `init` has run: its private key bytes. -/
structure OPRFServerHandler where
  privateKey : List Nat
  deriving DecidableEq, Repr

/-- The method `init(existingPrivateKeyHex)`: a given non-empty string is decoded, otherwise
(`undefined`, or the empty string, which is falsy) the key is `randomPrivateKey`, what the
generator returns. `none` is the error thrown by the decoder. -/
def OPRFServerHandler.init (randomPrivateKey : List Nat)
    (existingPrivateKeyHex : Option String) : Option OPRFServerHandler :=
  match existingPrivateKeyHex with
  | some hex =>
    if hex = "" then some ⟨randomPrivateKey⟩
    else (hexToUint8Array hex).map (fun privateKey => ⟨privateKey⟩)
  | none => some ⟨randomPrivateKey⟩

/-- The method `getPrivateKey()`. -/
def OPRFServerHandler.getPrivateKey (handler : OPRFServerHandler) : String :=
  uint8ArrayToHex handler.privateKey

/-! ## Client `register`: the call of `handleRegisterRequest` (`src/coco/client.js`) -/

/-- A value passed as an argument of a remote call. -/
inductive Argument where
  | undefined
  | text (s : String)
  | attributes (attrs : List RawAttribute)
  deriving DecidableEq, Repr

/-- The parameters of the Authenticator operation `handleRegisterRequest`, in order
(`src/coco/authenticator.js`). -/
def handleRegisterRequestParameters : List String :=
  ["id", "currentVerificationKey", "proof", "publicAttributes", "blindSignRequest",
    "publicKey", "publicAttributesToken", "registrationTokenProof",
    "registrationTokenPublicAttribute", "registrationTokenVerificationKey"]

/-- The `payload` that `register` builds for one Authenticator: `ids[i]`,
`verificationKeys[i]`, `proofs[i]`, `publicAttributesArray[i]`, the access-token request
of `coco_client_step_6`, and the fields `Signature` and `VK` of the Verifier's answer to
the registration request. -/
def registerPayload (id verificationKey proof : String) (publicAttributes : List RawAttribute)
    (accessBlindReq accessKey : String) (accessAttrs : List RawAttribute)
    (verifierSignature verifierVK : String) : List Argument :=
  [Argument.text id, Argument.text verificationKey, Argument.text proof,
    Argument.attributes publicAttributes, Argument.text accessBlindReq,
    Argument.text accessKey, Argument.attributes accessAttrs,
    Argument.text verifierSignature, Argument.text verifierVK]

/-- The call `apiInstance[endpoint](...payload)` of `src/net/NetworkHandler.js`: the
parameters take the arguments by position; a parameter past the end of the payload is
`undefined`. -/
def bindArguments : List String → List Argument → List (String × Argument)
  | [], _ => []
  | parameter :: parameters, [] =>
    (parameter, Argument.undefined) :: bindArguments parameters []
  | parameter :: parameters, argument :: arguments =>
    (parameter, argument) :: bindArguments parameters arguments

/-! ## Specification-side predicates and sample data -/

/-- The attribute policy in the words of the specification: issued no later than now, a
positive lifetime of at most the window, and exactly the expected scope. -/
def attributePolicy (window currentTime iat exp : Int) (scope expected : String) : Prop :=
  iat ≤ currentTime ∧ 0 < exp - iat ∧ exp - iat ≤ window ∧ scope = expected

/-- The error message is one of the three attribute errors and names a condition of the
policy that is violated. -/
def attributeErrorNames (msg : String) (window currentTime iat exp : Int)
    (scope expected : String) : Prop :=
  (msg = "Invalid `iat` attribute." ∧ currentTime < iat) ∨
  (msg = "Invalid `exp` attribute." ∧ ¬ (0 < exp - iat ∧ exp - iat ≤ window)) ∨
  (msg = "Invalid `scope` attribute." ∧ scope ≠ expected)

/-- What the attribute checks of a step decided, read off the error the step returned (if
any) and the engine calls it made: when the policy holds the step returns no attribute
error and goes on to the engine; when it does not, the step returns an attribute error
naming a violated condition and calls no engine. -/
def attributeVerdict (window currentTime iat exp : Int) (scope expected : String)
    (err : Option String) (calls : List EngineCall) : Prop :=
  (attributePolicy window currentTime iat exp scope expected →
    calls ≠ [] ∧ err ≠ some "Invalid `iat` attribute." ∧
      err ≠ some "Invalid `exp` attribute." ∧ err ≠ some "Invalid `scope` attribute.") ∧
  (¬ attributePolicy window currentTime iat exp scope expected →
    calls = [] ∧ ∃ msg, err = some msg ∧
      attributeErrorNames msg window currentTime iat exp scope expected)

/-- The error message of a signing result, if it is an error. -/
def SignResult.error? : SignResult → Option String
  | SignResult.error msg => some msg
  | SignResult.signed _ _ => none

/-- The error message of an evaluation result, if it is an error. -/
def evaluationError? : Except String String → Option String
  | Except.error msg => some msg
  | Except.ok _ => none

/-- The key has an entry in the collection. -/
def hasKey {α : Type} (collection : List (Item α)) (key : String) : Prop :=
  ∃ item ∈ collection, item.key = key

/-- The invariant of the Global Key Registry: every entry was written as
`setInGlobalStorage(vk, vk)` for a non-empty verification key `vk`. -/
def registryInvariant (globalDB : List (Item String)) : Prop :=
  ∀ item ∈ globalDB, item.value = item.key ∧ item.key ≠ ""

/-- A sample engine: a proof verifies exactly when it is the string `good-proof`; every
signing request is answered; every OPRF request is evaluated. -/
def sampleEngine : Engine where
  aggregateAndVerify := fun _ proof _ => some (proof == "good-proof")
  signAndGetKey := fun _ _ _ => some ("signature", "issuer-key")
  blindEvaluate := fun _ => some "evaluation"

/-- Sample public attributes `[iat, exp, scope]` issued at time 1000 for 60 seconds. -/
def sampleAttributes (scope : String) : List RawAttribute :=
  [⟨"1000", false⟩, ⟨"1060", false⟩, ⟨scope, false⟩]

/-- Sample token attributes that fail every check at time 1000: issued in the future,
living far longer than a minute, with the scope of another step. -/
def staleAttributes : List RawAttribute :=
  [⟨"2000", false⟩, ⟨"999999", false⟩, ⟨"evaluate:OPRF", false⟩]

/-- A sample Verifier state: `alice` is registered, the registry holds `key-1`. -/
def sampleVerifierState : VerifierState where
  metadata := [⟨"pepper", JSVal.str "pepper-value"⟩]
  username_to_userid := [⟨"alice", ⟨"uid-1"⟩⟩]
  userid_to_userdata := [⟨"uid-1", 0⟩]
  heap := [⟨["salt-1"], ["key-1"]⟩]
  globalDB := [⟨"key-1", "key-1"⟩]
  calls := []

/-- Every reference held in `userid_to_userdata` points at an allocated record object. -/
def heapWellFormed (st : VerifierState) : Prop :=
  ∀ item ∈ st.userid_to_userdata, item.value < st.heap.length

/-- The response has a `salts` field holding a value. -/
def VerifierResponse.carriesSalts : VerifierResponse → Bool
  | VerifierResponse.loginData _ (some _) _ => true
  | _ => false

/-- The response has a `pepper` field. -/
def VerifierResponse.carriesPepper : VerifierResponse → Bool
  | VerifierResponse.loginData _ _ _ => true
  | VerifierResponse.registrationIssued _ _ _ _ => true
  | _ => false

/-- The number that the attribute block reads as `exp` on a list of attributes: the value
of the first attribute exceeding the number read as `iat` (or `0`), `NaN` when there is
none. -/
def expiryRead (clientPublicAttributes : List RawAttribute) : JSNum :=
  let iatNumber : JSNum :=
    match clientPublicAttributes.find? (fun attr => !(Number attr.value).isNaN) with
    | some attr => Number attr.value
    | none => JSNum.nan
  match clientPublicAttributes.find? (fun attr =>
    (Number attr.value).gt iatNumber.orZero) with
  | some attr => Number attr.value
  | none => JSNum.nan

/-- The Verifier's local store (pepper collection, username mappings, user records) is the
same in both states. -/
def localStoreUnchanged (st st2 : VerifierState) : Prop :=
  st2.metadata = st.metadata ∧ st2.username_to_userid = st.username_to_userid ∧
  st2.userid_to_userdata = st.userid_to_userdata ∧ st2.heap = st.heap

/-- Proof verification returned exactly `true`: every supplied key was fetched from the
registry and `coco_verifier_step_2` on the fetched keys gave the boolean `true`. -/
def verifiedTrue (E : Engine) (currentTime : Int) (keys : List String) (proof : String)
    (attrs : List RawAttribute) (st : VerifierState) : Prop :=
  ∃ validated, Verifier.validateVerificationKeys st.globalDB keys = Except.ok validated ∧
    (coco_verifier_step_2 E currentTime (JSVal.arr validated) proof attrs).1 =
      VerifyResult.bool true

/-- The registry after an operation is the registry before it, possibly with one entry
appended whose value equals its key. -/
def appendsPublished (before after : List (Item String)) : Prop :=
  after = before ∨ ∃ verificationKey : String,
    after = before ++ [⟨verificationKey, verificationKey⟩]

/-- The sample Verifier state with a second published key, `key-2`. -/
def sampleVerifierStateTwoKeys : VerifierState :=
  { sampleVerifierState with globalDB := [⟨"key-1", "key-1"⟩, ⟨"key-2", "key-2"⟩] }

/-- The call is a `completeRegistration` under a `userId` that is not yet the `userId` of
any mapped username; every other call qualifies. -/
def freshUserId (st : VerifierState) : VerifierCall → Prop
  | VerifierCall.completeRegistration _ userId _ _ _ _ =>
    ∀ item ∈ st.username_to_userid, item.value.userId ≠ userId
  | _ => True

/-- Every call qualifies. -/
def anyCall (_ : VerifierState) (_ : VerifierCall) : Prop := True

/-- The Verifier states that can be reached from the empty local store: the Global Key
Registry starts with whatever the Authenticators have published and grows as they publish
more; at each step the Verifier runs one operation, with any arguments, engine and clock,
among the calls that `allowed` admits in the current state. -/
inductive VerifierReachable (allowed : VerifierState → VerifierCall → Prop) :
    VerifierState → Prop where
  | start (registry : List (Item String)) :
      VerifierReachable allowed
        { metadata := [], username_to_userid := [], userid_to_userdata := [], heap := [],
          globalDB := registry, calls := [] }
  | publish (st : VerifierState) (verificationKey : String) :
      VerifierReachable allowed st →
      VerifierReachable allowed
        { st with globalDB := st.globalDB ++ [⟨verificationKey, verificationKey⟩] }
  | step (E : Engine) (currentTime : Int) (call : VerifierCall) (st : VerifierState) :
      VerifierReachable allowed st → allowed st call →
      VerifierReachable allowed (Verifier.step E currentTime call st)

/-- A sample SHA-512: every digest is 64 bytes `0xAB`. -/
def sampleSha512 (_ : List Nat) : List Nat := List.replicate 64 0xAB

/-- A sample Argon2id: the digest is the hexadecimal form of the buffer itself. -/
def sampleArgon2id (buffer : List Nat) : Option String := some (uint8ArrayToHex buffer)

/-- A sample client engine. The proof of a re-randomized credential names the credential
it was made from and the draw. -/
def sampleClientEngine : ClientEngine where
  prepare_blind_sign := fun _ => some "blind-sign-request"
  get_client_public_key := "client-key"
  processAndProveCredential := fun _ _ => some ⟨"proof-0", "cred-0", "avk"⟩
  randomiseAndProve := fun draw cred _ =>
    some ("proof-of-" ++ cred, cred ++ "-" ++ toString draw)
  blind := fun _ inputBytes => some (0 :: inputBytes, 1 :: inputBytes)

/-- The credential and key that the variables of `coco_client_step_4` hold after `i` turns
of its loop: those of the initial aggregate proof for `i = 0`, then those of the proof
pushed at index `i - 1`. `none` when a proof generation threw. -/
def proofChain (C : ClientEngine) (blindSignatures verificationKeys : List String) :
    Nat → Option CredentialProof
  | 0 => _generateProof C blindSignatures verificationKeys
  | i + 1 =>
    match proofChain C blindSignatures verificationKeys i with
    | none => none
    | some previous =>
      _generateNewProof C i previous.randomizedCredential previous.aggregatedVerificationKey

/-- What one Verifier operation can do to the collections of usernames and of records:
nothing (the record objects may change, none is added), or one of the four writes that
`completeRegistration`, `handleUpdateSaltsRequest`, `handleDeleteUserRequest` and
`handleUsernameUpdateRequest` make when they succeed. -/
def storeEffect (call : VerifierCall) (st st2 : VerifierState) : Prop :=
  (st2.username_to_userid = st.username_to_userid ∧
    st2.userid_to_userdata = st.userid_to_userdata ∧ st2.heap.length = st.heap.length) ∨
  (∃ username userId salts keys proof attrs,
    call = VerifierCall.completeRegistration username userId salts keys proof attrs ∧
    Verifier.getFromStorage st.username_to_userid username = none ∧
    st2.username_to_userid = st.username_to_userid ++ [⟨username, ⟨userId⟩⟩] ∧
    st2.userid_to_userdata = st.userid_to_userdata ++ [⟨userId, st.heap.length⟩] ∧
    st2.heap.length = st.heap.length + 1) ∨
  (∃ userId ref, Verifier.getFromStorage st.userid_to_userdata userId = some ref ∧
    st2.username_to_userid = st.username_to_userid ∧
    st2.userid_to_userdata = st.userid_to_userdata ++ [⟨userId, ref⟩] ∧
    st2.heap.length = st.heap.length) ∨
  (∃ username mapping,
    Verifier.getFromStorage st.username_to_userid username = some mapping ∧
    st2.username_to_userid =
      DatabaseHandler.delete st.username_to_userid (JSVal.str username) ∧
    st2.userid_to_userdata =
      DatabaseHandler.delete st.userid_to_userdata (JSVal.str mapping.userId) ∧
    st2.heap.length = st.heap.length) ∨
  (∃ username new_username mapping,
    Verifier.getFromStorage st.username_to_userid username = some mapping ∧
    Verifier.getFromStorage st.username_to_userid new_username = none ∧
    st2.username_to_userid = DatabaseHandler.delete
      (DatabaseHandler.save st.username_to_userid ⟨new_username, ⟨mapping.userId⟩⟩)
      (JSVal.str username) ∧
    st2.userid_to_userdata = st.userid_to_userdata ∧ st2.heap.length = st.heap.length)

/-- The invariant behind the record lookup: every mapped `userId` has a record item, no
two usernames are mapped to the same `userId`, and every reference is allocated. -/
def recordInvariant (st : VerifierState) : Prop :=
  (∀ item ∈ st.username_to_userid, hasKey st.userid_to_userdata item.value.userId) ∧
  (∀ item ∈ st.username_to_userid, ∀ other ∈ st.username_to_userid,
    item.value.userId = other.value.userId → item.key = other.key) ∧
  heapWellFormed st

/-- The empty Verifier store next to a registry that holds `key-1`. -/
def emptyVerifierState : VerifierState where
  metadata := []
  username_to_userid := []
  userid_to_userdata := []
  heap := []
  globalDB := [⟨"key-1", "key-1"⟩]
  calls := []

/-- The state after `alice` completes a registration under `uid-1` at time 1000. -/
def aliceRegistered : VerifierState :=
  Verifier.step sampleEngine 1000
    (VerifierCall.completeRegistration "alice" "uid-1" ["salt-1"] ["key-1"] "good-proof"
      (sampleAttributes "access:uid")) emptyVerifierState

/-- The state after `alice` then updates her salts. -/
def aliceUpdatedSalts : VerifierState :=
  Verifier.step sampleEngine 1000
    (VerifierCall.handleUpdateSaltsRequest "alice" ["salt-2"] ["key-1"] "good-proof"
      (sampleAttributes "access:uid")) aliceRegistered

/-- The state after `bob` completes a registration under the same `uid-1`. -/
def bobRegisteredSameId : VerifierState :=
  Verifier.step sampleEngine 1000
    (VerifierCall.completeRegistration "bob" "uid-1" ["salt-b"] ["key-1"] "good-proof"
      (sampleAttributes "access:uid")) aliceRegistered

/-- The state after `alice` is then deleted. -/
def aliceDeleted : VerifierState :=
  Verifier.step sampleEngine 1000
    (VerifierCall.handleDeleteUserRequest "alice" ["key-1"] "good-proof"
      (sampleAttributes "access:uid")) bobRegisteredSameId

/-! # Theorems -/

/-! ## Numbers and the attribute checks -/

theorem JSNum.gt_fin_one (a b : Int) :
    (JSNum.fin a 1).gt (JSNum.fin b 1) = decide (b < a) := by
  simp [JSNum.gt]

theorem JSNum.ge_fin_one (a b : Int) :
    (JSNum.fin a 1).ge (JSNum.fin b 1) = decide (b ≤ a) := by
  simp [JSNum.ge]

theorem bitLengthAux_zero (fuel : Nat) : bitLengthAux fuel 0 = 0 := by
  cases fuel <;> simp [bitLengthAux]

/-- A positive `n` has `bitLength n` binary digits: `2 ^ (b - 1) ≤ n < 2 ^ b`. -/
theorem bitLengthAux_bounds : ∀ (fuel n : Nat), n ≤ fuel → n ≠ 0 →
    2 ^ (bitLengthAux fuel n - 1) ≤ n ∧ n < 2 ^ bitLengthAux fuel n := by
  intro fuel
  induction fuel with
  | zero => intro n h h0; omega
  | succ fuel ih =>
    intro n h h0
    simp only [bitLengthAux, h0, if_false]
    by_cases h1 : n / 2 = 0
    · have hn : n = 1 := by omega
      subst hn
      simp [bitLengthAux_zero]
    · obtain ⟨hlo, hhi⟩ := ih (n / 2) (by omega) h1
      have hb : bitLengthAux fuel (n / 2) ≠ 0 := by
        intro hb
        rw [hb] at hhi
        simp at hhi
        exact h1 hhi
      obtain ⟨b, hb2⟩ := Nat.exists_eq_succ_of_ne_zero hb
      rw [hb2] at hlo hhi ⊢
      simp only [Nat.succ_eq_add_one, Nat.add_sub_cancel] at hlo ⊢
      have h2 : 2 ^ (b + 1) = 2 * 2 ^ b := by rw [pow_succ]; ring
      have h3 : 2 ^ (b + 1 + 1) = 2 * 2 ^ (b + 1) := by rw [pow_succ]; ring
      rw [Nat.succ_eq_add_one] at hhi
      constructor
      · omega
      · omega

theorem roundQuotient_ge (n d : Nat) : n / d ≤ roundQuotient n d := by
  unfold roundQuotient
  split <;> omega

/-- An integer above `2 ^ 53` has a Number value of at least `2 ^ 53`, or is beyond the
range. -/
theorem JSNum.roundPositive_large (p : Nat) (hp : 9007199254740992 < p) :
    JSNum.roundPositive p 1 = none ∨
      ∃ v : Nat, 9007199254740992 ≤ v ∧ JSNum.roundPositive p 1 = some (v, 1) := by
  have hp0 : p ≠ 0 := by omega
  obtain ⟨hlo, hhi⟩ := bitLengthAux_bounds p p (Nat.le_refl p) hp0
  have hb : 54 ≤ bitLength p := by
    by_contra hcon
    have h1 : bitLengthAux p p ≤ 53 := by unfold bitLength at hcon; omega
    have h2 : 2 ^ bitLengthAux p p ≤ 2 ^ 53 := Nat.pow_le_pow_right (by decide) h1
    have h3 : (2 : Nat) ^ 53 = 9007199254740992 := by norm_num
    omega
  have hb1 : bitLength 1 = 1 := rfl
  obtain ⟨c, hc⟩ : ∃ c, bitLength p = c + 54 := ⟨bitLength p - 54, by omega⟩
  have hlo2 : 2 ^ (c + 53) ≤ p := by
    have : bitLengthAux p p - 1 = c + 53 := by unfold bitLength at hc; omega
    rwa [this] at hlo
  have he0 : ((bitLength p : Int) - (bitLength 1 : Int)) = ((c + 53 : Nat) : Int) := by
    rw [hc, hb1]; push_cast; ring
  have hpow : (2 : Nat) ^ (c + 53) = 2 ^ 52 * 2 ^ (c + 1) := by
    rw [← pow_add]; congr 1; omega
  have hm : 2 ^ 52 ≤ roundQuotient p (1 * 2 ^ (c + 1)) := by
    refine Nat.le_trans ?_ (roundQuotient_ge _ _)
    rw [Nat.le_div_iff_mul_le (by positivity)]
    rw [Nat.one_mul, ← hpow]
    exact hlo2
  have hu : max (((c + 53 : Nat) : Int) - 52) (-1074) = ((c + 1 : Nat) : Int) := by
    push_cast; omega
  have hnb : ¬ p < 1 * 2 ^ (c + 53) := by omega
  simp only [JSNum.roundPositive, he0, Int.toNat_ofNat, Int.ofNat_nonneg, if_true,
    hnb, decide_False, Bool.false_eq_true, if_false, hu]
  split
  · exact Or.inl rfl
  · right
    refine ⟨roundQuotient p (1 * 2 ^ (c + 1)) * 2 ^ (c + 1), ?_, rfl⟩
    have h4 : 2 ^ 52 * 2 ^ (c + 1) ≤ roundQuotient p (1 * 2 ^ (c + 1)) * 2 ^ (c + 1) :=
      Nat.mul_le_mul_right _ hm
    have h5 : (2 : Nat) ^ 1 ≤ 2 ^ (c + 1) := Nat.pow_le_pow_right (by decide) (by omega)
    have h6 : (2 : Nat) ^ 52 * 2 ^ 1 ≤ 2 ^ 52 * 2 ^ (c + 1) := Nat.mul_le_mul_left _ h5
    have h7 : (2 : Nat) ^ 52 * 2 ^ 1 = 9007199254740992 := by norm_num
    omega

theorem JSNum.toBinary64_of_safe (x : Int) (h : x.natAbs ≤ 9007199254740992) :
    (JSNum.fin x 1).toBinary64 = JSNum.fin x 1 := by
  simp [JSNum.toBinary64, h]

/-- Comparing the Number value of an integer with an integer below `2 ^ 53` in magnitude
is comparing the integers. -/
theorem JSNum.toBinary64_gt_fin_one (x w : Int) (hw : w.natAbs < 9007199254740992) :
    ((JSNum.fin x 1).toBinary64).gt (JSNum.fin w 1) = decide (w < x) := by
  by_cases hx : x.natAbs ≤ 9007199254740992
  · rw [JSNum.toBinary64_of_safe x hx]
    simp [JSNum.gt]
  · have hx0 : x ≠ 0 := by
      intro h; subst h; simp at hx
    have hbig : 9007199254740992 < x.natAbs := by omega
    simp only [JSNum.toBinary64, hx, and_false, if_false, hx0]
    rcases JSNum.roundPositive_large x.natAbs hbig with h | ⟨v, hv, h⟩
    · rw [h]
      by_cases hneg : x < 0
      · simp only [hneg, decide_True, JSNum.gt]
        have : ¬ w < x := by omega
        simp [this]
      · simp only [hneg, decide_False, JSNum.gt]
        have : w < x := by omega
        simp [this]
    · rw [h]
      simp only [JSNum.gt]
      by_cases hneg : x < 0
      · have hs : x.sign = -1 := Int.sign_eq_neg_one_of_neg hneg
        have h1 : ¬ w < x := by omega
        have h2 : x.sign * (v : Int) ≤ w := by
          rw [hs]; omega
        simp [h1, h2]
      · have hpos : 0 < x := by omega
        have hs : x.sign = 1 := Int.sign_eq_one_of_pos hpos
        have h1 : w < x := by omega
        have h2 : w < x.sign * (v : Int) := by
          rw [hs]; omega
        simp [h1, h2]

theorem JSNum.sub_fin_one (a b : Int) :
    (JSNum.fin a 1).sub (JSNum.fin b 1) = (JSNum.fin (a - b) 1).toBinary64 := by
  simp [JSNum.sub]

theorem JSNum.add_fin_one (a b : Int) :
    (JSNum.fin a 1).add (JSNum.fin b 1) = (JSNum.fin (a + b) 1).toBinary64 := by
  simp [JSNum.add]

/-- The difference of two integer values exceeds an integer below `2 ^ 53` in magnitude
exactly when the exact difference does. -/
theorem JSNum.sub_gt_fin_one (a b w : Int) (hw : w.natAbs < 9007199254740992) :
    ((JSNum.fin a 1).sub (JSNum.fin b 1)).gt (JSNum.fin w 1) = decide (w < a - b) := by
  rw [JSNum.sub_fin_one, JSNum.toBinary64_gt_fin_one _ _ hw]

/-- A string that denotes an integer of magnitude up to `2 ^ 53` is read by `Number` as
that integer. -/
theorem Number_of_safe (s : String) (n : Int)
    (hne : (trimChars s.toList).isEmpty = false)
    (hparse : parseNumeric (trimChars s.toList) = JSNum.fin n 1)
    (hsafe : n.natAbs ≤ 9007199254740992) : Number s = JSNum.fin n 1 := by
  simp only [Number, hne, Bool.false_eq_true, if_false, hparse]
  exact JSNum.toBinary64_of_safe n hsafe

theorem JSNum.orZero_fin_one (a : Int) : (JSNum.fin a 1).orZero = JSNum.fin a 1 := by
  by_cases h : a = 0
  · simp [JSNum.orZero, h]
  · simp [JSNum.orZero, h]

/-- Normal form of the Authenticator's attribute block on a list `[iat, exp, scope]` whose
first two values read as the integers `i` and `e`. -/
theorem authenticatorAttributeCheck_eq (expected : String) (window now i e : Int)
    (iat exp scope : String) (p1 p2 p3 : Bool)
    (hi : Number iat = JSNum.fin i 1) (he : Number exp = JSNum.fin e 1)
    (hx : Number expected = JSNum.nan) (hw : window.natAbs < 9007199254740992) :
    authenticatorAttributeCheck expected window now [⟨iat, p1⟩, ⟨exp, p2⟩, ⟨scope, p3⟩] =
      if now < i then some "Invalid `iat` attribute."
      else if i < e then
        (if window < e - i then some "Invalid `exp` attribute."
         else if scope = expected then none else some "Invalid `scope` attribute.")
      else if (Number scope).gt (JSNum.fin i 1) = true then
        (if ((Number scope).sub (JSNum.fin i 1)).gt (JSNum.fin window 1) = true then
          some "Invalid `exp` attribute."
         else some "Invalid `scope` attribute.")
      else some "Invalid `exp` attribute." := by
  have hne1 : (iat == expected) = false := by
    rw [beq_eq_false_iff_ne]
    intro h; rw [h, hx] at hi; exact JSNum.noConfusion hi
  have hne2 : (exp == expected) = false := by
    rw [beq_eq_false_iff_ne]
    intro h; rw [h, hx] at he; exact JSNum.noConfusion he
  have hI : List.find? (fun attr : RawAttribute => !(Number attr.value).isNaN)
      [⟨iat, p1⟩, ⟨exp, p2⟩, ⟨scope, p3⟩] = some ⟨iat, p1⟩ := by
    simp [List.find?, hi, JSNum.isNaN]
  have hS : List.find? (fun attr : RawAttribute => attr.value == expected)
      [⟨iat, p1⟩, ⟨exp, p2⟩, ⟨scope, p3⟩] =
      if scope = expected then some ⟨scope, p3⟩ else none := by
    by_cases h : scope = expected
    · simp [List.find?, hne1, hne2, h]
    · have h' : (scope == expected) = false := by simpa using h
      simp [List.find?, hne1, hne2, h, h']
  have hE : List.find? (fun attr : RawAttribute => (Number attr.value).gt (JSNum.fin i 1))
      [⟨iat, p1⟩, ⟨exp, p2⟩, ⟨scope, p3⟩] =
      if i < e then some ⟨exp, p2⟩
      else if (Number scope).gt (JSNum.fin i 1) = true then some ⟨scope, p3⟩ else none := by
    by_cases h : i < e
    · simp [List.find?, hi, he, JSNum.gt_fin_one, h]
    · cases hb : (Number scope).gt (JSNum.fin i 1) <;>
        simp [List.find?, hi, he, JSNum.gt_fin_one, h, hb]
  simp only [authenticatorAttributeCheck, hI, hS, hi, JSNum.orZero_fin_one, hE,
    JSNum.gt_fin_one]
  by_cases h1 : now < i
  · simp [h1]
  · by_cases h2 : i < e
    · by_cases h3 : window < e - i
      · simp [h1, h2, h3, he, JSNum.sub_gt_fin_one _ _ _ hw, JSNum.gt_fin_one]
      · by_cases h4 : scope = expected
        · simp [h1, h2, h3, h4, he, JSNum.sub_gt_fin_one _ _ _ hw, JSNum.gt_fin_one]
        · simp [h1, h2, h3, h4, he, JSNum.sub_gt_fin_one _ _ _ hw, JSNum.gt_fin_one]
    · cases hb : (Number scope).gt (JSNum.fin i 1)
      · simp [h1, h2, hb]
      · have h4 : scope ≠ expected := by
          intro h; rw [h, hx] at hb; exact Bool.noConfusion hb
        by_cases h5 : ((Number scope).sub (JSNum.fin i 1)).gt (JSNum.fin window 1) = true
        · simp [h1, h2, hb, h4, h5]
        · simp [h1, h2, hb, h4, h5]

/-- The verdict of the attribute block on a canonical list, for any way the step goes on
after the block, as long as it then calls the engine and returns no attribute error. -/
theorem attributeVerdict_of_check (expected : String) (window now i e : Int)
    (iat exp scope : String) (p1 p2 p3 : Bool)
    (hi : Number iat = JSNum.fin i 1) (he : Number exp = JSNum.fin e 1)
    (hx : Number expected = JSNum.nan) (hw : window.natAbs < 9007199254740992)
    (err : Option String) (calls : List EngineCall)
    (hpass : authenticatorAttributeCheck expected window now
        [⟨iat, p1⟩, ⟨exp, p2⟩, ⟨scope, p3⟩] = none →
      calls ≠ [] ∧ err ≠ some "Invalid `iat` attribute." ∧
        err ≠ some "Invalid `exp` attribute." ∧ err ≠ some "Invalid `scope` attribute.")
    (hfail : ∀ msg, authenticatorAttributeCheck expected window now
        [⟨iat, p1⟩, ⟨exp, p2⟩, ⟨scope, p3⟩] = some msg → calls = [] ∧ err = some msg) :
    attributeVerdict window now i e scope expected err calls := by
  rw [authenticatorAttributeCheck_eq expected window now i e iat exp scope p1 p2 p3 hi he hx
    hw]
    at hpass hfail
  unfold attributeVerdict attributePolicy attributeErrorNames
  by_cases h1 : now < i
  · simp only [h1, if_true] at hpass hfail
    refine ⟨fun hp => absurd hp.1 (by omega), fun _ => ?_⟩
    obtain ⟨hc, he'⟩ := hfail _ rfl
    exact ⟨hc, _, he', Or.inl ⟨rfl, h1⟩⟩
  · simp only [h1, if_false] at hpass hfail
    by_cases h2 : i < e
    · simp only [h2, if_true] at hpass hfail
      by_cases h3 : window < e - i
      · simp only [h3, if_true] at hpass hfail
        refine ⟨fun hp => absurd hp.2.2.1 (by omega), fun _ => ?_⟩
        obtain ⟨hc, he'⟩ := hfail _ rfl
        exact ⟨hc, _, he', Or.inr (Or.inl ⟨rfl, by omega⟩)⟩
      · simp only [h3, if_false] at hpass hfail
        by_cases h4 : scope = expected
        · simp only [h4, if_true] at hpass hfail
          refine ⟨fun _ => hpass trivial, fun hn => absurd ?_ hn⟩
          exact ⟨by omega, by omega, by omega, h4⟩
        · simp only [h4, if_false] at hpass hfail
          refine ⟨fun hp => absurd hp.2.2.2 h4, fun _ => ?_⟩
          obtain ⟨hc, he'⟩ := hfail _ rfl
          exact ⟨hc, _, he', Or.inr (Or.inr ⟨rfl, h4⟩)⟩
    · simp only [h2, if_false] at hpass hfail
      refine ⟨fun hp => absurd hp.2.1 (by omega), fun _ => ?_⟩
      by_cases hb : (Number scope).gt (JSNum.fin i 1) = true
      · have h4 : scope ≠ expected := by
          intro h; rw [h, hx] at hb; exact Bool.noConfusion hb
        simp only [hb, if_true] at hfail
        by_cases h5 : ((Number scope).sub (JSNum.fin i 1)).gt (JSNum.fin window 1) = true
        · simp only [h5, if_true] at hfail
          obtain ⟨hc, he'⟩ := hfail _ rfl
          exact ⟨hc, _, he', Or.inr (Or.inl ⟨rfl, by omega⟩)⟩
        · simp only [h5, if_false] at hfail
          obtain ⟨hc, he'⟩ := hfail _ rfl
          exact ⟨hc, _, he', Or.inr (Or.inr ⟨rfl, h4⟩)⟩
      · simp only [hb, if_false] at hfail
        obtain ⟨hc, he'⟩ := hfail _ rfl
        exact ⟨hc, _, he', Or.inr (Or.inl ⟨rfl, by omega⟩)⟩

/-- C4 (as the code has it): on a public attribute list `[iat, exp, scope]` whose `iat` and
`exp` strings are read by `Number` as the integers `i` and `e` (the integers they denote
when these are at most `2 ^ 53` in magnitude), and for every clock value, the attribute
checks of `coco_authenticator_step_2`, `_3` (scope `evaluate:OPRF`) and `_4` (scope
`prove:identity`) pass exactly when `i ≤ now`, `0 < e - i ≤ 60` and the scope is the expected one; otherwise
the step returns an `Invalid iat/exp/scope attribute` error naming a violated condition,
and neither verifies a proof nor signs. -/
theorem authenticator_attribute_checks_canonical (E : Engine) (now i e : Int)
    (iat exp scope : String) (p1 p2 p3 : Bool)
    (hi : Number iat = JSNum.fin i 1) (he : Number exp = JSNum.fin e 1) :
    (∀ blindSignRequest clientPublicKey : String,
      isBlank blindSignRequest = false → isBlank clientPublicKey = false →
      attributeVerdict AUTHENTICATOR_TOKEN_VALIDITY now i e scope "evaluate:OPRF"
        (coco_authenticator_step_2 E now blindSignRequest clientPublicKey
          [⟨iat, p1⟩, ⟨exp, p2⟩, ⟨scope, p3⟩]).1.error?
        (coco_authenticator_step_2 E now blindSignRequest clientPublicKey
          [⟨iat, p1⟩, ⟨exp, p2⟩, ⟨scope, p3⟩]).2) ∧
    (∀ (verificationKeys : List String) (proof EvalReq : String),
      isBlank proof = false → isBlank EvalReq = false →
      attributeVerdict AUTHENTICATOR_TOKEN_VALIDITY now i e scope "evaluate:OPRF"
        (evaluationError? (coco_authenticator_step_3 E now (JSVal.arr verificationKeys) proof
          [⟨iat, p1⟩, ⟨exp, p2⟩, ⟨scope, p3⟩] EvalReq).1.settled)
        (coco_authenticator_step_3 E now (JSVal.arr verificationKeys) proof
          [⟨iat, p1⟩, ⟨exp, p2⟩, ⟨scope, p3⟩] EvalReq).2) ∧
    (∀ (verificationKey proof blindSignRequest clientPublicKey : String)
      (userPublicAttributes : List RawAttribute),
      isBlank verificationKey = false → isBlank proof = false →
      isBlank blindSignRequest = false → isBlank clientPublicKey = false →
      attributeVerdict AUTHENTICATOR_TOKEN_VALIDITY now i e scope "prove:identity"
        (coco_authenticator_step_4 E now verificationKey proof
          [⟨iat, p1⟩, ⟨exp, p2⟩, ⟨scope, p3⟩] blindSignRequest clientPublicKey
          userPublicAttributes).1.error?
        (coco_authenticator_step_4 E now verificationKey proof
          [⟨iat, p1⟩, ⟨exp, p2⟩, ⟨scope, p3⟩] blindSignRequest clientPublicKey
          userPublicAttributes).2) := by
  have hx1 : Number "evaluate:OPRF" = JSNum.nan := by decide
  have hx2 : Number "prove:identity" = JSNum.nan := by decide
  refine ⟨?_, ?_, ?_⟩
  · intro req pk hreq hpk
    apply attributeVerdict_of_check "evaluate:OPRF" _ now i e iat exp scope p1 p2 p3 hi he hx1
      (by decide)
    · intro hc
      simp only [coco_authenticator_step_2, hreq, hpk, hc, _generateBlindSignature]
      cases E.signAndGetKey req pk [⟨iat, p1⟩, ⟨exp, p2⟩, ⟨scope, p3⟩] <;>
        simp [SignResult.error?]
    · intro msg hc
      simp [coco_authenticator_step_2, hreq, hpk, hc, SignResult.error?]
  · intro ks proof ev hproof hev
    apply attributeVerdict_of_check "evaluate:OPRF" _ now i e iat exp scope p1 p2 p3 hi he hx1
      (by decide)
    · intro hc
      simp only [coco_authenticator_step_3, hproof, hev, hc, _verifyProof, _performOPRFEval]
      cases (E.aggregateAndVerify (JSVal.arr ks) proof
          [⟨iat, p1⟩, ⟨exp, p2⟩, ⟨scope, p3⟩]).getD false <;>
        cases E.blindEvaluate ev <;> simp [evaluationError?]
    · intro msg hc
      simp [coco_authenticator_step_3, hproof, hev, hc, evaluationError?]
  · intro vk proof req pk ua hvk hproof hreq hpk
    apply attributeVerdict_of_check "prove:identity" _ now i e iat exp scope p1 p2 p3 hi he hx2
      (by decide)
    · intro hc
      simp only [coco_authenticator_step_4, hvk, hproof, hreq, hpk, hc, _verifyProof,
        _generateBlindSignature]
      cases (E.aggregateAndVerify (JSVal.str vk) proof
          [⟨iat, p1⟩, ⟨exp, p2⟩, ⟨scope, p3⟩]).getD false <;>
        cases E.signAndGetKey req pk ua <;> simp [SignResult.error?]
    · intro msg hc
      simp [coco_authenticator_step_4, hvk, hproof, hreq, hpk, hc, SignResult.error?]

/-- Witness of C4: the token `[1000, 1060, evaluate:OPRF]` presented to step 2 at time
1000. -/
theorem authenticator_attribute_checks_canonical_witness :
    Number "1000" = JSNum.fin 1000 1 ∧ Number "1060" = JSNum.fin 1060 1 ∧
    attributeVerdict AUTHENTICATOR_TOKEN_VALIDITY 1000 1000 1060 "evaluate:OPRF"
      "evaluate:OPRF"
      (coco_authenticator_step_2 sampleEngine 1000 "request" "public-key"
        [⟨"1000", false⟩, ⟨"1060", false⟩, ⟨"evaluate:OPRF", false⟩]).1.error?
      (coco_authenticator_step_2 sampleEngine 1000 "request" "public-key"
        [⟨"1000", false⟩, ⟨"1060", false⟩, ⟨"evaluate:OPRF", false⟩]).2 :=
  ⟨by decide, by decide,
    (authenticator_attribute_checks_canonical sampleEngine 1000 1000 1060 "1000" "1060"
      "evaluate:OPRF" false false false (by decide) (by decide)).1 "request" "public-key"
      (by decide) (by decide)⟩

/-- C4, counterexample: the strings `-9007199254740993` and `-9007199254740992` denote
integers one second apart, and at time 1700000000 they satisfy the policy; `Number` reads
both as `-2 ^ 53`, no `exp` is found after `iat`, and step 4 returns
`Invalid exp attribute`. The strings `-9007199254741053` and `-9007199254740992` denote
integers 61 seconds apart, which the policy refuses; `Number` reads them 60 apart and the
attribute checks pass. -/
theorem attribute_checks_beyond_safe_integers_counterexample :
    parseNumeric "-9007199254740993".toList = JSNum.fin (-9007199254740993) 1 ∧
    parseNumeric "-9007199254740992".toList = JSNum.fin (-9007199254740992) 1 ∧
    attributePolicy AUTHENTICATOR_TOKEN_VALIDITY 1700000000 (-9007199254740993)
      (-9007199254740992) "prove:identity" "prove:identity" ∧
    Number "-9007199254740993" = JSNum.fin (-9007199254740992) 1 ∧
    coco_authenticator_step_4 sampleEngine 1700000000 "key-1" "good-proof"
      [⟨"-9007199254740993", false⟩, ⟨"-9007199254740992", false⟩,
        ⟨"prove:identity", false⟩] "request" "public-key" (sampleAttributes "access:uid") =
      (SignResult.error "Invalid `exp` attribute.", []) ∧
    parseNumeric "-9007199254741053".toList = JSNum.fin (-9007199254741053) 1 ∧
    ¬ attributePolicy AUTHENTICATOR_TOKEN_VALIDITY 1700000000 (-9007199254741053)
      (-9007199254740992) "prove:identity" "prove:identity" ∧
    Number "-9007199254741053" = JSNum.fin (-9007199254741052) 1 ∧
    authenticatorAttributeCheck "prove:identity" AUTHENTICATOR_TOKEN_VALIDITY 1700000000
      [⟨"-9007199254741053", false⟩, ⟨"-9007199254740992", false⟩,
        ⟨"prove:identity", false⟩] = none :=
  ⟨by decide, by decide, ⟨by decide, by decide, by decide, rfl⟩, by decide, by decide,
    by decide, fun h => absurd h.2.2.1 (by decide), by decide, by decide⟩

/-! ## The in-memory store -/

theorem strictEqualsKey_str (a b : String) :
    strictEqualsKey a (JSVal.str b) = decide (a = b) := by
  simp only [strictEqualsKey]
  exact Bool.beq_eq_decide_eq a b

theorem DatabaseHandler.retrieve_save {α : Type} (c : List (Item α)) (k : String) (v : α)
    (q : String) :
    DatabaseHandler.retrieve (DatabaseHandler.save c ⟨k, v⟩) (JSVal.str q) =
      DatabaseHandler.retrieve c (JSVal.str q) ++ (if k = q then [⟨k, v⟩] else []) := by
  by_cases h : k = q
  · simp [DatabaseHandler.retrieve, DatabaseHandler.save, List.filter_append, List.filter,
      strictEqualsKey, h]
  · have h' : (k == q) = false := by simpa using h
    simp [DatabaseHandler.retrieve, DatabaseHandler.save, List.filter_append, List.filter,
      strictEqualsKey, h, h']

theorem DatabaseHandler.retrieve_delete_self {α : Type} (c : List (Item α)) (k : String) :
    DatabaseHandler.retrieve (DatabaseHandler.delete c (JSVal.str k)) (JSVal.str k) = [] := by
  simp [DatabaseHandler.retrieve, DatabaseHandler.delete, List.filter_filter, strictEqualsKey]

theorem DatabaseHandler.retrieve_delete_other {α : Type} (c : List (Item α)) (k q : String)
    (h : q ≠ k) :
    DatabaseHandler.retrieve (DatabaseHandler.delete c (JSVal.str k)) (JSVal.str q) =
      DatabaseHandler.retrieve c (JSVal.str q) := by
  simp only [DatabaseHandler.retrieve, DatabaseHandler.delete, List.filter_filter]
  apply List.filter_congr
  intro item _
  by_cases hq : item.key = q
  · have : item.key ≠ k := fun hk => h (hq ▸ hk)
    simp [strictEqualsKey, hq, this, h]
  · simp [strictEqualsKey, hq]

theorem DatabaseHandler.retrieve_eq_nil_iff {α : Type} (c : List (Item α)) (k : String) :
    DatabaseHandler.retrieve c (JSVal.str k) = [] ↔ ¬ hasKey c k := by
  simp [DatabaseHandler.retrieve, List.filter_eq_nil_iff, strictEqualsKey, hasKey]

theorem Authenticator.getFromStorage_eq_none_iff (c : List (Item AuthRecord)) (k : String) :
    Authenticator.getFromStorage c k = none ↔ ¬ hasKey c k := by
  rw [← DatabaseHandler.retrieve_eq_nil_iff]
  unfold Authenticator.getFromStorage
  cases DatabaseHandler.retrieve c (JSVal.str k) <;> simp

theorem Authenticator.getFromStorage_delete_self (c : List (Item AuthRecord)) (k : String) :
    Authenticator.getFromStorage (Authenticator.deleteFromStorage c k) k = none := by
  simp [Authenticator.getFromStorage, Authenticator.deleteFromStorage,
    DatabaseHandler.retrieve_delete_self]

/-- The lookup `getFromGlobalStorage` never yields `undefined`. -/
theorem Authenticator.getFromGlobalStorage_ne_undefined (g : List (Item String)) (key : JSVal) :
    Authenticator.getFromGlobalStorage g key ≠ JSVal.undefined := by
  unfold Authenticator.getFromGlobalStorage
  split
  · split <;> simp
  · simp

/-- The lookup `getFromGlobalStorage` never yields an array. -/
theorem Authenticator.getFromGlobalStorage_not_arr (g : List (Item String)) (key : JSVal)
    (l : List String) : Authenticator.getFromGlobalStorage g key ≠ JSVal.arr l := by
  unfold Authenticator.getFromGlobalStorage
  split
  · split <;> simp
  · simp

/-! ## `coco_authenticator_step_4` -/

/-- A signature comes out of step 4 only after the engine verified the proof. -/
theorem coco_authenticator_step_4_signed (E : Engine) (now : Int) (vk proof : String)
    (attrs : List RawAttribute) (req pk : String) (ua : List RawAttribute) (s k : String)
    (h : (coco_authenticator_step_4 E now vk proof attrs req pk ua).1 = SignResult.signed s k) :
    E.aggregateAndVerify (JSVal.str vk) proof attrs = some true := by
  unfold coco_authenticator_step_4 at h
  split_ifs at h
  split at h
  · simp at h
  · simp only [_verifyProof] at h
    cases hv : E.aggregateAndVerify (JSVal.str vk) proof attrs with
    | none => simp [hv] at h
    | some b =>
      cases b
      · simp [hv] at h
      · rfl

/-- Step 4 answers with an error when the engine does not verify the proof. -/
theorem coco_authenticator_step_4_error (E : Engine) (now : Int) (vk proof : String)
    (attrs : List RawAttribute) (req pk : String) (ua : List RawAttribute)
    (h : E.aggregateAndVerify (JSVal.str vk) proof attrs ≠ some true) :
    ∃ msg, (coco_authenticator_step_4 E now vk proof attrs req pk ua).1 =
      SignResult.error msg := by
  cases hr : (coco_authenticator_step_4 E now vk proof attrs req pk ua).1 with
  | error msg => exact ⟨msg, rfl⟩
  | signed s k => exact absurd (coco_authenticator_step_4_signed E now vk proof attrs req pk ua s k hr) h

/-! ## Authenticator operations -/

/-- C6: `handleRegisterRequest` with an `id` already present in the local store returns
`{error: "ID already exists."}` and changes neither the local store nor the Global Key
Registry (nor calls any engine), whatever the other arguments are. -/
theorem handleRegisterRequest_existing_id (E : Engine) (now : Int) (id vk proof : String)
    (attrs : List RawAttribute) (req pk : String) (tokenAttrs : List RawAttribute)
    (regProof : String) (regAttrs : List RawAttribute) (regKey : JSVal) (st : AuthState)
    (h : hasKey st.localDB id) :
    Authenticator.handleRegisterRequest E now id vk proof attrs req pk tokenAttrs regProof
      regAttrs regKey st = (AuthResponse.error "ID already exists.", st) := by
  have hs : (Authenticator.getFromStorage st.localDB id).isSome = true := by
    cases hg : Authenticator.getFromStorage st.localDB id with
    | none => exact absurd h ((Authenticator.getFromStorage_eq_none_iff _ _).mp hg)
    | some r => rfl
  simp [Authenticator.handleRegisterRequest, hs]

/-- Witness of C6: a second registration of `id-1`. -/
theorem handleRegisterRequest_existing_id_witness :
    hasKey [(⟨"id-1", ⟨"user-key"⟩⟩ : Item AuthRecord)] "id-1" ∧
    Authenticator.handleRegisterRequest sampleEngine 1000 "id-1" "other-key" "good-proof"
      (sampleAttributes "prove:identity") "request" "public-key"
      (sampleAttributes "access:uid") "good-proof" (sampleAttributes "register:uid")
      (JSVal.str "verifier-key") ⟨[⟨"id-1", ⟨"user-key"⟩⟩], [], []⟩ =
      (AuthResponse.error "ID already exists.", ⟨[⟨"id-1", ⟨"user-key"⟩⟩], [], []⟩) :=
  ⟨⟨_, List.mem_singleton.mpr rfl, rfl⟩,
    handleRegisterRequest_existing_id sampleEngine 1000 "id-1" "other-key" "good-proof"
      (sampleAttributes "prove:identity") "request" "public-key"
      (sampleAttributes "access:uid") "good-proof" (sampleAttributes "register:uid")
      (JSVal.str "verifier-key") ⟨[⟨"id-1", ⟨"user-key"⟩⟩], [], []⟩
      ⟨_, List.mem_singleton.mpr rfl, rfl⟩⟩

/-- On a value fetched from the registry by `getFromGlobalStorage` (never an array),
`coco_authenticator_step_0` calls no engine. -/
theorem coco_authenticator_step_0_calls (E : Engine) (now : Int) (g : List (Item String))
    (key : JSVal) (proof : String) (attrs : List RawAttribute) :
    (coco_authenticator_step_0 E now (Authenticator.getFromGlobalStorage g key) proof
      attrs).2 = [] := by
  unfold coco_authenticator_step_0
  split_ifs
  · rfl
  · split
    · next l heq => exact absurd heq (Authenticator.getFromGlobalStorage_not_arr g key l)
    · rfl

/-- The outcome of `handleRegisterRequest` is the same for every registration-token proof
and every list of registration-token attributes. -/
theorem handleRegisterRequest_token_irrelevant (E : Engine) (now : Int) (id vk proof : String)
    (attrs : List RawAttribute) (req pk : String) (tokenAttrs : List RawAttribute)
    (regProof regProof2 : String) (regAttrs regAttrs2 : List RawAttribute) (regKey : JSVal)
    (st : AuthState) :
    Authenticator.handleRegisterRequest E now id vk proof attrs req pk tokenAttrs regProof
      regAttrs regKey st =
    Authenticator.handleRegisterRequest E now id vk proof attrs req pk tokenAttrs regProof2
      regAttrs2 regKey st := by
  simp only [Authenticator.handleRegisterRequest, Promise.error,
    coco_authenticator_step_0_calls]

/-- C1: the registration-token check does not gate registration. At time 1000, with a
token whose `iat`, `exp` and scope are all wrong and whose proof the engine rejects,
`coco_authenticator_step_0` settles to an error both on the value fetched from the
registry and on the key list, and yet `handleRegisterRequest` stores `id-1` and returns a
signature. -/
theorem handleRegisterRequest_ignores_token_check :
    (coco_authenticator_step_0 sampleEngine 1000 (JSVal.str "verifier-key") "bad-proof"
      staleAttributes).1.settled =
      AccessResult.error "Input parameters must be of the correct data type." ∧
    (coco_authenticator_step_0 sampleEngine 1000 (JSVal.arr ["verifier-key"]) "bad-proof"
      staleAttributes).1.settled = AccessResult.error "Invalid `iat` attribute." ∧
    (coco_authenticator_step_0 sampleEngine 1000 (JSVal.arr ["verifier-key"]) "bad-proof"
      (sampleAttributes "register:uid")).1.settled =
      AccessResult.error "Proof verification failed." ∧
    Authenticator.handleRegisterRequest sampleEngine 1000 "id-1" "user-key" "good-proof"
      (sampleAttributes "prove:identity") "request" "public-key"
      (sampleAttributes "access:uid") "bad-proof" staleAttributes
      (JSVal.str "verifier-key") ⟨[], [⟨"verifier-key", "verifier-key"⟩], []⟩ =
      (AuthResponse.signature "signature" "issuer-key",
        ⟨[⟨"id-1", ⟨"user-key"⟩⟩],
          [⟨"verifier-key", "verifier-key"⟩, ⟨"issuer-key", "issuer-key"⟩],
          [EngineCall.verify (JSVal.str "user-key") "good-proof"
              (sampleAttributes "prove:identity"),
            EngineCall.sign "request" "public-key" (sampleAttributes "access:uid")]⟩) := by
  decide

/-- C2: the registry gate of `handleOPRFEvaluation` never closes. With an empty Global Key
Registry and the key `unpublished-key`, the operation verifies the proof, evaluates the
OPRF and returns the evaluation; the lookup it guards on never yields `undefined`. -/
theorem handleOPRFEvaluation_evaluates_unpublished_key :
    Authenticator.handleOPRFEvaluation sampleEngine 1000 (JSVal.arr ["unpublished-key"])
      "good-proof" (sampleAttributes "evaluate:OPRF") "eval-request" ⟨[], [], []⟩ =
      (AuthResponse.evaluation "evaluation",
        ⟨[], [],
          [EngineCall.verify (JSVal.arr ["unpublished-key"]) "good-proof"
              (sampleAttributes "evaluate:OPRF"),
            EngineCall.oprfEval "eval-request"]⟩) := by
  decide

/-- The outcome of `handleChangeAuthenticationDataRequest`, case by case. -/
theorem handleChangeAuthenticationDataRequest_cases (E : Engine) (now : Int)
    (oldId oldProof : String) (oldAttrs : List RawAttribute) (newId newVK proof : String)
    (attrs : List RawAttribute) (req pk : String) (ua : List RawAttribute) (st : AuthState) :
    ((Authenticator.handleChangeAuthenticationDataRequest E now oldId oldProof oldAttrs newId
        newVK proof attrs req pk ua st).1.isError = true ∧
      (Authenticator.handleChangeAuthenticationDataRequest E now oldId oldProof oldAttrs newId
        newVK proof attrs req pk ua st).2.localDB = st.localDB ∧
      (Authenticator.handleChangeAuthenticationDataRequest E now oldId oldProof oldAttrs newId
        newVK proof attrs req pk ua st).2.globalDB = st.globalDB) ∨
    (∃ oldData s k,
      Authenticator.getFromStorage st.localDB oldId = some oldData ∧
      E.aggregateAndVerify (JSVal.str oldData.VerificationKey) oldProof oldAttrs = some true ∧
      E.aggregateAndVerify (JSVal.str newVK) proof attrs = some true ∧
      (Authenticator.handleChangeAuthenticationDataRequest E now oldId oldProof oldAttrs newId
        newVK proof attrs req pk ua st).1 = AuthResponse.signature s k ∧
      (Authenticator.handleChangeAuthenticationDataRequest E now oldId oldProof oldAttrs newId
        newVK proof attrs req pk ua st).2.localDB =
        Authenticator.deleteFromStorage
          (Authenticator.setInStorage st.localDB newId ⟨newVK⟩) oldId) := by
  unfold Authenticator.handleChangeAuthenticationDataRequest
  cases hg : Authenticator.getFromStorage st.localDB oldId with
  | none => left; simp [AuthResponse.isError]
  | some oldData =>
    cases h1 : (coco_authenticator_step_4 E now oldData.VerificationKey oldProof oldAttrs
        req pk ua).1 with
    | error e => left; simp [h1, AuthResponse.isError]
    | signed s1 k1 =>
      cases h2 : (coco_authenticator_step_4 E now newVK proof attrs req pk ua).1 with
      | error e => left; simp [h1, h2, AuthResponse.isError]
      | signed s2 k2 =>
        right
        refine ⟨oldData, s2, k2, rfl, ?_, ?_, ?_⟩
        · exact coco_authenticator_step_4_signed E now _ _ _ _ _ _ s1 k1 h1
        · exact coco_authenticator_step_4_signed E now _ _ _ _ _ _ s2 k2 h2
        · simp [h1, h2]

/-- C7: `handleChangeAuthenticationDataRequest` is atomic on failure. If `oldId` is
unknown, or the engine does not verify the proof over the key stored under `oldId`, or it
does not verify the proof over `newVerificationKey`, the operation returns an error; and
whenever it returns an error the local store (and the registry) is unchanged: `newId` is
not stored and `oldId` is not deleted. -/
theorem handleChangeAuthenticationDataRequest_atomic (E : Engine) (now : Int)
    (oldId oldProof : String) (oldAttrs : List RawAttribute) (newId newVK proof : String)
    (attrs : List RawAttribute) (req pk : String) (ua : List RawAttribute) (st : AuthState) :
    ((Authenticator.getFromStorage st.localDB oldId = none ∨
        (∃ oldData, Authenticator.getFromStorage st.localDB oldId = some oldData ∧
          E.aggregateAndVerify (JSVal.str oldData.VerificationKey) oldProof oldAttrs ≠
            some true) ∨
        E.aggregateAndVerify (JSVal.str newVK) proof attrs ≠ some true) →
      (Authenticator.handleChangeAuthenticationDataRequest E now oldId oldProof oldAttrs newId
        newVK proof attrs req pk ua st).1.isError = true) ∧
    ((Authenticator.handleChangeAuthenticationDataRequest E now oldId oldProof oldAttrs newId
        newVK proof attrs req pk ua st).1.isError = true →
      (Authenticator.handleChangeAuthenticationDataRequest E now oldId oldProof oldAttrs newId
        newVK proof attrs req pk ua st).2.localDB = st.localDB ∧
      (Authenticator.handleChangeAuthenticationDataRequest E now oldId oldProof oldAttrs newId
        newVK proof attrs req pk ua st).2.globalDB = st.globalDB) := by
  rcases handleChangeAuthenticationDataRequest_cases E now oldId oldProof oldAttrs newId newVK
    proof attrs req pk ua st with ⟨he, hl, hg⟩ | ⟨oldData, s, k, hget, hv1, hv2, hr, _⟩
  · exact ⟨fun _ => he, fun _ => ⟨hl, hg⟩⟩
  · constructor
    · rintro (h | ⟨od, hod, hne⟩ | h)
      · rw [hget] at h; exact Option.noConfusion h
      · rw [hget] at hod
        cases hod
        exact absurd hv1 hne
      · exact absurd hv2 h
    · intro h
      rw [hr] at h
      exact Bool.noConfusion h

/-- Witness of C7: at time 1000 the proof over the new key is rejected; the operation
fails and the store still holds `old-id` only. -/
theorem handleChangeAuthenticationDataRequest_atomic_witness :
    (Authenticator.handleChangeAuthenticationDataRequest sampleEngine 1000 "old-id"
      "good-proof" (sampleAttributes "prove:identity") "new-id" "new-key" "bad-proof"
      (sampleAttributes "prove:identity") "request" "public-key"
      (sampleAttributes "access:uid") ⟨[⟨"old-id", ⟨"old-key"⟩⟩], [], []⟩).1.isError = true ∧
    (Authenticator.handleChangeAuthenticationDataRequest sampleEngine 1000 "old-id"
      "good-proof" (sampleAttributes "prove:identity") "new-id" "new-key" "bad-proof"
      (sampleAttributes "prove:identity") "request" "public-key"
      (sampleAttributes "access:uid") ⟨[⟨"old-id", ⟨"old-key"⟩⟩], [], []⟩).2.localDB =
      [⟨"old-id", ⟨"old-key"⟩⟩] :=
  have h := handleChangeAuthenticationDataRequest_atomic sampleEngine 1000 "old-id"
    "good-proof" (sampleAttributes "prove:identity") "new-id" "new-key" "bad-proof"
    (sampleAttributes "prove:identity") "request" "public-key"
    (sampleAttributes "access:uid") ⟨[⟨"old-id", ⟨"old-key"⟩⟩], [], []⟩
  ⟨h.1 (Or.inr (Or.inr (by decide))), (h.2 (h.1 (Or.inr (Or.inr (by decide))))).1⟩

/-- Counterexample to C8: two successful changes of authentication data after which a
lookup of `newId` does not yield the new key. In the first, `newId` is already stored:
the save appends a second item and the lookup still returns the first. In the second,
`newId` is `oldId`: the delete that follows the save removes the new record as well. -/
theorem handleChangeAuthenticationDataRequest_newId_lookup_counterexample :
    ((Authenticator.handleChangeAuthenticationDataRequest sampleEngine 1000 "old-id"
        "good-proof" (sampleAttributes "prove:identity") "new-id" "new-key" "good-proof"
        (sampleAttributes "prove:identity") "request" "public-key"
        (sampleAttributes "access:uid")
        ⟨[⟨"old-id", ⟨"old-key"⟩⟩, ⟨"new-id", ⟨"stale-key"⟩⟩], [], []⟩).1 =
        AuthResponse.signature "signature" "issuer-key" ∧
      Authenticator.getFromStorage
        (Authenticator.handleChangeAuthenticationDataRequest sampleEngine 1000 "old-id"
          "good-proof" (sampleAttributes "prove:identity") "new-id" "new-key" "good-proof"
          (sampleAttributes "prove:identity") "request" "public-key"
          (sampleAttributes "access:uid")
          ⟨[⟨"old-id", ⟨"old-key"⟩⟩, ⟨"new-id", ⟨"stale-key"⟩⟩], [], []⟩).2.localDB
        "new-id" = some ⟨"stale-key"⟩) ∧
    ((Authenticator.handleChangeAuthenticationDataRequest sampleEngine 1000 "same-id"
        "good-proof" (sampleAttributes "prove:identity") "same-id" "new-key" "good-proof"
        (sampleAttributes "prove:identity") "request" "public-key"
        (sampleAttributes "access:uid") ⟨[⟨"same-id", ⟨"old-key"⟩⟩], [], []⟩).1 =
        AuthResponse.signature "signature" "issuer-key" ∧
      Authenticator.getFromStorage
        (Authenticator.handleChangeAuthenticationDataRequest sampleEngine 1000 "same-id"
          "good-proof" (sampleAttributes "prove:identity") "same-id" "new-key" "good-proof"
          (sampleAttributes "prove:identity") "request" "public-key"
          (sampleAttributes "access:uid") ⟨[⟨"same-id", ⟨"old-key"⟩⟩], [], []⟩).2.localDB
        "same-id" = none) := by
  decide

/-- C8 (amended): whenever `handleChangeAuthenticationDataRequest` succeeds, `oldId` is
absent from the local store afterwards and the items of every id other than `oldId` and
`newId` are unchanged; if moreover `newId` differs from `oldId` and was not stored before,
a lookup of `newId` yields `{VerificationKey: newVerificationKey}`. -/
theorem handleChangeAuthenticationDataRequest_success (E : Engine) (now : Int)
    (oldId oldProof : String) (oldAttrs : List RawAttribute) (newId newVK proof : String)
    (attrs : List RawAttribute) (req pk : String) (ua : List RawAttribute) (st : AuthState)
    (hs : (Authenticator.handleChangeAuthenticationDataRequest E now oldId oldProof oldAttrs
      newId newVK proof attrs req pk ua st).1.isSignature = true) :
    Authenticator.getFromStorage
      (Authenticator.handleChangeAuthenticationDataRequest E now oldId oldProof oldAttrs
        newId newVK proof attrs req pk ua st).2.localDB oldId = none ∧
    (∀ other : String, other ≠ oldId → other ≠ newId →
      DatabaseHandler.retrieve
        (Authenticator.handleChangeAuthenticationDataRequest E now oldId oldProof oldAttrs
          newId newVK proof attrs req pk ua st).2.localDB (JSVal.str other) =
        DatabaseHandler.retrieve st.localDB (JSVal.str other)) ∧
    (newId ≠ oldId → ¬ hasKey st.localDB newId →
      Authenticator.getFromStorage
        (Authenticator.handleChangeAuthenticationDataRequest E now oldId oldProof oldAttrs
          newId newVK proof attrs req pk ua st).2.localDB newId = some ⟨newVK⟩) := by
  rcases handleChangeAuthenticationDataRequest_cases E now oldId oldProof oldAttrs newId newVK
    proof attrs req pk ua st with ⟨he, _, _⟩ | ⟨oldData, s, k, _, _, _, hr, hl⟩
  · cases hresp : (Authenticator.handleChangeAuthenticationDataRequest E now oldId oldProof
        oldAttrs newId newVK proof attrs req pk ua st).1 <;>
      simp [hresp, AuthResponse.isError, AuthResponse.isSignature] at he hs
  · rw [hl]
    refine ⟨Authenticator.getFromStorage_delete_self _ _, ?_, ?_⟩
    · intro other h1 h2
      unfold Authenticator.deleteFromStorage Authenticator.setInStorage
      rw [DatabaseHandler.retrieve_delete_other _ _ _ h1, DatabaseHandler.retrieve_save]
      simp [Ne.symm h2]
    · intro hne hfresh
      unfold Authenticator.getFromStorage Authenticator.deleteFromStorage
        Authenticator.setInStorage
      rw [DatabaseHandler.retrieve_delete_other _ _ _ hne, DatabaseHandler.retrieve_save,
        (DatabaseHandler.retrieve_eq_nil_iff _ _).mpr hfresh]
      simp

/-- Witness of C8 (amended): `old-id` replaced by the fresh `new-id`. -/
theorem handleChangeAuthenticationDataRequest_success_witness :
    Authenticator.getFromStorage
      (Authenticator.handleChangeAuthenticationDataRequest sampleEngine 1000 "old-id"
        "good-proof" (sampleAttributes "prove:identity") "new-id" "new-key" "good-proof"
        (sampleAttributes "prove:identity") "request" "public-key"
        (sampleAttributes "access:uid")
        ⟨[⟨"old-id", ⟨"old-key"⟩⟩, ⟨"other-id", ⟨"other-key"⟩⟩], [], []⟩).2.localDB
      "new-id" = some ⟨"new-key"⟩ :=
  (handleChangeAuthenticationDataRequest_success sampleEngine 1000 "old-id"
    "good-proof" (sampleAttributes "prove:identity") "new-id" "new-key" "good-proof"
    (sampleAttributes "prove:identity") "request" "public-key"
    (sampleAttributes "access:uid")
    ⟨[⟨"old-id", ⟨"old-key"⟩⟩, ⟨"other-id", ⟨"other-key"⟩⟩], [], []⟩ (by decide)).2.2
    (by decide) (by unfold hasKey; decide)

/-- The outcome of `handleDeleteCredentialRequest`, case by case. -/
theorem handleDeleteCredentialRequest_cases (E : Engine) (now : Int) (id proof : String)
    (attrs : List RawAttribute) (recoveryID recoveryProof : String)
    (recoveryAttrs : List RawAttribute) (req pk : String) (ua : List RawAttribute)
    (st : AuthState) :
    ((Authenticator.handleDeleteCredentialRequest E now id proof attrs recoveryID
        recoveryProof recoveryAttrs req pk ua st).1.isError = true ∧
      (Authenticator.handleDeleteCredentialRequest E now id proof attrs recoveryID
        recoveryProof recoveryAttrs req pk ua st).2.localDB = st.localDB ∧
      (Authenticator.handleDeleteCredentialRequest E now id proof attrs recoveryID
        recoveryProof recoveryAttrs req pk ua st).2.globalDB = st.globalDB) ∨
    (∃ idData idData1 s k,
      Authenticator.getFromStorage st.localDB id = some idData ∧
      Authenticator.getFromStorage st.localDB recoveryID = some idData1 ∧
      E.aggregateAndVerify (JSVal.str idData.VerificationKey) proof attrs = some true ∧
      E.aggregateAndVerify (JSVal.str idData1.VerificationKey) recoveryProof recoveryAttrs =
        some true ∧
      (Authenticator.handleDeleteCredentialRequest E now id proof attrs recoveryID
        recoveryProof recoveryAttrs req pk ua st).1 = AuthResponse.signature s k ∧
      (Authenticator.handleDeleteCredentialRequest E now id proof attrs recoveryID
        recoveryProof recoveryAttrs req pk ua st).2.localDB =
        Authenticator.deleteFromStorage (Authenticator.deleteFromStorage st.localDB id)
          recoveryID) := by
  unfold Authenticator.handleDeleteCredentialRequest
  cases hg : Authenticator.getFromStorage st.localDB id with
  | none => left; simp [AuthResponse.isError]
  | some idData =>
    cases h1 : (coco_authenticator_step_4 E now idData.VerificationKey proof attrs
        req pk ua).1 with
    | error e => left; simp [h1, AuthResponse.isError]
    | signed s1 k1 =>
      cases hg1 : Authenticator.getFromStorage st.localDB recoveryID with
      | none => left; simp [h1, AuthResponse.isError]
      | some idData1 =>
        cases h2 : (coco_authenticator_step_4 E now idData1.VerificationKey recoveryProof
            recoveryAttrs req pk ua).1 with
        | error e => left; simp [h1, h2, AuthResponse.isError]
        | signed s2 k2 =>
          right
          refine ⟨idData, idData1, s2, k2, rfl, rfl, ?_, ?_, ?_⟩
          · exact coco_authenticator_step_4_signed E now _ _ _ _ _ _ s1 k1 h1
          · exact coco_authenticator_step_4_signed E now _ _ _ _ _ _ s2 k2 h2
          · simp [h1, h2]

/-- C9: `handleDeleteCredentialRequest` leaves the local store as it is unless `id` and
`recoveryID` are both stored and the engine verifies each proof against the verification
key stored under its identifier; when it succeeds (returns `Signature` and `VK`), `id` and
`recoveryID` are both absent from the local store afterwards and the items of every other
identifier are unchanged. -/
theorem handleDeleteCredentialRequest_deletes_both (E : Engine) (now : Int) (id proof : String)
    (attrs : List RawAttribute) (recoveryID recoveryProof : String)
    (recoveryAttrs : List RawAttribute) (req pk : String) (ua : List RawAttribute)
    (st : AuthState) :
    ((Authenticator.handleDeleteCredentialRequest E now id proof attrs recoveryID
        recoveryProof recoveryAttrs req pk ua st).2.localDB ≠ st.localDB →
      ∃ idData idData1,
        Authenticator.getFromStorage st.localDB id = some idData ∧
        Authenticator.getFromStorage st.localDB recoveryID = some idData1 ∧
        E.aggregateAndVerify (JSVal.str idData.VerificationKey) proof attrs = some true ∧
        E.aggregateAndVerify (JSVal.str idData1.VerificationKey) recoveryProof
          recoveryAttrs = some true) ∧
    ((Authenticator.handleDeleteCredentialRequest E now id proof attrs recoveryID
        recoveryProof recoveryAttrs req pk ua st).1.isSignature = true →
      Authenticator.getFromStorage
        (Authenticator.handleDeleteCredentialRequest E now id proof attrs recoveryID
          recoveryProof recoveryAttrs req pk ua st).2.localDB id = none ∧
      Authenticator.getFromStorage
        (Authenticator.handleDeleteCredentialRequest E now id proof attrs recoveryID
          recoveryProof recoveryAttrs req pk ua st).2.localDB recoveryID = none ∧
      ∀ other : String, other ≠ id → other ≠ recoveryID →
        DatabaseHandler.retrieve
          (Authenticator.handleDeleteCredentialRequest E now id proof attrs recoveryID
            recoveryProof recoveryAttrs req pk ua st).2.localDB (JSVal.str other) =
          DatabaseHandler.retrieve st.localDB (JSVal.str other)) := by
  rcases handleDeleteCredentialRequest_cases E now id proof attrs recoveryID recoveryProof
    recoveryAttrs req pk ua st with
    ⟨he, hl, _⟩ | ⟨idData, idData1, s, k, hg, hg1, hv, hv1, hr, hl⟩
  · refine ⟨fun hne => absurd hl hne, fun hs => ?_⟩
    cases hresp : (Authenticator.handleDeleteCredentialRequest E now id proof attrs recoveryID
        recoveryProof recoveryAttrs req pk ua st).1 <;>
      simp [hresp, AuthResponse.isError, AuthResponse.isSignature] at he hs
  · refine ⟨fun _ => ⟨idData, idData1, hg, hg1, hv, hv1⟩, fun _ => ?_⟩
    rw [hl]
    refine ⟨?_, Authenticator.getFromStorage_delete_self _ _, ?_⟩
    · by_cases h : id = recoveryID
      · rw [h]; exact Authenticator.getFromStorage_delete_self _ _
      · unfold Authenticator.getFromStorage Authenticator.deleteFromStorage
        rw [DatabaseHandler.retrieve_delete_other _ _ _ h,
          DatabaseHandler.retrieve_delete_self]
        rfl
    · intro other h1 h2
      unfold Authenticator.deleteFromStorage
      rw [DatabaseHandler.retrieve_delete_other _ _ _ h2,
        DatabaseHandler.retrieve_delete_other _ _ _ h1]

/-- Witness of C9: the primary and the recovery identifier are deleted, a third one
stays. -/
theorem handleDeleteCredentialRequest_deletes_both_witness :
    Authenticator.getFromStorage
      (Authenticator.handleDeleteCredentialRequest sampleEngine 1000 "id-1" "good-proof"
        (sampleAttributes "prove:identity") "recovery-1" "good-proof"
        (sampleAttributes "prove:identity") "request" "public-key"
        (sampleAttributes "access:uid")
        ⟨[⟨"id-1", ⟨"key-1"⟩⟩, ⟨"id-2", ⟨"key-2"⟩⟩, ⟨"recovery-1", ⟨"key-3"⟩⟩], [],
          []⟩).2.localDB "id-1" = none ∧
    Authenticator.getFromStorage
      (Authenticator.handleDeleteCredentialRequest sampleEngine 1000 "id-1" "good-proof"
        (sampleAttributes "prove:identity") "recovery-1" "good-proof"
        (sampleAttributes "prove:identity") "request" "public-key"
        (sampleAttributes "access:uid")
        ⟨[⟨"id-1", ⟨"key-1"⟩⟩, ⟨"id-2", ⟨"key-2"⟩⟩, ⟨"recovery-1", ⟨"key-3"⟩⟩], [],
          []⟩).2.localDB "recovery-1" = none :=
  have h := (handleDeleteCredentialRequest_deletes_both sampleEngine 1000 "id-1" "good-proof"
    (sampleAttributes "prove:identity") "recovery-1" "good-proof"
    (sampleAttributes "prove:identity") "request" "public-key"
    (sampleAttributes "access:uid")
    ⟨[⟨"id-1", ⟨"key-1"⟩⟩, ⟨"id-2", ⟨"key-2"⟩⟩, ⟨"recovery-1", ⟨"key-3"⟩⟩], [], []⟩).2
    (by decide)
  ⟨h.1, h.2.1⟩

/-- C10: with `id` and `recoveryID` both `id-1`, one stored credential and the same valid
proof given twice, `handleDeleteCredentialRequest` succeeds and the record is deleted:
possession of a single credential is enough to delete it. -/
theorem handleDeleteCredentialRequest_single_credential_deletes :
    Authenticator.handleDeleteCredentialRequest sampleEngine 1000 "id-1" "good-proof"
      (sampleAttributes "prove:identity") "id-1" "good-proof"
      (sampleAttributes "prove:identity") "request" "public-key"
      (sampleAttributes "access:uid") ⟨[⟨"id-1", ⟨"key-1"⟩⟩], [], []⟩ =
      (AuthResponse.signature "signature" "issuer-key",
        ⟨[], [⟨"issuer-key", "issuer-key"⟩],
          [EngineCall.verify (JSVal.str "key-1") "good-proof"
              (sampleAttributes "prove:identity"),
            EngineCall.sign "request" "public-key" (sampleAttributes "access:uid"),
            EngineCall.verify (JSVal.str "key-1") "good-proof"
              (sampleAttributes "prove:identity"),
            EngineCall.sign "request" "public-key" (sampleAttributes "access:uid")]⟩) := by
  decide

/-- What deletion at the Authenticator does check: two proofs that verify, not two
different identifiers. `handleDeleteCredentialRequest` succeeds only if `id` and
`recoveryID` are both stored and the engine verifies each proof against the key stored
under its identifier; and when `id` and `recoveryID` are the same stored identifier, it
succeeds as soon as step 4 accepts each of the two proofs against that one stored key. -/
theorem handleDeleteCredentialRequest_two_proofs (E : Engine) (now : Int) (id proof : String)
    (attrs : List RawAttribute) (recoveryID recoveryProof : String)
    (recoveryAttrs : List RawAttribute) (req pk : String) (ua : List RawAttribute)
    (st : AuthState) :
    ((Authenticator.handleDeleteCredentialRequest E now id proof attrs recoveryID
        recoveryProof recoveryAttrs req pk ua st).1.isSignature = true →
      ∃ idData idData1,
        Authenticator.getFromStorage st.localDB id = some idData ∧
        Authenticator.getFromStorage st.localDB recoveryID = some idData1 ∧
        E.aggregateAndVerify (JSVal.str idData.VerificationKey) proof attrs = some true ∧
        E.aggregateAndVerify (JSVal.str idData1.VerificationKey) recoveryProof
          recoveryAttrs = some true) ∧
    (id = recoveryID → ∀ idData : AuthRecord,
      Authenticator.getFromStorage st.localDB id = some idData →
      (coco_authenticator_step_4 E now idData.VerificationKey proof attrs req pk
        ua).1.isError = false →
      (coco_authenticator_step_4 E now idData.VerificationKey recoveryProof recoveryAttrs
        req pk ua).1.isError = false →
      (Authenticator.handleDeleteCredentialRequest E now id proof attrs recoveryID
        recoveryProof recoveryAttrs req pk ua st).1.isSignature = true) := by
  constructor
  · intro hs
    rcases handleDeleteCredentialRequest_cases E now id proof attrs recoveryID recoveryProof
      recoveryAttrs req pk ua st with
      ⟨he, _, _⟩ | ⟨idData, idData1, s, k, hg, hg1, hv, hv1, _, _⟩
    · cases hresp : (Authenticator.handleDeleteCredentialRequest E now id proof attrs
          recoveryID recoveryProof recoveryAttrs req pk ua st).1 <;>
        simp [hresp, AuthResponse.isError, AuthResponse.isSignature] at he hs
    · exact ⟨idData, idData1, hg, hg1, hv, hv1⟩
  · intro hid idData hg h1 h2
    subst hid
    unfold Authenticator.handleDeleteCredentialRequest
    cases hr1 : (coco_authenticator_step_4 E now idData.VerificationKey proof attrs req pk
        ua).1 with
    | error e => rw [hr1] at h1; exact Bool.noConfusion h1
    | signed s1 k1 =>
      cases hr2 : (coco_authenticator_step_4 E now idData.VerificationKey recoveryProof
          recoveryAttrs req pk ua).1 with
      | error e => rw [hr2] at h2; exact Bool.noConfusion h2
      | signed s2 k2 => simp [hg, hr1, hr2, AuthResponse.isSignature]

/-- Witness: one stored identifier given as `id` and as `recoveryID`. -/
theorem handleDeleteCredentialRequest_two_proofs_witness :
    (Authenticator.handleDeleteCredentialRequest sampleEngine 1000 "id-1" "good-proof"
      (sampleAttributes "prove:identity") "id-1" "good-proof"
      (sampleAttributes "prove:identity") "request" "public-key"
      (sampleAttributes "access:uid") ⟨[⟨"id-1", ⟨"key-1"⟩⟩], [], []⟩).1.isSignature = true :=
  (handleDeleteCredentialRequest_two_proofs sampleEngine 1000 "id-1" "good-proof"
    (sampleAttributes "prove:identity") "id-1" "good-proof"
    (sampleAttributes "prove:identity") "request" "public-key"
    (sampleAttributes "access:uid") ⟨[⟨"id-1", ⟨"key-1"⟩⟩], [], []⟩).2 rfl ⟨"key-1"⟩
    (by decide) (by decide) (by decide)

/-! ## Verifier operations -/

/-- A key without an entry in the registry is fetched as `null`. -/
theorem Verifier.getFromGlobalStorage_absent (g : List (Item String)) (k : String)
    (h : ¬ hasKey g k) : Verifier.getFromGlobalStorage g (JSVal.str k) = JSVal.null := by
  unfold Verifier.getFromGlobalStorage
  rw [(DatabaseHandler.retrieve_eq_nil_iff g k).mpr h]
  rfl

/-- Under the registry invariant, a key with an entry is fetched as itself. -/
theorem Verifier.getFromGlobalStorage_present (g : List (Item String)) (k : String)
    (hinv : registryInvariant g) (h : hasKey g k) :
    Verifier.getFromGlobalStorage g (JSVal.str k) = JSVal.str k := by
  unfold Verifier.getFromGlobalStorage
  cases hr : DatabaseHandler.retrieve g (JSVal.str k) with
  | nil => exact absurd h ((DatabaseHandler.retrieve_eq_nil_iff g k).mp hr)
  | cons data rest =>
    have hmem : data ∈ DatabaseHandler.retrieve g (JSVal.str k) := by
      rw [hr]; exact List.mem_cons_self _ _
    unfold DatabaseHandler.retrieve at hmem
    rw [List.mem_filter] at hmem
    obtain ⟨hin, hkey⟩ := hmem
    have hk : data.key = k := by simpa [strictEqualsKey] using hkey
    obtain ⟨hv, hne⟩ := hinv data hin
    have hval : data.value = k := by rw [hv, hk]
    have hne' : k ≠ "" := by rw [← hk]; exact hne
    simp [hne', hval]

/-- One missing key makes the validation loop end with an error. -/
theorem Verifier.validateVerificationKeys_absent (g : List (Item String)) (keys : List String)
    (h : ∃ k ∈ keys, ¬ hasKey g k) :
    ∃ e, Verifier.validateVerificationKeys g keys = Except.error e := by
  induction keys with
  | nil => obtain ⟨k, hk, _⟩ := h; exact absurd hk (List.not_mem_nil k)
  | cons key rest ih =>
    unfold Verifier.validateVerificationKeys
    by_cases hkey : hasKey g key
    · have hrest : ∃ k ∈ rest, ¬ hasKey g k := by
        obtain ⟨k, hk, habs⟩ := h
        rcases List.mem_cons.mp hk with rfl | hk'
        · exact absurd hkey habs
        · exact ⟨k, hk', habs⟩
      obtain ⟨e, he⟩ := ih hrest
      cases hf : Verifier.getFromGlobalStorage g (JSVal.str key) <;> simp [he]
    · rw [Verifier.getFromGlobalStorage_absent g key hkey]
      exact ⟨_, rfl⟩

/-- Under the registry invariant, the validation loop returns the supplied keys when all
of them have an entry. -/
theorem Verifier.validateVerificationKeys_present (g : List (Item String))
    (keys : List String) (hinv : registryInvariant g) (h : ∀ k ∈ keys, hasKey g k) :
    Verifier.validateVerificationKeys g keys = Except.ok keys := by
  induction keys with
  | nil => rfl
  | cons key rest ih =>
    unfold Verifier.validateVerificationKeys
    rw [Verifier.getFromGlobalStorage_present g key hinv (h key (List.mem_cons_self _ _)),
      ih (fun k hk => h k (List.mem_cons_of_mem _ hk))]

/-- C3: for `completeRegistration`, `completeLogin`, `handleUpdateSaltsRequest`,
`handleUsernameUpdateRequest` and `handleDeleteUserRequest`, whenever one of the supplied
verification keys has no entry in the Global Key Registry, the operation does not report
success and returns the state it was given: the local store is unchanged and no engine
call, in particular no proof verification, is added to the trace, whatever the engine
would answer. -/
theorem verifier_registry_gate (E : Engine) (now : Int) (username userId new_username : String)
    (salts new_salts keys : List String) (proof : String) (attrs : List RawAttribute)
    (st : VerifierState) (h : ∃ k ∈ keys, ¬ hasKey st.globalDB k) :
    ((Verifier.completeRegistration E now username userId salts keys proof attrs
        st).1.isSuccess = false ∧
      (Verifier.completeRegistration E now username userId salts keys proof attrs st).2 = st) ∧
    ((Verifier.completeLogin E now username keys proof attrs st).1.isSuccess = false ∧
      (Verifier.completeLogin E now username keys proof attrs st).2 = st) ∧
    ((Verifier.handleUpdateSaltsRequest E now username new_salts keys proof attrs
        st).1.isSuccess = false ∧
      (Verifier.handleUpdateSaltsRequest E now username new_salts keys proof attrs st).2 = st) ∧
    ((Verifier.handleUsernameUpdateRequest E now username new_username keys proof attrs
        st).1.isSuccess = false ∧
      (Verifier.handleUsernameUpdateRequest E now username new_username keys proof attrs
        st).2 = st) ∧
    ((Verifier.handleDeleteUserRequest E now username keys proof attrs
        st).1.isSuccess = false ∧
      (Verifier.handleDeleteUserRequest E now username keys proof attrs st).2 = st) := by
  obtain ⟨e, he⟩ := Verifier.validateVerificationKeys_absent st.globalDB keys h
  refine ⟨?_, ?_, ?_, ?_, ?_⟩
  · unfold Verifier.completeRegistration
    cases Verifier.getFromStorage st.username_to_userid username <;>
      simp [he, VerifierResponse.isSuccess]
  · unfold Verifier.completeLogin
    cases Verifier.getFromStorage st.username_to_userid username <;>
      simp [he, VerifierResponse.isSuccess]
  · unfold Verifier.handleUpdateSaltsRequest
    cases Verifier.getFromStorage st.username_to_userid username <;>
      simp [he, VerifierResponse.isSuccess]
  · unfold Verifier.handleUsernameUpdateRequest
    cases Verifier.getFromStorage st.username_to_userid username <;>
      cases Verifier.getFromStorage st.username_to_userid new_username <;>
      simp [he, VerifierResponse.isSuccess]
  · unfold Verifier.handleDeleteUserRequest
    cases Verifier.getFromStorage st.username_to_userid username <;>
      simp [he, VerifierResponse.isSuccess]

/-- Witness of C3: `alice` logs in with the unpublished key `key-2` and a proof the engine
would accept. -/
theorem verifier_registry_gate_witness :
    (Verifier.completeLogin sampleEngine 1000 "alice" ["key-1", "key-2"] "good-proof"
      (sampleAttributes "access:uid") sampleVerifierState).1.isSuccess = false ∧
    (Verifier.completeLogin sampleEngine 1000 "alice" ["key-1", "key-2"] "good-proof"
      (sampleAttributes "access:uid") sampleVerifierState).2 = sampleVerifierState :=
  (verifier_registry_gate sampleEngine 1000 "alice" "uid-1" "bob" [] [] ["key-1", "key-2"]
    "good-proof" (sampleAttributes "access:uid") sampleVerifierState
    ⟨"key-2", by decide, by unfold hasKey; decide⟩).2.1

/-- C5: under the registry invariant, `completeRegistration` returns `{registered: true}`
and appends `username -> {userId}` and `userId -> {Salts, VerificationKeys}` to the local
store exactly when the username is unmapped, every supplied key has an entry in the Global
Key Registry and `coco_verifier_step_2` returns exactly `true`; in every other case the
local store is unchanged and the result is not `{registered: true}`. -/
theorem completeRegistration_persists_iff (E : Engine) (now : Int) (username userId : String)
    (salts keys : List String) (proof : String) (attrs : List RawAttribute)
    (st : VerifierState) (hinv : registryInvariant st.globalDB) :
    ((Verifier.getFromStorage st.username_to_userid username = none ∧
        (∀ k ∈ keys, hasKey st.globalDB k) ∧
        (coco_verifier_step_2 E now (JSVal.arr keys) proof attrs).1 = VerifyResult.bool true) →
      (Verifier.completeRegistration E now username userId salts keys proof attrs st).1 =
        VerifierResponse.registered true ∧
      (Verifier.completeRegistration E now username userId salts keys proof attrs
        st).2.username_to_userid = st.username_to_userid ++ [⟨username, ⟨userId⟩⟩] ∧
      (Verifier.completeRegistration E now username userId salts keys proof attrs
        st).2.userid_to_userdata = st.userid_to_userdata ++ [⟨userId, st.heap.length⟩] ∧
      (Verifier.completeRegistration E now username userId salts keys proof attrs
        st).2.heap = st.heap ++ [⟨salts, keys⟩] ∧
      (Verifier.completeRegistration E now username userId salts keys proof attrs
        st).2.metadata = st.metadata) ∧
    (¬ (Verifier.getFromStorage st.username_to_userid username = none ∧
        (∀ k ∈ keys, hasKey st.globalDB k) ∧
        (coco_verifier_step_2 E now (JSVal.arr keys) proof attrs).1 = VerifyResult.bool true) →
      (Verifier.completeRegistration E now username userId salts keys proof attrs st).1 ≠
        VerifierResponse.registered true ∧
      (Verifier.completeRegistration E now username userId salts keys proof attrs
        st).2.username_to_userid = st.username_to_userid ∧
      (Verifier.completeRegistration E now username userId salts keys proof attrs
        st).2.userid_to_userdata = st.userid_to_userdata ∧
      (Verifier.completeRegistration E now username userId salts keys proof attrs
        st).2.heap = st.heap ∧
      (Verifier.completeRegistration E now username userId salts keys proof attrs
        st).2.metadata = st.metadata) := by
  unfold Verifier.completeRegistration
  cases hu : Verifier.getFromStorage st.username_to_userid username with
  | some userMapping => simp
  | none =>
    by_cases hk : ∀ k ∈ keys, hasKey st.globalDB k
    · rw [Verifier.validateVerificationKeys_present st.globalDB keys hinv hk]
      cases hv : (coco_verifier_step_2 E now (JSVal.arr keys) proof attrs).1 with
      | error e => simp [hv, Verifier.isVerificationSuccessful]
      | bool b =>
        cases b
        · simp [hv, Verifier.isVerificationSuccessful]
        · simp [hv, Verifier.isVerificationSuccessful, DatabaseHandler.save]
          intro k hkk
          exact hk k hkk
    · have hk' : ∃ k ∈ keys, ¬ hasKey st.globalDB k := by
        by_contra hcon
        apply hk
        intro k hkk
        by_contra hn
        exact hcon ⟨k, hkk, hn⟩
      obtain ⟨e, he⟩ := Verifier.validateVerificationKeys_absent st.globalDB keys hk'
      simp [he]
      intro hall
      exact absurd hall hk

/-- Witness of C5: `bob` registers with the published key `key-1`. -/
theorem completeRegistration_persists_iff_witness :
    registryInvariant sampleVerifierState.globalDB ∧
    (Verifier.completeRegistration sampleEngine 1000 "bob" "uid-2" ["salt-2"] ["key-1"]
      "good-proof" (sampleAttributes "access:uid") sampleVerifierState).1 =
      VerifierResponse.registered true :=
  have hinv : registryInvariant sampleVerifierState.globalDB := by
    unfold registryInvariant; decide
  ⟨hinv, ((completeRegistration_persists_iff sampleEngine 1000 "bob" "uid-2" ["salt-2"]
    ["key-1"] "good-proof" (sampleAttributes "access:uid") sampleVerifierState hinv).1
    ⟨by decide, by unfold hasKey; decide, by decide⟩).1⟩

/-! ## Verifier: registration request, secrets in responses -/

/-- C11: `handleRegistrationRequest` for an already-mapped username returns exactly
`{exists: true, userId}` with the mapped `userId` and the state it was given (no blind
signature in the trace, nothing added to the Global Key Registry); and for every input,
mapped or not, the local store (username mappings, user records, pepper) is unchanged. -/
theorem handleRegistrationRequest_frame (E : Engine) (now : Int) (uuid username req pk : String)
    (attrs : List RawAttribute) (st : VerifierState) :
    (∀ mapping, Verifier.getFromStorage st.username_to_userid username = some mapping →
      Verifier.handleRegistrationRequest E now uuid username req pk attrs st =
        (VerifierResponse.existsTrue mapping.userId, st)) ∧
    (Verifier.handleRegistrationRequest E now uuid username req pk attrs st).2.metadata =
      st.metadata ∧
    (Verifier.handleRegistrationRequest E now uuid username req pk attrs
      st).2.username_to_userid = st.username_to_userid ∧
    (Verifier.handleRegistrationRequest E now uuid username req pk attrs
      st).2.userid_to_userdata = st.userid_to_userdata ∧
    (Verifier.handleRegistrationRequest E now uuid username req pk attrs st).2.heap =
      st.heap := by
  unfold Verifier.handleRegistrationRequest
  cases hu : Verifier.getFromStorage st.username_to_userid username with
  | some mapping => simp
  | none =>
    cases hr : (coco_verifier_step_1 E now req pk attrs).1 <;> simp [hr]

/-- Witness of C11: a registration request for the mapped username `alice`. -/
theorem handleRegistrationRequest_frame_witness :
    Verifier.handleRegistrationRequest sampleEngine 1000 "uid-9" "alice" "request" "public-key"
      (sampleAttributes "register:uid") sampleVerifierState =
      (VerifierResponse.existsTrue "uid-1", sampleVerifierState) :=
  (handleRegistrationRequest_frame sampleEngine 1000 "uid-9" "alice" "request" "public-key"
    (sampleAttributes "register:uid") sampleVerifierState).1 ⟨"uid-1"⟩ (by decide)

/-- Counterexample to C12: the response of `handleRegistrationRequest` for the unmapped
username `bob` carries the stored pepper, and it changes when only the stored pepper is
changed. -/
theorem handleRegistrationRequest_returns_pepper_counterexample :
    (Verifier.handleRegistrationRequest sampleEngine 1000 "uid-9" "bob" "request" "public-key"
      (sampleAttributes "register:uid") sampleVerifierState).1 =
      VerifierResponse.registrationIssued "uid-9" (JSVal.str "pepper-value") "signature"
        "issuer-key" ∧
    (Verifier.handleRegistrationRequest sampleEngine 1000 "uid-9" "bob" "request" "public-key"
      (sampleAttributes "register:uid")
      { sampleVerifierState with metadata := [⟨"pepper", JSVal.str "other-pepper"⟩] }).1 =
      VerifierResponse.registrationIssued "uid-9" (JSVal.str "other-pepper") "signature"
        "issuer-key" := by
  decide

/-- C12 (amended): Salts are returned only by `handleLoginRequest` for a mapped username;
the Pepper is returned only by `handleLoginRequest` for a mapped username and by
`handleRegistrationRequest` when it issues a registration token for an unmapped username.
The responses of `completeRegistration`, `completeLogin`, `credentialLogin`,
`handleUpdateSaltsRequest`, `handleUsernameUpdateRequest` and `handleDeleteUserRequest`
carry neither and are the same for two states that differ only in the collection holding
the pepper. -/
theorem verifier_secret_disclosure (E : Engine) (now : Int)
    (uuid username userId new_username req pk : String) (salts new_salts keys : List String)
    (proof : String) (attrs : List RawAttribute) (st : VerifierState)
    (metadata2 : List (Item JSVal)) :
    (((Verifier.handleLoginRequest username st).1.carriesSalts = true ∨
        (Verifier.handleLoginRequest username st).1.carriesPepper = true) →
      (Verifier.getFromStorage st.username_to_userid username).isSome = true) ∧
    ((Verifier.handleRegistrationRequest E now uuid username req pk attrs
        st).1.carriesSalts = false ∧
      ((Verifier.handleRegistrationRequest E now uuid username req pk attrs
          st).1.carriesPepper = true →
        Verifier.getFromStorage st.username_to_userid username = none ∧
        (coco_verifier_step_1 E now req pk attrs).1.isError = false)) ∧
    ((Verifier.completeRegistration E now username userId salts keys proof attrs
        st).1.carriesSalts = false ∧
      (Verifier.completeRegistration E now username userId salts keys proof attrs
        st).1.carriesPepper = false ∧
      (Verifier.completeRegistration E now username userId salts keys proof attrs
        { st with metadata := metadata2 }).1 =
      (Verifier.completeRegistration E now username userId salts keys proof attrs st).1) ∧
    ((Verifier.completeLogin E now username keys proof attrs st).1.carriesSalts = false ∧
      (Verifier.completeLogin E now username keys proof attrs st).1.carriesPepper = false ∧
      (Verifier.completeLogin E now username keys proof attrs
        { st with metadata := metadata2 }).1 =
      (Verifier.completeLogin E now username keys proof attrs st).1) ∧
    ((∀ r, (Verifier.credentialLogin E now username keys proof attrs st).1 = some r →
        r.carriesSalts = false ∧ r.carriesPepper = false) ∧
      (Verifier.credentialLogin E now username keys proof attrs
        { st with metadata := metadata2 }).1 =
      (Verifier.credentialLogin E now username keys proof attrs st).1) ∧
    ((Verifier.handleUpdateSaltsRequest E now username new_salts keys proof attrs
        st).1.carriesSalts = false ∧
      (Verifier.handleUpdateSaltsRequest E now username new_salts keys proof attrs
        st).1.carriesPepper = false ∧
      (Verifier.handleUpdateSaltsRequest E now username new_salts keys proof attrs
        { st with metadata := metadata2 }).1 =
      (Verifier.handleUpdateSaltsRequest E now username new_salts keys proof attrs st).1) ∧
    ((Verifier.handleUsernameUpdateRequest E now username new_username keys proof attrs
        st).1.carriesSalts = false ∧
      (Verifier.handleUsernameUpdateRequest E now username new_username keys proof attrs
        st).1.carriesPepper = false ∧
      (Verifier.handleUsernameUpdateRequest E now username new_username keys proof attrs
        { st with metadata := metadata2 }).1 =
      (Verifier.handleUsernameUpdateRequest E now username new_username keys proof attrs
        st).1) ∧
    ((Verifier.handleDeleteUserRequest E now username keys proof attrs
        st).1.carriesSalts = false ∧
      (Verifier.handleDeleteUserRequest E now username keys proof attrs
        st).1.carriesPepper = false ∧
      (Verifier.handleDeleteUserRequest E now username keys proof attrs
        { st with metadata := metadata2 }).1 =
      (Verifier.handleDeleteUserRequest E now username keys proof attrs st).1) := by
  refine ⟨?_, ?_, ?_, ?_, ?_, ?_, ?_, ?_⟩
  · unfold Verifier.handleLoginRequest
    cases Verifier.getFromStorage st.username_to_userid username <;>
      simp [*, VerifierResponse.carriesSalts, VerifierResponse.carriesPepper]
  · unfold Verifier.handleRegistrationRequest
    cases hu : Verifier.getFromStorage st.username_to_userid username with
    | some mapping => simp [*, VerifierResponse.carriesSalts, VerifierResponse.carriesPepper]
    | none =>
      cases hr : (coco_verifier_step_1 E now req pk attrs).1 <;>
        simp [hr, VerifierResponse.carriesSalts, VerifierResponse.carriesPepper,
          SignResult.isError]
  · unfold Verifier.completeRegistration
    cases Verifier.getFromStorage st.username_to_userid username with
    | some mapping => simp [*, VerifierResponse.carriesSalts, VerifierResponse.carriesPepper]
    | none =>
      cases Verifier.validateVerificationKeys st.globalDB keys with
      | error e => simp [*, VerifierResponse.carriesSalts, VerifierResponse.carriesPepper]
      | ok validated =>
        cases hv : Verifier.isVerificationSuccessful
            (coco_verifier_step_2 E now (JSVal.arr validated) proof attrs).1 <;>
          simp [*, VerifierResponse.carriesSalts, VerifierResponse.carriesPepper]
  · unfold Verifier.completeLogin
    cases Verifier.getFromStorage st.username_to_userid username with
    | none => simp [*, VerifierResponse.carriesSalts, VerifierResponse.carriesPepper]
    | some mapping =>
      cases Verifier.validateVerificationKeys st.globalDB keys with
      | error e => simp [*, VerifierResponse.carriesSalts, VerifierResponse.carriesPepper]
      | ok validated =>
        cases hv : Verifier.isVerificationSuccessful
            (coco_verifier_step_2 E now (JSVal.arr validated) proof attrs).1 <;>
          simp [*, VerifierResponse.carriesSalts, VerifierResponse.carriesPepper]
  · unfold Verifier.credentialLogin Verifier.getUserData
    cases Verifier.getFromStorage st.username_to_userid username with
    | none => simp [*, VerifierResponse.carriesSalts, VerifierResponse.carriesPepper]
    | some mapping =>
      cases hd : (Verifier.getFromStorage st.userid_to_userdata mapping.userId).bind
          (fun ref => st.heap[ref]?) with
      | none => simp [hd]
      | some userData =>
        cases hm : Verifier.keysMismatch userData.VerificationKeys keys with
        | true => simp [*, VerifierResponse.carriesSalts, VerifierResponse.carriesPepper]
        | false =>
          cases hv : Verifier.isVerificationSuccessful
              (coco_verifier_step_2 E now (JSVal.arr userData.VerificationKeys) proof
                attrs).1 <;>
            simp [*, VerifierResponse.carriesSalts, VerifierResponse.carriesPepper]
  · unfold Verifier.handleUpdateSaltsRequest
    cases Verifier.getFromStorage st.username_to_userid username with
    | none => simp [*, VerifierResponse.carriesSalts, VerifierResponse.carriesPepper]
    | some mapping =>
      cases Verifier.validateVerificationKeys st.globalDB keys with
      | error e => simp [*, VerifierResponse.carriesSalts, VerifierResponse.carriesPepper]
      | ok validated =>
        cases hv : Verifier.isVerificationSuccessful
            (coco_verifier_step_2 E now (JSVal.arr validated) proof attrs).1 <;>
          cases hd : Verifier.getFromStorage st.userid_to_userdata mapping.userId <;>
          simp [*, VerifierResponse.carriesSalts, VerifierResponse.carriesPepper]
  · unfold Verifier.handleUsernameUpdateRequest
    cases Verifier.getFromStorage st.username_to_userid username with
    | none => simp [*, VerifierResponse.carriesSalts, VerifierResponse.carriesPepper]
    | some mapping =>
      cases Verifier.getFromStorage st.username_to_userid new_username with
      | some other => simp [*, VerifierResponse.carriesSalts, VerifierResponse.carriesPepper]
      | none =>
        cases Verifier.validateVerificationKeys st.globalDB keys with
        | error e => simp [*, VerifierResponse.carriesSalts, VerifierResponse.carriesPepper]
        | ok validated =>
          cases hv : Verifier.isVerificationSuccessful
              (coco_verifier_step_2 E now (JSVal.arr validated) proof attrs).1 <;>
            simp [*, VerifierResponse.carriesSalts, VerifierResponse.carriesPepper]
  · unfold Verifier.handleDeleteUserRequest
    cases Verifier.getFromStorage st.username_to_userid username with
    | none => simp [*, VerifierResponse.carriesSalts, VerifierResponse.carriesPepper]
    | some mapping =>
      cases Verifier.validateVerificationKeys st.globalDB keys with
      | error e => simp [*, VerifierResponse.carriesSalts, VerifierResponse.carriesPepper]
      | ok validated =>
        cases hv : Verifier.isVerificationSuccessful
            (coco_verifier_step_2 E now (JSVal.arr validated) proof attrs).1 <;>
          simp [*, VerifierResponse.carriesSalts, VerifierResponse.carriesPepper]

/-- Witness of C12 (amended): the login response for the mapped username `alice` carries
salts, hence `alice` is mapped. -/
theorem verifier_secret_disclosure_witness :
    (Verifier.getFromStorage sampleVerifierState.username_to_userid "alice").isSome = true :=
  (verifier_secret_disclosure sampleEngine 1000 "uid-9" "alice" "uid-1" "bob" "request"
    "public-key" [] [] ["key-1"] "good-proof" (sampleAttributes "access:uid")
    sampleVerifierState []).1 (Or.inl (by decide))

/-! ## Verifier: credential login and the stored keys -/

/-- The loop of `credentialLogin` reports no mismatch exactly when the supplied list
starts with the stored list. -/
theorem Verifier.keysMismatch_eq_false_iff (stored supplied : List String) :
    Verifier.keysMismatch stored supplied = false ↔ ∃ extra, supplied = stored ++ extra := by
  induction stored generalizing supplied with
  | nil => simp [Verifier.keysMismatch]
  | cons s rest ih =>
    cases supplied with
    | nil => simp [Verifier.keysMismatch]
    | cons p ps =>
      unfold Verifier.keysMismatch
      by_cases h : s = p
      · subst h
        simp [ih]
      · simp only [h, if_false]
        constructor
        · intro hc; exact Bool.noConfusion hc
        · rintro ⟨extra, he⟩
          simp only [List.cons_append, List.cons.injEq] at he
          exact absurd he.1.symm h

/-- Counterexample to C13: the stored list is `[key-1]` and the supplied list is the longer
`[key-1, key-2]`; `credentialLogin` reports no mismatch, verifies the proof against the
stored key and logs the user in. -/
theorem credentialLogin_longer_list_counterexample :
    Verifier.getUserData sampleVerifierState "uid-1" = some ⟨["salt-1"], ["key-1"]⟩ ∧
    Verifier.credentialLogin sampleEngine 1000 "alice" ["key-1", "key-2"] "good-proof"
      (sampleAttributes "access:uid") sampleVerifierState =
      (some (VerifierResponse.logged true),
        { sampleVerifierState with
          calls := [EngineCall.verify (JSVal.arr ["key-1"]) "good-proof"
            (sampleAttributes "access:uid")] }) := by
  decide

/-- C13 (amended): on a mapped username with a stored record, `credentialLogin` returns
`{error: "Verification Keys Mismatch"}` and the state it was given (no proof is verified)
whenever the supplied list does not start with the stored `VerificationKeys` list, that
is, a different key at a position of the stored list or a supplied list shorter than the
stored one; a supplied list that starts with the stored list, a longer one included, is
not rejected and the proof is verified against the stored keys. -/
theorem credentialLogin_key_check (E : Engine) (now : Int) (username : String)
    (keys : List String) (proof : String) (attrs : List RawAttribute) (st : VerifierState)
    (mapping : UserMapping) (userData : UserRecord)
    (hu : Verifier.getFromStorage st.username_to_userid username = some mapping)
    (hd : Verifier.getUserData st mapping.userId = some userData) :
    ((¬ ∃ extra, keys = userData.VerificationKeys ++ extra) →
      Verifier.credentialLogin E now username keys proof attrs st =
        (some (VerifierResponse.error "Verification Keys Mismatch"), st)) ∧
    ((∃ extra, keys = userData.VerificationKeys ++ extra) →
      Verifier.credentialLogin E now username keys proof attrs st =
        (some (VerifierResponse.logged (Verifier.isVerificationSuccessful
          (coco_verifier_step_2 E now (JSVal.arr userData.VerificationKeys) proof attrs).1)),
          { st with calls := st.calls ++
            (coco_verifier_step_2 E now (JSVal.arr userData.VerificationKeys) proof
              attrs).2 })) := by
  constructor
  · intro h
    have hm : Verifier.keysMismatch userData.VerificationKeys keys = true := by
      cases hk : Verifier.keysMismatch userData.VerificationKeys keys with
      | true => rfl
      | false => exact absurd ((Verifier.keysMismatch_eq_false_iff _ _).mp hk) h
    simp [Verifier.credentialLogin, hu, hd, hm]
  · intro h
    have hm := (Verifier.keysMismatch_eq_false_iff _ _).mpr h
    cases hv : Verifier.isVerificationSuccessful
        (coco_verifier_step_2 E now (JSVal.arr userData.VerificationKeys) proof attrs).1 <;>
      simp [Verifier.credentialLogin, hu, hd, hm, hv]

/-- Witness of C13 (amended): `alice` presents `key-9` where `key-1` is stored. -/
theorem credentialLogin_key_check_witness :
    Verifier.credentialLogin sampleEngine 1000 "alice" ["key-9"] "good-proof"
      (sampleAttributes "access:uid") sampleVerifierState =
      (some (VerifierResponse.error "Verification Keys Mismatch"), sampleVerifierState) :=
  (credentialLogin_key_check sampleEngine 1000 "alice" ["key-9"] "good-proof"
    (sampleAttributes "access:uid") sampleVerifierState ⟨"uid-1"⟩ ⟨["salt-1"], ["key-1"]⟩
    (by decide) (by decide)).1 (by
      rintro ⟨extra, he⟩
      simp at he)

/-- C14: the update operations do not refresh the stored keys. `alice` is registered with
`key-1`; both `key-1` and `key-2` are published. `handleUpdateSaltsRequest` and
`handleUsernameUpdateRequest` called with `[key-2]` succeed, the record still holds
`[key-1]`, and the following `credentialLogin` with `[key-2]` is rejected as a mismatch;
after `completeLogin` with `[key-2]` the record holds `[key-2]`. -/
theorem update_operations_keep_stale_keys :
    ((Verifier.handleUpdateSaltsRequest sampleEngine 1000 "alice" ["salt-2"] ["key-2"]
        "good-proof" (sampleAttributes "access:uid") sampleVerifierStateTwoKeys).1 =
        VerifierResponse.updated true ∧
      Verifier.getUserData
        (Verifier.handleUpdateSaltsRequest sampleEngine 1000 "alice" ["salt-2"] ["key-2"]
          "good-proof" (sampleAttributes "access:uid") sampleVerifierStateTwoKeys).2 "uid-1" =
        some ⟨["salt-2"], ["key-1"]⟩ ∧
      (Verifier.credentialLogin sampleEngine 1000 "alice" ["key-2"] "good-proof"
        (sampleAttributes "access:uid")
        (Verifier.handleUpdateSaltsRequest sampleEngine 1000 "alice" ["salt-2"] ["key-2"]
          "good-proof" (sampleAttributes "access:uid") sampleVerifierStateTwoKeys).2).1 =
        some (VerifierResponse.error "Verification Keys Mismatch")) ∧
    ((Verifier.handleUsernameUpdateRequest sampleEngine 1000 "alice" "alicia" ["key-2"]
        "good-proof" (sampleAttributes "access:uid") sampleVerifierStateTwoKeys).1 =
        VerifierResponse.updated true ∧
      Verifier.getUserData
        (Verifier.handleUsernameUpdateRequest sampleEngine 1000 "alice" "alicia" ["key-2"]
          "good-proof" (sampleAttributes "access:uid") sampleVerifierStateTwoKeys).2 "uid-1" =
        some ⟨["salt-1"], ["key-1"]⟩ ∧
      (Verifier.credentialLogin sampleEngine 1000 "alicia" ["key-2"] "good-proof"
        (sampleAttributes "access:uid")
        (Verifier.handleUsernameUpdateRequest sampleEngine 1000 "alice" "alicia" ["key-2"]
          "good-proof" (sampleAttributes "access:uid") sampleVerifierStateTwoKeys).2).1 =
        some (VerifierResponse.error "Verification Keys Mismatch")) ∧
    ((Verifier.completeLogin sampleEngine 1000 "alice" ["key-2"] "good-proof"
        (sampleAttributes "access:uid") sampleVerifierStateTwoKeys).1 =
        VerifierResponse.logged true ∧
      Verifier.getUserData
        (Verifier.completeLogin sampleEngine 1000 "alice" ["key-2"] "good-proof"
          (sampleAttributes "access:uid") sampleVerifierStateTwoKeys).2 "uid-1" =
        some ⟨["salt-1"], ["key-2"]⟩) := by
  decide

/-! ## Verifier: salts update, guarded mutations, deletion -/

theorem Verifier.mutateObjects_getElem? (refs : List Nat) (f : UserRecord → UserRecord)
    (i : Nat) (heap : List UserRecord) (j : Nat) :
    (Verifier.mutateObjects refs f i heap)[j]? =
      (heap[j]?).map (fun o => if refs.contains (i + j) then f o else o) := by
  induction heap generalizing i j with
  | nil => simp [Verifier.mutateObjects]
  | cons o rest ih =>
    cases j with
    | zero => simp [Verifier.mutateObjects]
    | succ j =>
      simp only [Verifier.mutateObjects, List.getElem?_cons_succ, ih]
      have : i + 1 + j = i + (j + 1) := by omega
      rw [this]

theorem Verifier.getFromStorage_mem {α : Type} (c : List (Item α)) (k : String) (v : α)
    (h : Verifier.getFromStorage c k = some v) : (⟨k, v⟩ : Item α) ∈ c := by
  unfold Verifier.getFromStorage at h
  cases hr : DatabaseHandler.retrieve c (JSVal.str k) with
  | nil => simp [hr] at h
  | cons data rest =>
    simp [hr] at h
    have hmem : data ∈ DatabaseHandler.retrieve c (JSVal.str k) := by
      rw [hr]; exact List.mem_cons_self _ _
    unfold DatabaseHandler.retrieve at hmem
    rw [List.mem_filter] at hmem
    obtain ⟨hin, hkey⟩ := hmem
    have hk : data.key = k := by simpa [strictEqualsKey] using hkey
    have : data = ⟨k, v⟩ := by
      cases data
      simp_all
    rw [← this]
    exact hin

theorem Verifier.getFromStorage_save_of_some {α : Type} (c : List (Item α)) (k q : String)
    (v w : α) (h : Verifier.getFromStorage c q = some w) :
    Verifier.getFromStorage (DatabaseHandler.save c ⟨k, v⟩) q = some w := by
  unfold Verifier.getFromStorage at h ⊢
  rw [DatabaseHandler.retrieve_save]
  cases hr : DatabaseHandler.retrieve c (JSVal.str q) with
  | nil => simp [hr] at h
  | cons data rest => simpa [hr] using h

theorem Verifier.lookup_after_delete {α : Type} (c : List (Item α)) (k : String) :
    Verifier.getFromStorage (DatabaseHandler.delete c (JSVal.str k)) k = none := by
  simp [Verifier.getFromStorage, DatabaseHandler.retrieve_delete_self]

theorem Verifier.isVerificationSuccessful_iff (r : VerifyResult) :
    Verifier.isVerificationSuccessful r = true ↔ r = VerifyResult.bool true := by
  cases r with
  | error e => simp [Verifier.isVerificationSuccessful]
  | bool b => cases b <;> simp [Verifier.isVerificationSuccessful]

/-- The state after a successful `handleUpdateSaltsRequest`. -/
theorem handleUpdateSaltsRequest_success_state (E : Engine) (now : Int) (username : String)
    (new_salts keys : List String) (proof : String) (attrs : List RawAttribute)
    (st : VerifierState)
    (hs : (Verifier.handleUpdateSaltsRequest E now username new_salts keys proof attrs st).1 =
      VerifierResponse.updated true) :
    ∃ mapping ref calls,
      Verifier.getFromStorage st.username_to_userid username = some mapping ∧
      Verifier.getFromStorage st.userid_to_userdata mapping.userId = some ref ∧
      (Verifier.handleUpdateSaltsRequest E now username new_salts keys proof attrs st).2 =
        { st with
          heap := Verifier.mutateObjects [ref] (fun o => { o with Salts := new_salts }) 0
            st.heap
          userid_to_userdata := DatabaseHandler.save st.userid_to_userdata
            ⟨mapping.userId, ref⟩
          calls := calls } := by
  unfold Verifier.handleUpdateSaltsRequest at hs ⊢
  cases hu : Verifier.getFromStorage st.username_to_userid username with
  | none => simp [hu] at hs
  | some mapping =>
    cases hk : Verifier.validateVerificationKeys st.globalDB keys with
    | error e => simp [hu, hk] at hs
    | ok validated =>
      cases hv : Verifier.isVerificationSuccessful
          (coco_verifier_step_2 E now (JSVal.arr validated) proof attrs).1 with
      | false => simp [hu, hk, hv] at hs
      | true =>
        cases hd : Verifier.getFromStorage st.userid_to_userdata mapping.userId with
        | none => simp [hu, hk, hv, hd] at hs
        | some ref =>
          exact ⟨mapping, ref,
            st.calls ++ (coco_verifier_step_2 E now (JSVal.arr validated) proof attrs).2,
            rfl, hd, by simp [hv, hd]⟩

/-- C15: on the in-memory store, with every stored reference pointing at a record, after
`handleUpdateSaltsRequest(username, newSalts, ...)` returns `{updated: true}`,
`handleLoginRequest(username)` returns `{exists: true}` with `salts` equal to `newSalts`
and with the `userId` and the `pepper` it returned before the update. -/
theorem handleUpdateSaltsRequest_then_login (E : Engine) (now : Int) (username : String)
    (new_salts keys : List String) (proof : String) (attrs : List RawAttribute)
    (st : VerifierState) (hwf : heapWellFormed st)
    (hs : (Verifier.handleUpdateSaltsRequest E now username new_salts keys proof attrs st).1 =
      VerifierResponse.updated true) :
    ∃ userId oldSalts pepper,
      (Verifier.handleLoginRequest username st).1 =
        VerifierResponse.loginData userId oldSalts pepper ∧
      (Verifier.handleLoginRequest username
        (Verifier.handleUpdateSaltsRequest E now username new_salts keys proof attrs st).2).1 =
        VerifierResponse.loginData userId (some new_salts) pepper := by
  obtain ⟨mapping, ref, calls, hu, hd, hst⟩ :=
    handleUpdateSaltsRequest_success_state E now username new_salts keys proof attrs st hs
  have hlt : ref < st.heap.length :=
    hwf ⟨mapping.userId, ref⟩ (Verifier.getFromStorage_mem _ _ _ hd)
  refine ⟨mapping.userId, (Verifier.getUserData st mapping.userId).map (fun o => o.Salts),
    Verifier.getFromMetaStorage st.metadata VERIFIER_PEPPER_COLLECTION, ?_, ?_⟩
  · simp only [Verifier.handleLoginRequest, hu]
  · rw [hst]
    simp only [Verifier.handleLoginRequest, hu, Verifier.getUserData,
      Verifier.getFromStorage_save_of_some _ _ _ _ _ hd, Option.bind_some,
      Verifier.mutateObjects_getElem?]
    simp [List.getElem?_eq_getElem hlt]

/-- Witness of C15: the salts of `alice` are replaced by `salt-2`. -/
theorem handleUpdateSaltsRequest_then_login_witness :
    ∃ userId oldSalts pepper,
      (Verifier.handleLoginRequest "alice" sampleVerifierState).1 =
        VerifierResponse.loginData userId oldSalts pepper ∧
      (Verifier.handleLoginRequest "alice"
        (Verifier.handleUpdateSaltsRequest sampleEngine 1000 "alice" ["salt-2"] ["key-1"]
          "good-proof" (sampleAttributes "access:uid") sampleVerifierState).2).1 =
        VerifierResponse.loginData userId (some ["salt-2"]) pepper :=
  handleUpdateSaltsRequest_then_login sampleEngine 1000 "alice" ["salt-2"] ["key-1"]
    "good-proof" (sampleAttributes "access:uid") sampleVerifierState
    (by unfold heapWellFormed; decide) (by decide)

/-- C16: each of `handleUpdateSaltsRequest`, `handleUsernameUpdateRequest` and
`handleDeleteUserRequest` returns a non-success result when the username is unknown or
proof verification did not return exactly `true` (a result of `false`, an error object,
or a key that could not be fetched), and whenever the result is not a success the local
store is unchanged. -/
theorem verifier_mutations_need_verification (E : Engine) (now : Int)
    (username new_username : String) (new_salts keys : List String) (proof : String)
    (attrs : List RawAttribute) (st : VerifierState) :
    (((Verifier.getFromStorage st.username_to_userid username = none ∨
          ¬ verifiedTrue E now keys proof attrs st) →
        (Verifier.handleUpdateSaltsRequest E now username new_salts keys proof attrs
          st).1.isSuccess = false) ∧
      ((Verifier.handleUpdateSaltsRequest E now username new_salts keys proof attrs
          st).1.isSuccess = false →
        localStoreUnchanged st
          (Verifier.handleUpdateSaltsRequest E now username new_salts keys proof attrs
            st).2)) ∧
    (((Verifier.getFromStorage st.username_to_userid username = none ∨
          ¬ verifiedTrue E now keys proof attrs st) →
        (Verifier.handleUsernameUpdateRequest E now username new_username keys proof attrs
          st).1.isSuccess = false) ∧
      ((Verifier.handleUsernameUpdateRequest E now username new_username keys proof attrs
          st).1.isSuccess = false →
        localStoreUnchanged st
          (Verifier.handleUsernameUpdateRequest E now username new_username keys proof attrs
            st).2)) ∧
    (((Verifier.getFromStorage st.username_to_userid username = none ∨
          ¬ verifiedTrue E now keys proof attrs st) →
        (Verifier.handleDeleteUserRequest E now username keys proof attrs
          st).1.isSuccess = false) ∧
      ((Verifier.handleDeleteUserRequest E now username keys proof attrs
          st).1.isSuccess = false →
        localStoreUnchanged st
          (Verifier.handleDeleteUserRequest E now username keys proof attrs st).2)) := by
  unfold verifiedTrue localStoreUnchanged
  refine ⟨?_, ?_, ?_⟩
  · unfold Verifier.handleUpdateSaltsRequest
    cases hu : Verifier.getFromStorage st.username_to_userid username with
    | none => simp [VerifierResponse.isSuccess]
    | some mapping =>
      cases hk : Verifier.validateVerificationKeys st.globalDB keys with
      | error e => simp [VerifierResponse.isSuccess]
      | ok validated =>
        cases hv : Verifier.isVerificationSuccessful
            (coco_verifier_step_2 E now (JSVal.arr validated) proof attrs).1 with
        | false => simp [hv, VerifierResponse.isSuccess]
        | true =>
          have hv2 := (Verifier.isVerificationSuccessful_iff _).mp hv
          cases hd : Verifier.getFromStorage st.userid_to_userdata mapping.userId <;>
            simp [hv2, hd, VerifierResponse.isSuccess, Verifier.isVerificationSuccessful]
  · unfold Verifier.handleUsernameUpdateRequest
    cases hu : Verifier.getFromStorage st.username_to_userid username with
    | none => simp [VerifierResponse.isSuccess]
    | some mapping =>
      cases hn : Verifier.getFromStorage st.username_to_userid new_username with
      | some other => simp [VerifierResponse.isSuccess]
      | none =>
        cases hk : Verifier.validateVerificationKeys st.globalDB keys with
        | error e => simp [VerifierResponse.isSuccess]
        | ok validated =>
          cases hv : Verifier.isVerificationSuccessful
              (coco_verifier_step_2 E now (JSVal.arr validated) proof attrs).1 with
          | false => simp [hv, VerifierResponse.isSuccess]
          | true =>
            have hv2 := (Verifier.isVerificationSuccessful_iff _).mp hv
            simp [hv2, VerifierResponse.isSuccess, Verifier.isVerificationSuccessful]
  · unfold Verifier.handleDeleteUserRequest
    cases hu : Verifier.getFromStorage st.username_to_userid username with
    | none => simp [VerifierResponse.isSuccess]
    | some mapping =>
      cases hk : Verifier.validateVerificationKeys st.globalDB keys with
      | error e => simp [VerifierResponse.isSuccess]
      | ok validated =>
        cases hv : Verifier.isVerificationSuccessful
            (coco_verifier_step_2 E now (JSVal.arr validated) proof attrs).1 with
        | false => simp [hv, VerifierResponse.isSuccess]
        | true =>
          have hv2 := (Verifier.isVerificationSuccessful_iff _).mp hv
          simp [hv2, VerifierResponse.isSuccess, Verifier.isVerificationSuccessful]

/-- Neither update operation ever writes the `VerificationKeys` field of a record:
`handleUpdateSaltsRequest` keeps that field of every record object, and
`handleUsernameUpdateRequest` keeps the record collection and the objects as they are. -/
theorem update_operations_never_write_keys (E : Engine) (now : Int)
    (username new_username : String) (new_salts keys : List String) (proof : String)
    (attrs : List RawAttribute) (st : VerifierState) :
    (∀ j : Nat,
      ((Verifier.handleUpdateSaltsRequest E now username new_salts keys proof attrs
        st).2.heap[j]?).map (fun o => o.VerificationKeys) =
      (st.heap[j]?).map (fun o => o.VerificationKeys)) ∧
    (Verifier.handleUsernameUpdateRequest E now username new_username keys proof attrs
      st).2.heap = st.heap ∧
    (Verifier.handleUsernameUpdateRequest E now username new_username keys proof attrs
      st).2.userid_to_userdata = st.userid_to_userdata := by
  refine ⟨?_, ?_, ?_⟩
  · intro j
    unfold Verifier.handleUpdateSaltsRequest
    cases hu : Verifier.getFromStorage st.username_to_userid username with
    | none => rfl
    | some mapping =>
      cases hk : Verifier.validateVerificationKeys st.globalDB keys with
      | error e => rfl
      | ok validated =>
        cases hv : Verifier.isVerificationSuccessful
            (coco_verifier_step_2 E now (JSVal.arr validated) proof attrs).1 with
        | false => simp [hv]
        | true =>
          cases hd : Verifier.getFromStorage st.userid_to_userdata mapping.userId with
          | none => simp [hv, hd]
          | some ref =>
            simp only [hv, hd, if_true, Verifier.mutateObjects_getElem?, Option.map_map]
            congr 1
            funext o
            simp only [Function.comp]
            split <;> rfl
  · simp only [Verifier.handleUsernameUpdateRequest]
    split
    · rfl
    · split
      · rfl
      · split
        · rfl
        · split <;> rfl
  · simp only [Verifier.handleUsernameUpdateRequest]
    split
    · rfl
    · split
      · rfl
      · split
        · rfl
        · split <;> rfl

/-- Witness of C16: `alice` asks for a salts update with a proof the engine rejects. -/
theorem verifier_mutations_need_verification_witness :
    (Verifier.handleUpdateSaltsRequest sampleEngine 1000 "alice" ["salt-2"] ["key-1"]
      "bad-proof" (sampleAttributes "access:uid") sampleVerifierState).1.isSuccess = false ∧
    localStoreUnchanged sampleVerifierState
      (Verifier.handleUpdateSaltsRequest sampleEngine 1000 "alice" ["salt-2"] ["key-1"]
        "bad-proof" (sampleAttributes "access:uid") sampleVerifierState).2 :=
  have h := (verifier_mutations_need_verification sampleEngine 1000 "alice" "bob" ["salt-2"]
    ["key-1"] "bad-proof" (sampleAttributes "access:uid") sampleVerifierState).1
  have hn : ¬ verifiedTrue sampleEngine 1000 ["key-1"] "bad-proof"
      (sampleAttributes "access:uid") sampleVerifierState := by
    rintro ⟨validated, hk, hv⟩
    have hk2 : validated = ["key-1"] := by
      have : Verifier.validateVerificationKeys sampleVerifierState.globalDB ["key-1"] =
          Except.ok ["key-1"] := by rfl
      rw [this] at hk
      exact (Except.ok.inj hk).symm
    subst hk2
    revert hv
    decide
  ⟨h.1 (Or.inr hn), h.2 (h.1 (Or.inr hn))⟩

/-- The state after a successful `handleDeleteUserRequest`. -/
theorem handleDeleteUserRequest_success_state (E : Engine) (now : Int) (username : String)
    (keys : List String) (proof : String) (attrs : List RawAttribute) (st : VerifierState)
    (hs : (Verifier.handleDeleteUserRequest E now username keys proof attrs st).1 =
      VerifierResponse.deleted true) :
    ∃ mapping calls,
      Verifier.getFromStorage st.username_to_userid username = some mapping ∧
      (Verifier.handleDeleteUserRequest E now username keys proof attrs st).2 =
        { st with
          username_to_userid := DatabaseHandler.delete st.username_to_userid
            (JSVal.str username)
          userid_to_userdata := DatabaseHandler.delete st.userid_to_userdata
            (JSVal.str mapping.userId)
          calls := calls } := by
  unfold Verifier.handleDeleteUserRequest at hs ⊢
  cases hu : Verifier.getFromStorage st.username_to_userid username with
  | none => simp [hu] at hs
  | some mapping =>
    cases hk : Verifier.validateVerificationKeys st.globalDB keys with
    | error e => simp [hu, hk] at hs
    | ok validated =>
      cases hv : Verifier.isVerificationSuccessful
          (coco_verifier_step_2 E now (JSVal.arr validated) proof attrs).1 with
      | false => simp [hu, hk, hv] at hs
      | true =>
        exact ⟨mapping,
          st.calls ++ (coco_verifier_step_2 E now (JSVal.arr validated) proof attrs).2,
          rfl, by simp [hv]⟩

/-- C17: after `handleDeleteUserRequest(username, ...)` returns `{deleted: true}`, the
username has no mapping, `handleLoginRequest(username)` returns `{exists: false}`, no user
record remains under the userId it was mapped to, and the mapping items of every other
username are unchanged. -/
theorem handleDeleteUserRequest_removes_user (E : Engine) (now : Int) (username : String)
    (keys : List String) (proof : String) (attrs : List RawAttribute) (st : VerifierState)
    (hs : (Verifier.handleDeleteUserRequest E now username keys proof attrs st).1 =
      VerifierResponse.deleted true) :
    ∃ mapping,
      Verifier.getFromStorage st.username_to_userid username = some mapping ∧
      Verifier.getFromStorage
        (Verifier.handleDeleteUserRequest E now username keys proof attrs
          st).2.username_to_userid username = none ∧
      (Verifier.handleLoginRequest username
        (Verifier.handleDeleteUserRequest E now username keys proof attrs st).2).1 =
        VerifierResponse.existsFalse ∧
      DatabaseHandler.retrieve
        (Verifier.handleDeleteUserRequest E now username keys proof attrs
          st).2.userid_to_userdata (JSVal.str mapping.userId) = [] ∧
      Verifier.getUserData
        (Verifier.handleDeleteUserRequest E now username keys proof attrs st).2
        mapping.userId = none ∧
      ∀ other : String, other ≠ username →
        DatabaseHandler.retrieve
          (Verifier.handleDeleteUserRequest E now username keys proof attrs
            st).2.username_to_userid (JSVal.str other) =
          DatabaseHandler.retrieve st.username_to_userid (JSVal.str other) := by
  obtain ⟨mapping, calls, hu, hst⟩ :=
    handleDeleteUserRequest_success_state E now username keys proof attrs st hs
  refine ⟨mapping, hu, ?_, ?_, ?_, ?_, ?_⟩
  · rw [hst]; exact Verifier.lookup_after_delete _ _
  · rw [hst]
    simp [Verifier.handleLoginRequest, Verifier.lookup_after_delete]
  · rw [hst]; exact DatabaseHandler.retrieve_delete_self _ _
  · rw [hst]
    simp [Verifier.getUserData, Verifier.lookup_after_delete]
  · intro other hne
    rw [hst]
    exact DatabaseHandler.retrieve_delete_other _ _ _ hne

/-- Witness of C17: `alice` is deleted. -/
theorem handleDeleteUserRequest_removes_user_witness :
    ∃ mapping,
      Verifier.getFromStorage sampleVerifierState.username_to_userid "alice" = some mapping ∧
      Verifier.getFromStorage
        (Verifier.handleDeleteUserRequest sampleEngine 1000 "alice" ["key-1"] "good-proof"
          (sampleAttributes "access:uid") sampleVerifierState).2.username_to_userid
        "alice" = none :=
  have h := handleDeleteUserRequest_removes_user sampleEngine 1000 "alice" ["key-1"]
    "good-proof" (sampleAttributes "access:uid") sampleVerifierState (by decide)
  h.elim fun mapping hm => ⟨mapping, hm.1, hm.2.1⟩

/-! ## The two attribute validators -/

theorem find?_congr_of_mem {α : Type} (p q : α → Bool) (l : List α)
    (h : ∀ a ∈ l, p a = q a) : l.find? p = l.find? q := by
  induction l with
  | nil => rfl
  | cons a rest ih =>
    have ha : p a = q a := h a (List.mem_cons_self _ _)
    have hrest : rest.find? p = rest.find? q :=
      ih (fun b hb => h b (List.mem_cons_of_mem _ hb))
    simp only [List.find?, ha, hrest]

theorem JSNum.isNaN_of_gt (n x : JSNum) (h : n.gt x = true) : n.isNaN = false := by
  cases n with
  | nan => simp [JSNum.gt] at h
  | inf s => rfl
  | fin a b => rfl

/-- Counterexample to C18: at time 2000 the token `[1000, 1060, access:uid]`, all
attributes public, with scope `access:uid` and window 60 given to both validators, is
accepted by the Authenticator's block and rejected by the Verifier's block as expired. -/
theorem attribute_validators_differ_counterexample :
    authenticatorAttributeCheck "access:uid" 60 2000 (sampleAttributes "access:uid") = none ∧
    verifierAttributeCheck "access:uid" 60 2000 (sampleAttributes "access:uid") =
      some "Invalid `exp` attribute." := by
  decide

/-- C18 (amended): for every list of public attributes, every clock value, scope string
and validity window, the Verifier's attribute block accepts exactly the lists that the
Authenticator's block accepts and whose `exp` lies after the clock value: the Verifier
adds the expiry test `now >= exp`, which the Authenticator's block does not make. -/
theorem verifier_check_is_authenticator_check_and_expiry (scope : String)
    (window now : Int) (attrs : List RawAttribute)
    (hpub : ∀ attr ∈ attrs, attr.is_private = false) :
    verifierAttributeCheck scope window now attrs = none ↔
      (authenticatorAttributeCheck scope window now attrs = none ∧
        (JSNum.fin now 1).ge (expiryRead attrs) = false) := by
  have h1 : attrs.find? (fun attr => !attr.is_private && !(Number attr.value).isNaN) =
      attrs.find? (fun attr => !(Number attr.value).isNaN) :=
    find?_congr_of_mem _ _ _ (fun a ha => by simp [hpub a ha])
  have h2 : ∀ x : JSNum,
      attrs.find? (fun attr => !attr.is_private && !(Number attr.value).isNaN &&
        (Number attr.value).gt x) =
      attrs.find? (fun attr => (Number attr.value).gt x) := by
    intro x
    apply find?_congr_of_mem
    intro a ha
    cases hg : (Number a.value).gt x
    · simp
    · simp [hpub a ha, JSNum.isNaN_of_gt _ _ hg]
  have h3 : attrs.find? (fun attr => !attr.is_private && attr.value == scope) =
      attrs.find? (fun attr => attr.value == scope) :=
    find?_congr_of_mem _ _ _ (fun a ha => by simp [hpub a ha])
  simp only [verifierAttributeCheck, authenticatorAttributeCheck, expiryRead, h1, h2, h3]
  cases hI : attrs.find? (fun attr => !(Number attr.value).isNaN) with
  | none => simp [JSNum.isNaN]
  | some iat =>
    have hin : (Number iat.value).isNaN = false := by
      have := List.find?_some hI
      simpa using this
    simp only [hin, Bool.false_or]
    cases hgt : (Number iat.value).gt (JSNum.fin now 1) with
    | true => simp
    | false =>
      simp only [Bool.false_eq_true, if_false]
      cases hE : attrs.find? (fun attr =>
          (Number attr.value).gt (Number iat.value).orZero) with
      | none => simp [JSNum.isNaN]
      | some exp =>
        have hgx : (Number exp.value).gt (Number iat.value).orZero = true := by
          have := List.find?_some hE
          simpa using this
        have hen : (Number exp.value).isNaN = false := JSNum.isNaN_of_gt _ _ hgx
        simp only [hen, Bool.false_or]
        cases hge : (JSNum.fin now 1).ge (Number exp.value) with
        | true => simp
        | false =>
          cases hw : ((Number exp.value).sub (Number iat.value)).gt (JSNum.fin window 1) with
          | true => simp
          | false =>
            cases hS : attrs.find? (fun attr => attr.value == scope) <;> simp

/-- Witness of C18 (amended): the token `[1000, 1060, access:uid]` at time 1000. -/
theorem verifier_check_is_authenticator_check_and_expiry_witness :
    verifierAttributeCheck "access:uid" 60 1000 (sampleAttributes "access:uid") = none ↔
      (authenticatorAttributeCheck "access:uid" 60 1000 (sampleAttributes "access:uid") =
          none ∧
        (JSNum.fin 1000 1).ge (expiryRead (sampleAttributes "access:uid")) = false) :=
  verifier_check_is_authenticator_check_and_expiry "access:uid" 60 1000
    (sampleAttributes "access:uid") (by decide)

/-! ## Pepper initialisation -/

/-- C19: `initPepper` is idempotent. On a store with no pepper item, with the generator
returning a non-empty string, it appends exactly one pepper item and touches nothing
else; run again on the resulting store, whatever the generator would return, it leaves
the state as it is, so the store holds one pepper. -/
theorem initPepper_idempotent (pepper : String) (random2 : Option String)
    (st : VerifierState) (hfresh : ¬ hasKey st.metadata VERIFIER_PEPPER_COLLECTION)
    (hne : pepper ≠ "") :
    Verifier.initPepper (some pepper) st =
      { st with metadata := st.metadata ++ [⟨VERIFIER_PEPPER_COLLECTION, JSVal.str pepper⟩] } ∧
    DatabaseHandler.retrieve (Verifier.initPepper (some pepper) st).metadata
      (JSVal.str VERIFIER_PEPPER_COLLECTION) =
      [⟨VERIFIER_PEPPER_COLLECTION, JSVal.str pepper⟩] ∧
    Verifier.getFromMetaStorage (Verifier.initPepper (some pepper) st).metadata
      VERIFIER_PEPPER_COLLECTION = JSVal.str pepper ∧
    Verifier.initPepper random2 (Verifier.initPepper (some pepper) st) =
      Verifier.initPepper (some pepper) st := by
  have hnil := (DatabaseHandler.retrieve_eq_nil_iff st.metadata VERIFIER_PEPPER_COLLECTION).mpr
    hfresh
  have hne2 : (pepper == "") = false := by simpa using hne
  have h0 : Verifier.getFromMetaStorage st.metadata VERIFIER_PEPPER_COLLECTION = JSVal.null := by
    simp [Verifier.getFromMetaStorage, hnil]
  have h1 : Verifier.initPepper (some pepper) st =
      { st with
        metadata := st.metadata ++ [⟨VERIFIER_PEPPER_COLLECTION, JSVal.str pepper⟩] } := by
    simp [Verifier.initPepper, h0, JSVal.truthy, coco_verifier_step_0, DatabaseHandler.save]
  have h2 : DatabaseHandler.retrieve
      (st.metadata ++ [(⟨VERIFIER_PEPPER_COLLECTION, JSVal.str pepper⟩ : Item JSVal)])
      (JSVal.str VERIFIER_PEPPER_COLLECTION) =
      [⟨VERIFIER_PEPPER_COLLECTION, JSVal.str pepper⟩] := by
    have := DatabaseHandler.retrieve_save st.metadata VERIFIER_PEPPER_COLLECTION
      (JSVal.str pepper) VERIFIER_PEPPER_COLLECTION
    simpa [DatabaseHandler.save, hnil] using this
  have h3 : Verifier.getFromMetaStorage
      (st.metadata ++ [(⟨VERIFIER_PEPPER_COLLECTION, JSVal.str pepper⟩ : Item JSVal)])
      VERIFIER_PEPPER_COLLECTION = JSVal.str pepper := by
    simp [Verifier.getFromMetaStorage, h2, JSVal.truthy, hne2]
  refine ⟨h1, ?_, ?_, ?_⟩
  · rw [h1]; exact h2
  · rw [h1]; exact h3
  · rw [h1]
    simp [Verifier.initPepper, h3, JSVal.truthy, hne2]

/-- Witness of C19: initialisation of an empty store with the pepper `abcd`. -/
theorem initPepper_idempotent_witness :
    Verifier.initPepper (some "ffff")
      (Verifier.initPepper (some "abcd") ⟨[], [], [], [], [], []⟩) =
      Verifier.initPepper (some "abcd") ⟨[], [], [], [], [], []⟩ :=
  (initPepper_idempotent "abcd" (some "ffff") ⟨[], [], [], [], [], []⟩
    (by unfold hasKey; decide) (by decide)).2.2.2

/-! ## The Global Key Registry -/

theorem Authenticator.authenticatorStep_appendsPublished (E : Engine) (now : Int)
    (call : AuthenticatorCall) (st : AuthState) :
    appendsPublished st.globalDB (Authenticator.step E now call st).globalDB := by
  unfold appendsPublished
  cases call with
  | getOPRFPrivateKey privateKey => exact Or.inl rfl
  | handleBlindSignatureRequest req pk attrs =>
    simp only [Authenticator.step, Authenticator.handleBlindSignatureRequest]
    split
    · exact Or.inl rfl
    · exact Or.inr ⟨_, rfl⟩
  | handleOPRFEvaluation keys proof attrs evalRequest =>
    simp only [Authenticator.step, Authenticator.handleOPRFEvaluation]
    split
    · exact Or.inl rfl
    · split <;> exact Or.inl rfl
  | handleRegisterRequest id vk proof attrs req pk tokenAttrs regProof regAttrs regKey =>
    simp only [Authenticator.step, Authenticator.handleRegisterRequest]
    split
    · exact Or.inl rfl
    · split
      · exact Or.inl rfl
      · split
        · exact Or.inl rfl
        · split
          · exact Or.inl rfl
          · exact Or.inr ⟨_, rfl⟩
  | handleLoginRequest id proof attrs req pk tokenAttrs =>
    simp only [Authenticator.step, Authenticator.handleLoginRequest]
    split
    · exact Or.inl rfl
    · split
      · exact Or.inl rfl
      · exact Or.inr ⟨_, rfl⟩
  | handleChangeAuthenticationDataRequest oldId oldProof oldAttrs newId newVK proof attrs req
      pk tokenAttrs =>
    simp only [Authenticator.step, Authenticator.handleChangeAuthenticationDataRequest]
    split
    · exact Or.inl rfl
    · split
      · exact Or.inl rfl
      · split
        · exact Or.inl rfl
        · exact Or.inr ⟨_, rfl⟩
  | handleNFACredentialCreationRequest id proof attrs recoveryID recoveryVK recoveryProof
      recoveryAttrs req pk tokenAttrs =>
    simp only [Authenticator.step, Authenticator.handleNFACredentialCreationRequest]
    split
    · exact Or.inl rfl
    · split
      · exact Or.inl rfl
      · split
        · exact Or.inl rfl
        · split
          · exact Or.inl rfl
          · exact Or.inr ⟨_, rfl⟩
  | handleDeleteCredentialRequest id proof attrs recoveryID recoveryProof recoveryAttrs req pk
      tokenAttrs =>
    simp only [Authenticator.step, Authenticator.handleDeleteCredentialRequest]
    split
    · exact Or.inl rfl
    · split
      · exact Or.inl rfl
      · split
        · exact Or.inl rfl
        · split
          · exact Or.inl rfl
          · exact Or.inr ⟨_, rfl⟩

theorem Verifier.verifierStep_appendsPublished (E : Engine) (now : Int) (call : VerifierCall)
    (st : VerifierState) :
    appendsPublished st.globalDB (Verifier.step E now call st).globalDB := by
  unfold appendsPublished
  cases call with
  | initPepper random =>
    simp only [Verifier.step, Verifier.initPepper]
    split <;> exact Or.inl rfl
  | handleRegistrationRequest uuid username req pk attrs =>
    simp only [Verifier.step, Verifier.handleRegistrationRequest]
    split
    · exact Or.inl rfl
    · split
      · exact Or.inl rfl
      · exact Or.inr ⟨_, rfl⟩
  | handleLoginRequest username =>
    simp only [Verifier.step, Verifier.handleLoginRequest]
    split <;> exact Or.inl rfl
  | completeRegistration username userId salts keys proof attrs =>
    simp only [Verifier.step, Verifier.completeRegistration]
    split
    · exact Or.inl rfl
    · split
      · exact Or.inl rfl
      · split <;> exact Or.inl rfl
  | completeLogin username keys proof attrs =>
    simp only [Verifier.step, Verifier.completeLogin]
    split
    · exact Or.inl rfl
    · split
      · exact Or.inl rfl
      · split <;> exact Or.inl rfl
  | credentialLogin username keys proof attrs =>
    simp only [Verifier.step, Verifier.credentialLogin]
    split
    · exact Or.inl rfl
    · split
      · exact Or.inl rfl
      · split
        · exact Or.inl rfl
        · split <;> exact Or.inl rfl
  | handleUpdateSaltsRequest username new_salts keys proof attrs =>
    simp only [Verifier.step, Verifier.handleUpdateSaltsRequest]
    split
    · exact Or.inl rfl
    · split
      · exact Or.inl rfl
      · split
        · split <;> exact Or.inl rfl
        · exact Or.inl rfl
  | handleDeleteUserRequest username keys proof attrs =>
    simp only [Verifier.step, Verifier.handleDeleteUserRequest]
    split
    · exact Or.inl rfl
    · split
      · exact Or.inl rfl
      · split <;> exact Or.inl rfl
  | handleUsernameUpdateRequest username new_username keys proof attrs =>
    simp only [Verifier.step, Verifier.handleUsernameUpdateRequest]
    split
    · exact Or.inl rfl
    · split
      · exact Or.inl rfl
      · split
        · exact Or.inl rfl
        · split <;> exact Or.inl rfl

theorem appendsPublished_preserves (before after : List (Item String))
    (h : appendsPublished before after)
    (hinv : ∀ item ∈ before, item.value = item.key) :
    ∀ item ∈ after, item.value = item.key := by
  rcases h with h | ⟨vk, h⟩
  · rw [h]; exact hinv
  · rw [h]
    intro item hmem
    rcases List.mem_append.mp hmem with hm | hm
    · exact hinv item hm
    · rw [List.mem_singleton.mp hm]

/-- C20: every Authenticator operation and every Verifier operation leaves the Global Key
Registry as it was or appends one entry whose value equals its key, so no existing entry
is removed or altered; and in every registry reachable from the empty one each entry has
value equal to key. -/
theorem registry_append_only :
    (∀ (E : Engine) (now : Int) (call : AuthenticatorCall) (st : AuthState),
      appendsPublished st.globalDB (Authenticator.step E now call st).globalDB) ∧
    (∀ (E : Engine) (now : Int) (call : VerifierCall) (st : VerifierState),
      appendsPublished st.globalDB (Verifier.step E now call st).globalDB) ∧
    (∀ registry : List (Item String), RegistryReachable registry →
      ∀ item ∈ registry, item.value = item.key) := by
  refine ⟨Authenticator.authenticatorStep_appendsPublished, Verifier.verifierStep_appendsPublished, ?_⟩
  intro registry hreach
  induction hreach with
  | empty => intro item hmem; exact absurd hmem (List.not_mem_nil item)
  | authenticator E now call st _ ih =>
    exact appendsPublished_preserves _ _ (Authenticator.authenticatorStep_appendsPublished E now call st) ih
  | verifier E now call st _ ih =>
    exact appendsPublished_preserves _ _ (Verifier.verifierStep_appendsPublished E now call st) ih

/-- Witness of C20: the registry after one blind signature request on the empty registry
is reachable, and its entry has value equal to key. -/
theorem registry_append_only_witness :
    ∀ item ∈ (Authenticator.step sampleEngine 1000
        (AuthenticatorCall.handleBlindSignatureRequest "request" "public-key"
          (sampleAttributes "evaluate:OPRF")) ⟨[], [], []⟩).globalDB,
      item.value = item.key :=
  registry_append_only.2.2 _
    (RegistryReachable.authenticator sampleEngine 1000
      (AuthenticatorCall.handleBlindSignatureRequest "request" "public-key"
        (sampleAttributes "evaluate:OPRF")) ⟨[], [], []⟩ RegistryReachable.empty)

/-- C21: the payload that client `register` sends to `handleRegisterRequest` has nine
items for the ten parameters of the operation. Taken by position, `registrationTokenProof`
receives the Verifier's blind signature, `registrationTokenPublicAttribute` receives the
Verifier's verification key, and `registrationTokenVerificationKey` receives nothing: it
is `undefined`. -/
theorem registerPayload_misses_a_position (id verificationKey proof : String)
    (publicAttributes : List RawAttribute) (accessBlindReq accessKey : String)
    (accessAttrs : List RawAttribute) (verifierSignature verifierVK : String) :
    (registerPayload id verificationKey proof publicAttributes accessBlindReq accessKey
      accessAttrs verifierSignature verifierVK).length = 9 ∧
    handleRegisterRequestParameters.length = 10 ∧
    bindArguments handleRegisterRequestParameters
      (registerPayload id verificationKey proof publicAttributes accessBlindReq accessKey
        accessAttrs verifierSignature verifierVK) =
      [("id", Argument.text id), ("currentVerificationKey", Argument.text verificationKey),
        ("proof", Argument.text proof),
        ("publicAttributes", Argument.attributes publicAttributes),
        ("blindSignRequest", Argument.text accessBlindReq),
        ("publicKey", Argument.text accessKey),
        ("publicAttributesToken", Argument.attributes accessAttrs),
        ("registrationTokenProof", Argument.text verifierSignature),
        ("registrationTokenPublicAttribute", Argument.text verifierVK),
        ("registrationTokenVerificationKey", Argument.undefined)] :=
  ⟨rfl, rfl, rfl⟩

/-! ## Client steps -/

/-- The loop of `coco_client_step_4`, entered at index `k` with the credential and key of
the `k`-th element of the chain: when every later element of the chain exists and every
identifier is blinded, the loop returns three arrays as long as the identifiers, and the
proof pushed at index `j` is the one made from the element `k + j` of the chain. -/
theorem blindedInputsLoop_spec (C : ClientEngine) (blindSignatures verificationKeys :
    List String) : ∀ (rids : List String) (k : Nat) (current : CredentialProof),
    proofChain C blindSignatures verificationKeys k = some current →
    (∀ j, j ≤ rids.length →
      (proofChain C blindSignatures verificationKeys (k + j)).isSome = true) →
    (∀ j rid, rids[j]? = some rid → (_blindOPRFInput C (k + j) rid).isSome = true) →
    ∃ result, blindedInputsLoop C k current.randomizedCredential
        current.aggregatedVerificationKey rids = some result ∧
      result.proofArray.length = rids.length ∧
      result.blindDataArray.length = rids.length ∧
      result.evalReqArray.length = rids.length ∧
      ∀ j rid, rids[j]? = some rid → ∃ previous next hexFinalizeData hexEvalRequest,
        proofChain C blindSignatures verificationKeys (k + j) = some previous ∧
        _generateNewProof C (k + j) previous.randomizedCredential
          previous.aggregatedVerificationKey = some next ∧
        result.proofArray[j]? = some next.proof ∧
        _blindOPRFInput C (k + j) rid = some (hexFinalizeData, hexEvalRequest) ∧
        result.blindDataArray[j]? = some hexFinalizeData ∧
        result.evalReqArray[j]? = some hexEvalRequest := by
  intro rids
  induction rids with
  | nil =>
    intro k current _ _ _
    refine ⟨⟨[], [], []⟩, rfl, rfl, rfl, rfl, ?_⟩
    intro j rid h
    simp at h
  | cons rid0 rest ih =>
    intro k current hcur hchain hblind
    have hnext := hchain 1 (by simp)
    have hstep : proofChain C blindSignatures verificationKeys (k + 1) =
        _generateNewProof C k current.randomizedCredential
          current.aggregatedVerificationKey := by
      simp [proofChain, hcur]
    rw [hstep] at hnext
    obtain ⟨next, hnext⟩ := Option.isSome_iff_exists.mp hnext
    have hb := hblind 0 rid0 (by simp)
    obtain ⟨⟨fin0, req0⟩, hb⟩ := Option.isSome_iff_exists.mp hb
    have hcur2 : proofChain C blindSignatures verificationKeys (k + 1) = some next := by
      rw [hstep, hnext]
    obtain ⟨tail, htail, hp, hbd, her, hall⟩ := ih (k + 1) next hcur2
      (fun j hj => by
        have := hchain (j + 1) (by simp; omega)
        rwa [show k + (j + 1) = k + 1 + j by omega] at this)
      (fun j rid hj => by
        have := hblind (j + 1) rid (by simpa using hj)
        rwa [show k + (j + 1) = k + 1 + j by omega] at this)
    refine ⟨⟨fin0 :: tail.blindDataArray, req0 :: tail.evalReqArray,
      next.proof :: tail.proofArray⟩, ?_, by simp [hp], by simp [hbd], by simp [her], ?_⟩
    · simp only [Nat.add_zero] at hb
      simp [blindedInputsLoop, hnext, hb, htail]
    · intro j rid hj
      cases j with
      | zero =>
        simp at hj
        subst hj
        exact ⟨current, next, fin0, req0, by simpa using hcur, by simpa using hnext,
          by simp, hb, by simp, by simp⟩
      | succ j =>
        have hj2 : rest[j]? = some rid := by simpa using hj
        obtain ⟨previous, nxt, f, r, h1, h2, h3, h4, h5, h6⟩ := hall j rid hj2
        refine ⟨previous, nxt, f, r, ?_, ?_, by simpa using h3, ?_, by simpa using h5,
          by simpa using h6⟩
        · rwa [show k + (j + 1) = k + 1 + j by omega]
        · rwa [show k + (j + 1) = k + 1 + j by omega]
        · rwa [show k + (j + 1) = k + 1 + j by omega]

/-- C22 (as the code has it): when every proof generation and every blinding succeeds,
`coco_client_step_4` returns `proofArray`, `blindDataArray` and `evalReqArray`, each as
long as `rids` and in the order of `rids`. The proof at index `i` is the one
`_generateNewProof` returns for the credential and key of element `i` of the chain, where
element `0` is the initial aggregate proof of `_generateProof` and element `i + 1` is what
was emitted together with `proofArray[i]`. The proof of the initial aggregate itself is
not in the array. -/
theorem coco_client_step_4_proof_chain (C : ClientEngine)
    (blindSignatures verificationKeys rids : List String)
    (hchain : ∀ i, i ≤ rids.length →
      (proofChain C blindSignatures verificationKeys i).isSome = true)
    (hblind : ∀ i rid, rids[i]? = some rid → (_blindOPRFInput C i rid).isSome = true) :
    ∃ result, coco_client_step_4 C blindSignatures verificationKeys rids = Except.ok result ∧
      result.proofArray.length = rids.length ∧
      result.blindDataArray.length = rids.length ∧
      result.evalReqArray.length = rids.length ∧
      ∀ i rid, rids[i]? = some rid → ∃ previous next hexFinalizeData hexEvalRequest,
        proofChain C blindSignatures verificationKeys i = some previous ∧
        _generateNewProof C i previous.randomizedCredential
          previous.aggregatedVerificationKey = some next ∧
        result.proofArray[i]? = some next.proof ∧
        _blindOPRFInput C i rid = some (hexFinalizeData, hexEvalRequest) ∧
        result.blindDataArray[i]? = some hexFinalizeData ∧
        result.evalReqArray[i]? = some hexEvalRequest := by
  obtain ⟨first, hfirst⟩ := Option.isSome_iff_exists.mp (hchain 0 (Nat.zero_le _))
  obtain ⟨result, hloop, hp, hb, he, hall⟩ :=
    blindedInputsLoop_spec C blindSignatures verificationKeys rids 0 first hfirst
      (fun j hj => by simpa using hchain j hj)
      (fun j rid hj => by simpa using hblind j rid hj)
  have hgen : _generateProof C blindSignatures verificationKeys = some first := by
    simpa [proofChain] using hfirst
  refine ⟨result, ?_, hp, hb, he, ?_⟩
  · simp [coco_client_step_4, hgen, hloop]
  · intro i rid hi
    simpa using hall i rid hi

/-- Witness for C22: the sample engine on two identifiers. -/
theorem coco_client_step_4_proof_chain_witness :
    ∃ result, coco_client_step_4 sampleClientEngine ["sig-1"] ["key-1"] ["00", "01"] =
        Except.ok result ∧
      result.proofArray.length = ["00", "01"].length ∧
      result.blindDataArray.length = ["00", "01"].length ∧
      result.evalReqArray.length = ["00", "01"].length ∧
      ∀ i rid, ["00", "01"][i]? = some rid → ∃ previous next hexFinalizeData hexEvalRequest,
        proofChain sampleClientEngine ["sig-1"] ["key-1"] i = some previous ∧
        _generateNewProof sampleClientEngine i previous.randomizedCredential
          previous.aggregatedVerificationKey = some next ∧
        result.proofArray[i]? = some next.proof ∧
        _blindOPRFInput sampleClientEngine i rid = some (hexFinalizeData, hexEvalRequest) ∧
        result.blindDataArray[i]? = some hexFinalizeData ∧
        result.evalReqArray[i]? = some hexEvalRequest :=
  coco_client_step_4_proof_chain sampleClientEngine ["sig-1"] ["key-1"] ["00", "01"]
    (by
      intro i hi
      have : i = 0 ∨ i = 1 ∨ i = 2 := by simp at hi; omega
      rcases this with h | h | h <;> subst h <;> rfl)
    (by
      intro i rid h
      match i, h with
      | 0, h => simp at h; subst h; rfl
      | 1, h => simp at h; subst h; rfl
      | i + 2, h => simp at h)

/-- C22, counterexample: on the sample engine the initial aggregate proof is `proof-0`, and
the first proof of the returned array is another one, made by `_generateNewProof` from the
credential of the initial aggregate. -/
theorem coco_client_step_4_first_proof_counterexample :
    _generateProof sampleClientEngine ["sig-1"] ["key-1"] =
      some ⟨"proof-0", "cred-0", "avk"⟩ ∧
    coco_client_step_4 sampleClientEngine ["sig-1"] ["key-1"] ["00", "01"] =
      Except.ok ⟨["0000", "0001"], ["0100", "0101"],
        ["proof-of-cred-0", "proof-of-cred-0-0"]⟩ ∧
    "proof-of-cred-0" ≠ "proof-0" :=
  ⟨rfl, rfl, by decide⟩

/-- The answers of a list of calls that all returned. -/
theorem allOrNone_of_forall {α : Type} : ∀ (calls : List (Option α)),
    (∀ call ∈ calls, call.isSome = true) →
    ∃ answers, allOrNone calls = some answers ∧ calls = answers.map some := by
  intro calls
  induction calls with
  | nil => intro _; exact ⟨[], rfl, rfl⟩
  | cons call rest ih =>
    intro h
    obtain ⟨a, ha⟩ := Option.isSome_iff_exists.mp (h call (by simp))
    obtain ⟨answers, hrest, hmap⟩ := ih (fun c hc => h c (by simp [hc]))
    subst ha
    exact ⟨a :: answers, by simp [allOrNone, hrest], by simp [← hmap]⟩

/-- The answers are all there only when every call returned. -/
theorem allOrNone_eq_some {α : Type} : ∀ (calls : List (Option α)) (answers : List α),
    allOrNone calls = some answers → calls = answers.map some := by
  intro calls
  induction calls with
  | nil =>
    intro answers h
    simp [allOrNone] at h
    subst h
    rfl
  | cons call rest ih =>
    intro answers h
    cases call with
    | none => simp [allOrNone] at h
    | some a =>
      cases hrest : allOrNone rest with
      | none => simp [allOrNone, hrest] at h
      | some as =>
        simp [allOrNone, hrest] at h
        subst h
        simp [ih as hrest]

/-- C23: for non-blank `uid`, `secret` and `pepper` and an array of string salts, when the
hash returns on every input it is given, `coco_client_step_2` returns a list as long as
`salts` whose `i`-th element is `H(uid, H(secret, salts[i]), pepper)`; and the step fails
with `Failed to generate RIDs.` when `uid`, `secret` or `pepper` is blank or `salts` is not
an array. -/
theorem coco_client_step_2_rids (argon2id : List Nat → Option String) (uid secret : String)
    (salts : List String) (pepper : String)
    (hhash : ∀ buffer, (argon2id buffer).isSome = true) :
    (isBlank uid = false → isBlank secret = false → isBlank pepper = false →
      ∃ rids, coco_client_step_2 argon2id uid secret (JSVal.arr salts) pepper =
          Except.ok rids ∧
        rids.length = salts.length ∧
        ∀ (i : Nat) (salt : String), salts[i]? = some salt → ∃ hashedSecret rid,
          H argon2id [secret, salt] = some hashedSecret ∧
          H argon2id [uid, hashedSecret, pepper] = some rid ∧ rids[i]? = some rid) ∧
    (isBlank uid = true ∨ isBlank secret = true ∨ isBlank pepper = true →
      coco_client_step_2 argon2id uid secret (JSVal.arr salts) pepper =
        Except.error "Failed to generate RIDs.") ∧
    (∀ other : JSVal, (∀ items, other ≠ JSVal.arr items) →
      coco_client_step_2 argon2id uid secret other pepper =
        Except.error "Failed to generate RIDs.") := by
  refine ⟨?_, ?_, ?_⟩
  · intro hu hs hp
    obtain ⟨rids, hall, hmap⟩ := allOrNone_of_forall (salts.map (fun salt =>
      match _hash argon2id [secret, salt] with
      | none => none
      | some hashedSecret => _hash argon2id [uid, hashedSecret, pepper])) (by
        intro call hcall
        obtain ⟨salt, _, rfl⟩ := List.mem_map.mp hcall
        obtain ⟨hashed, hh⟩ := Option.isSome_iff_exists.mp
          (hhash (H.combinedInput [secret, salt]))
        have hh2 : _hash argon2id [secret, salt] = some hashed := hh
        simp only [hh2]
        exact hhash _)
    refine ⟨rids, ?_, ?_, ?_⟩
    · simp only [coco_client_step_2, hu, hs, hp, hall]
      simp
    · have := congrArg List.length hmap
      simpa using this.symm
    · intro i salt hi
      have hget := congrArg (fun l => l[i]?) hmap
      simp only [List.getElem?_map, hi, Option.map_some'] at hget
      obtain ⟨hashed, hh⟩ := Option.isSome_iff_exists.mp
        (hhash (H.combinedInput [secret, salt]))
      have hh2 : _hash argon2id [secret, salt] = some hashed := hh
      simp only [hh2] at hget
      cases hr : rids[i]? with
      | none => simp [hr] at hget
      | some rid =>
        simp only [hr, Option.map_some'] at hget
        exact ⟨hashed, rid, hh, Option.some.inj hget, rfl⟩
  · intro h
    simp only [coco_client_step_2]
    rcases h with h | h | h
    · simp [h]
    · simp [h]
    · by_cases hu : isBlank uid = true
      · simp [hu]
      · by_cases hs : isBlank secret = true
        · simp [hs]
        · simp [hu, hs, h]
  · intro other hother
    simp only [coco_client_step_2]
    by_cases hu : isBlank uid = true
    · simp [hu]
    · by_cases hs : isBlank secret = true
      · simp [hs]
      · cases other with
        | arr items => exact absurd rfl (hother items)
        | undefined => simp [hu, hs]
        | null => simp [hu, hs]
        | str s => simp [hu, hs]

/-- Witness for C23: the sample hash on two salts. -/
theorem coco_client_step_2_rids_witness :
    (isBlank "alice" = false → isBlank "secret" = false → isBlank "pepper" = false →
      ∃ rids, coco_client_step_2 sampleArgon2id "alice" "secret"
          (JSVal.arr ["00", "01"]) "pepper" = Except.ok rids ∧
        rids.length = ["00", "01"].length ∧
        ∀ (i : Nat) (salt : String), ["00", "01"][i]? = some salt → ∃ hashedSecret rid,
          H sampleArgon2id ["secret", salt] = some hashedSecret ∧
          H sampleArgon2id ["alice", hashedSecret, "pepper"] = some rid ∧
          rids[i]? = some rid) ∧
    (isBlank "alice" = true ∨ isBlank "secret" = true ∨ isBlank "pepper" = true →
      coco_client_step_2 sampleArgon2id "alice" "secret" (JSVal.arr ["00", "01"]) "pepper" =
        Except.error "Failed to generate RIDs.") ∧
    (∀ other : JSVal, (∀ items, other ≠ JSVal.arr items) →
      coco_client_step_2 sampleArgon2id "alice" "secret" other "pepper" =
        Except.error "Failed to generate RIDs.") :=
  coco_client_step_2_rids sampleArgon2id "alice" "secret" ["00", "01"] "pepper"
    (fun _ => rfl)

theorem numberOfInt_of_safe (n : Int) (h : n.natAbs ≤ 9007199254740992) :
    numberOfInt n = JSNum.fin n 1 :=
  JSNum.toBinary64_of_safe n h

/-- An integer of magnitude up to `2 ^ 53` is written in full. -/
theorem numberToString_of_safe (n : Int) (h : n.natAbs ≤ 9007199254740992) :
    (JSNum.fin n 1).toString = toString n := by
  by_cases h0 : n = 0
  · subst h0; rfl
  · simp [JSNum.toString, h0, h]

/-- Comparing an integer below `2 ^ 53` in magnitude with the Number value of an integer
is comparing the integers. -/
theorem JSNum.ge_numberOfInt (w x : Int) (hw : w.natAbs < 9007199254740992) :
    (JSNum.fin w 1).ge (numberOfInt x) = decide (x ≤ w) := by
  unfold numberOfInt
  by_cases hx : x.natAbs ≤ 9007199254740992
  · rw [JSNum.toBinary64_of_safe x hx]
    simp [JSNum.ge]
  · have hx0 : x ≠ 0 := by
      intro h; subst h; simp at hx
    have hbig : 9007199254740992 < x.natAbs := by omega
    simp only [JSNum.toBinary64, hx, and_false, if_false, hx0]
    rcases JSNum.roundPositive_large x.natAbs hbig with h | ⟨v, hv, h⟩
    · rw [h]
      by_cases hneg : x < 0
      · simp only [hneg, decide_True, JSNum.ge]
        have : x ≤ w := by omega
        simp [this]
      · simp only [hneg, decide_False, JSNum.ge]
        have : ¬ x ≤ w := by omega
        simp [this]
    · rw [h]
      simp only [JSNum.ge]
      by_cases hneg : x < 0
      · have hs : x.sign = -1 := Int.sign_eq_neg_one_of_neg hneg
        have h1 : x ≤ w := by omega
        have h2 : x.sign * (v : Int) ≤ w := by
          rw [hs]; omega
        simp [h1, h2]
      · have hpos : 0 < x := by omega
        have hs : x.sign = 1 := Int.sign_eq_one_of_pos hpos
        have h1 : ¬ x ≤ w := by omega
        have h2 : w < x.sign * (v : Int) := by
          rw [hs]; omega
        simp [h1, h2]

/-- The shared body of the token request steps returns the engine's request together with
the three public attributes when the checks pass and the engine answers. -/
theorem tokenRequest_ok (C : ClientEngine) (sub : String) (iat exp : Int)
    (scope request : String)
    (hsub : isBlank sub = false) (hexp : iat < exp) (hscope : isBlank scope = false)
    (hiat : iat.natAbs ≤ 9007199254740992) (hexp2 : exp.natAbs ≤ 9007199254740992)
    (hkey : C.get_client_public_key ≠ "")
    (hrequest : C.prepare_blind_sign
      [⟨sub, true⟩, ⟨toString iat, false⟩, ⟨toString exp, false⟩, ⟨scope, false⟩] =
        some request)
    (hne : request ≠ "") :
    tokenRequest C sub (JSNum.fin iat 1) (JSNum.fin exp 1) scope =
      some ⟨C.get_client_public_key,
        [⟨toString iat, false⟩, ⟨toString exp, false⟩, ⟨scope, false⟩], request⟩ := by
  have h1 : ¬ exp ≤ iat := by omega
  simp [tokenRequest, hsub, h1, hscope, _generateBlindSignRequest, configureAndPrepareSign,
    numberToString_of_safe iat hiat, numberToString_of_safe exp hexp2, JSNum.ge_fin_one,
    hrequest, hkey, hne]

/-- The shared body of the token request steps throws when `sub` is blank, `exp <= iat`
or `scope` is blank. -/
theorem tokenRequest_fails (C : ClientEngine) (sub : String) (iat exp : JSNum)
    (scope : String)
    (h : isBlank sub = true ∨ iat.ge exp = true ∨ isBlank scope = true) :
    tokenRequest C sub iat exp scope = none := by
  unfold tokenRequest
  rcases h with h | h | h
  · simp [h]
  · simp [h]
  · by_cases h1 : isBlank sub = true
    · simp [h1]
    · by_cases h2 : iat.ge exp = true
      · simp [h2]
      · simp [h1, h2, h]

/-- C24 (as the code has it): for a non-blank `sub` and an integer `iat` below `2 ^ 53` in
magnitude, with `exp` and `scope` left to their defaults and an engine that answers with a
non-empty key and request, each of `coco_client_step_0`, `coco_client_step_3` and
`coco_client_step_6` hands the engine the four raw attributes
`[sub (private), iat, exp, scope]` and returns the three public ones in that order, where
`exp - iat` is 60 and the scope `register:uid` (step 0) or `evaluate:OPRF` (step 3) as long
as `iat + 60` does not exceed `2 ^ 53`, and `exp - iat` is 2592000 and the scope
`access:uid` (step 6) as long as `iat + 2592000` does not exceed `2 ^ 53`. Each step fails
when `sub` is blank, when a given integer `exp` is at most `iat`, or when a given `scope`
is blank. -/
theorem token_request_steps (C : ClientEngine) (now : Int) (sub : String) (iat : Int)
    (hkey : C.get_client_public_key ≠ "")
    (hengine : ∀ rawAttributes, ∃ request,
      C.prepare_blind_sign rawAttributes = some request ∧ request ≠ "")
    (hiat : iat.natAbs < 9007199254740992) :
    (isBlank sub = false → iat + 60 ≤ 9007199254740992 →
      (∃ (exp : Int) (request : String), exp - iat = 60 ∧
        C.prepare_blind_sign [⟨sub, true⟩, ⟨toString iat, false⟩, ⟨toString exp, false⟩,
          ⟨"register:uid", false⟩] = some request ∧
        coco_client_step_0 C now sub (some iat) none none =
          Except.ok ⟨C.get_client_public_key, [⟨toString iat, false⟩,
            ⟨toString exp, false⟩, ⟨"register:uid", false⟩], request⟩) ∧
      (∃ (exp : Int) (request : String), exp - iat = 60 ∧
        C.prepare_blind_sign [⟨sub, true⟩, ⟨toString iat, false⟩, ⟨toString exp, false⟩,
          ⟨"evaluate:OPRF", false⟩] = some request ∧
        coco_client_step_3 C now sub (some iat) none none =
          Except.ok ⟨C.get_client_public_key, [⟨toString iat, false⟩,
            ⟨toString exp, false⟩, ⟨"evaluate:OPRF", false⟩], request⟩)) ∧
    (isBlank sub = false → iat + 2592000 ≤ 9007199254740992 →
      (∃ (exp : Int) (request : String), exp - iat = 2592000 ∧
        C.prepare_blind_sign [⟨sub, true⟩, ⟨toString iat, false⟩, ⟨toString exp, false⟩,
          ⟨"access:uid", false⟩] = some request ∧
        coco_client_step_6 C now sub (some iat) none none =
          Except.ok ⟨C.get_client_public_key, [⟨toString iat, false⟩,
            ⟨toString exp, false⟩, ⟨"access:uid", false⟩], request⟩)) ∧
    (∀ (exp : Option Int) (scope : Option String),
      (isBlank sub = true ∨ (∃ e, exp = some e ∧ e ≤ iat) ∨
        (∃ s, scope = some s ∧ isBlank s = true)) →
      coco_client_step_0 C now sub (some iat) exp scope =
        Except.error "Failed to generate blind sign request." ∧
      coco_client_step_3 C now sub (some iat) exp scope =
        Except.error "Failed to generate blind sign request." ∧
      coco_client_step_6 C now sub (some iat) exp scope =
        Except.error "Failed to generate blind signing request.") := by
  have hiat2 : iat.natAbs ≤ 9007199254740992 := by omega
  have hI : numberOfInt iat = JSNum.fin iat 1 := numberOfInt_of_safe iat hiat2
  have hsum : ∀ window : Int, 0 < window → window ≤ 2592000 →
      iat + window ≤ 9007199254740992 →
      (iat + window).natAbs ≤ 9007199254740992 ∧
      (JSNum.fin iat 1).add (numberOfInt window) = JSNum.fin (iat + window) 1 := by
    intro window h0 h1 h2
    have hb : (iat + window).natAbs ≤ 9007199254740992 := by omega
    refine ⟨hb, ?_⟩
    rw [numberOfInt_of_safe window (by omega), JSNum.add_fin_one,
      JSNum.toBinary64_of_safe _ hb]
  refine ⟨?_, ?_, ?_⟩
  · intro hsub hle
    obtain ⟨hb, hadd⟩ := hsum 60 (by decide) (by decide) hle
    refine ⟨?_, ?_⟩
    · obtain ⟨request, hr, hne⟩ := hengine [⟨sub, true⟩, ⟨toString iat, false⟩,
        ⟨toString (iat + 60), false⟩, ⟨"register:uid", false⟩]
      refine ⟨iat + 60, request, by omega, hr, ?_⟩
      have := tokenRequest_ok C sub iat (iat + 60) "register:uid" request hsub (by omega)
        (by decide) hiat2 hb hkey hr hne
      simp [coco_client_step_0, AUTHENTICATOR_TOKEN_VALIDITY, hI, hadd, this]
    · obtain ⟨request, hr, hne⟩ := hengine [⟨sub, true⟩, ⟨toString iat, false⟩,
        ⟨toString (iat + 60), false⟩, ⟨"evaluate:OPRF", false⟩]
      refine ⟨iat + 60, request, by omega, hr, ?_⟩
      have := tokenRequest_ok C sub iat (iat + 60) "evaluate:OPRF" request hsub (by omega)
        (by decide) hiat2 hb hkey hr hne
      simp [coco_client_step_3, AUTHENTICATOR_TOKEN_VALIDITY, hI, hadd, this]
  · intro hsub hle
    obtain ⟨hb, hadd⟩ := hsum 2592000 (by decide) (by decide) hle
    obtain ⟨request, hr, hne⟩ := hengine [⟨sub, true⟩, ⟨toString iat, false⟩,
      ⟨toString (iat + 2592000), false⟩, ⟨"access:uid", false⟩]
    refine ⟨iat + 2592000, request, by omega, hr, ?_⟩
    have := tokenRequest_ok C sub iat (iat + 2592000) "access:uid" request hsub (by omega)
      (by decide) hiat2 hb hkey hr hne
    simp [coco_client_step_6, VERIFIER_TOKEN_VALIDITY, hI, hadd, this]
  · intro exp scope h
    cases exp with
    | none =>
      have hc : isBlank sub = true ∨ isBlank (scope.getD "register:uid") = true ∧
          isBlank (scope.getD "evaluate:OPRF") = true ∧
          isBlank (scope.getD "access:uid") = true := by
        rcases h with h | ⟨e, he, _⟩ | ⟨s, hs, hb⟩
        · exact Or.inl h
        · exact absurd he (by simp)
        · subst hs
          exact Or.inr ⟨hb, hb, hb⟩
      rcases hc with hc | ⟨h0, h3, h6⟩
      · refine ⟨?_, ?_, ?_⟩
        · simp [coco_client_step_0, tokenRequest_fails _ _ _ _ _ (Or.inl hc)]
        · simp [coco_client_step_3, tokenRequest_fails _ _ _ _ _ (Or.inl hc)]
        · simp [coco_client_step_6, tokenRequest_fails _ _ _ _ _ (Or.inl hc)]
      · refine ⟨?_, ?_, ?_⟩
        · simp [coco_client_step_0, tokenRequest_fails _ _ _ _ _ (Or.inr (Or.inr h0))]
        · simp [coco_client_step_3, tokenRequest_fails _ _ _ _ _ (Or.inr (Or.inr h3))]
        · simp [coco_client_step_6, tokenRequest_fails _ _ _ _ _ (Or.inr (Or.inr h6))]
    | some e =>
      have hc : ∀ default : String, isBlank sub = true ∨
          (JSNum.fin iat 1).ge (numberOfInt e) = true ∨
          isBlank (scope.getD default) = true := by
        intro default
        rcases h with h | ⟨e2, he, hle⟩ | ⟨s, hs, hb⟩
        · exact Or.inl h
        · cases he
          refine Or.inr (Or.inl ?_)
          rw [JSNum.ge_numberOfInt iat e hiat]
          simpa using hle
        · subst hs
          exact Or.inr (Or.inr hb)
      refine ⟨?_, ?_, ?_⟩
      · simp [coco_client_step_0, hI, tokenRequest_fails _ _ _ _ _ (hc "register:uid")]
      · simp [coco_client_step_3, hI, tokenRequest_fails _ _ _ _ _ (hc "evaluate:OPRF")]
      · simp [coco_client_step_6, hI, tokenRequest_fails _ _ _ _ _ (hc "access:uid")]

/-- Witness for C24: the sample engine, `sub = alice`, `iat = 1000`. -/
theorem token_request_steps_witness :
    (isBlank "alice" = false → (1000 : Int) + 60 ≤ 9007199254740992 →
      (∃ (exp : Int) (request : String), exp - 1000 = 60 ∧
        sampleClientEngine.prepare_blind_sign [⟨"alice", true⟩, ⟨toString (1000 : Int), false⟩,
        ⟨toString exp, false⟩,
          ⟨"register:uid", false⟩] = some request ∧
        coco_client_step_0 sampleClientEngine 1000 "alice" (some 1000) none none =
          Except.ok ⟨sampleClientEngine.get_client_public_key, [⟨toString (1000 : Int), false⟩,
            ⟨toString exp, false⟩, ⟨"register:uid", false⟩], request⟩) ∧
      (∃ (exp : Int) (request : String), exp - 1000 = 60 ∧
        sampleClientEngine.prepare_blind_sign [⟨"alice", true⟩, ⟨toString (1000 : Int), false⟩,
        ⟨toString exp, false⟩,
          ⟨"evaluate:OPRF", false⟩] = some request ∧
        coco_client_step_3 sampleClientEngine 1000 "alice" (some 1000) none none =
          Except.ok ⟨sampleClientEngine.get_client_public_key, [⟨toString (1000 : Int), false⟩,
            ⟨toString exp, false⟩, ⟨"evaluate:OPRF", false⟩], request⟩)) ∧
    (isBlank "alice" = false → (1000 : Int) + 2592000 ≤ 9007199254740992 →
      (∃ (exp : Int) (request : String), exp - 1000 = 2592000 ∧
        sampleClientEngine.prepare_blind_sign [⟨"alice", true⟩, ⟨toString (1000 : Int), false⟩,
        ⟨toString exp, false⟩,
          ⟨"access:uid", false⟩] = some request ∧
        coco_client_step_6 sampleClientEngine 1000 "alice" (some 1000) none none =
          Except.ok ⟨sampleClientEngine.get_client_public_key, [⟨toString (1000 : Int), false⟩,
            ⟨toString exp, false⟩, ⟨"access:uid", false⟩], request⟩)) ∧
    (∀ (exp : Option Int) (scope : Option String),
      (isBlank "alice" = true ∨ (∃ e, exp = some e ∧ e ≤ 1000) ∨
        (∃ s, scope = some s ∧ isBlank s = true)) →
      coco_client_step_0 sampleClientEngine 1000 "alice" (some 1000) exp scope =
        Except.error "Failed to generate blind sign request." ∧
      coco_client_step_3 sampleClientEngine 1000 "alice" (some 1000) exp scope =
        Except.error "Failed to generate blind sign request." ∧
      coco_client_step_6 sampleClientEngine 1000 "alice" (some 1000) exp scope =
        Except.error "Failed to generate blind signing request.") :=
  token_request_steps sampleClientEngine 1000 "alice" 1000 (by decide)
    (fun _ => ⟨"blind-sign-request", rfl, by decide⟩) (by decide)

/-- C24, counterexample: at `iat = 2 ^ 60` the sum `iat + 60` has the Number value `iat`,
so the test `exp <= iat` fails the step; at `iat = 2 ^ 55` the step returns, and the `exp`
attribute it writes reads 64 seconds after its `iat` attribute, not 60. -/
theorem token_request_large_iat_counterexample :
    coco_client_step_0 sampleClientEngine 1000 "alice" (some 1152921504606846976) none none =
      Except.error "Failed to generate blind sign request." ∧
    coco_client_step_0 sampleClientEngine 1000 "alice" (some 36028797018963968) none none =
      Except.ok ⟨"client-key", [⟨"36028797018963970", false⟩, ⟨"36028797018964030", false⟩,
        ⟨"register:uid", false⟩], "blind-sign-request"⟩ ∧
    Number "36028797018963970" = JSNum.fin 36028797018963968 1 ∧
    Number "36028797018964030" = JSNum.fin 36028797018964032 1 ∧
    (36028797018964032 : Int) - 36028797018963968 = 64 :=
  ⟨rfl, rfl, by decide, by decide, by decide⟩

/-! ## Hexadecimal round trip and the OPRF key -/

/-- A hexadecimal digit reads back as its value. -/
theorem digitValue_hexDigit (d : Nat) (h : d < 16) : digitValue (hexDigit d) = d := by
  interval_cases d <;> rfl

/-- A hexadecimal digit passes the test for base 16. -/
theorem isDigitOf_hexDigit (d : Nat) (h : d < 16) : isDigitOf 16 (hexDigit d) = true := by
  interval_cases d <;> rfl

/-- The hexadecimal form of a byte array is a string of hexadecimal digits. -/
theorem allHex_flatMap_byteToHex (bytes : List Nat) (h : ∀ b ∈ bytes, b < 256) :
    allHex (bytes.flatMap byteToHex) = true := by
  induction bytes with
  | nil => rfl
  | cons b rest ih =>
    have hb : b < 256 := h b (by simp)
    have ih2 := ih (fun c hc => h c (by simp [hc]))
    simp only [allHex] at ih2 ⊢
    simp [List.flatMap_cons, byteToHex, ih2, isDigitOf_hexDigit (b / 16) (by omega),
      isDigitOf_hexDigit (b % 16) (by omega)]

/-- Reading the pairs of digits of the hexadecimal form of a byte array gives the array. -/
theorem hexPairs_flatMap_byteToHex (bytes : List Nat) (h : ∀ b ∈ bytes, b < 256) :
    hexPairs (bytes.flatMap byteToHex) = bytes := by
  induction bytes with
  | nil => rfl
  | cons b rest ih =>
    have hb : b < 256 := h b (by simp)
    have ih2 := ih (fun c hc => h c (by simp [hc]))
    simp only [List.flatMap_cons, byteToHex, List.cons_append, List.nil_append, hexPairs, ih2,
      digitValue_hexDigit (b / 16) (by omega), digitValue_hexDigit (b % 16) (by omega)]
    congr 1
    omega

/-- Hexadecimal encoding followed by decoding is the identity on byte arrays. -/
theorem hexToUint8Array_uint8ArrayToHex (bytes : List Nat) (h : ∀ b ∈ bytes, b < 256) :
    hexToUint8Array (uint8ArrayToHex bytes) = some bytes := by
  simp [hexToUint8Array, uint8ArrayToHex, allHex_flatMap_byteToHex bytes h,
    hexPairs_flatMap_byteToHex bytes h]

/-- The hexadecimal form of a non-empty byte array is not the empty string. -/
theorem uint8ArrayToHex_ne_empty (bytes : List Nat) (h : bytes ≠ []) :
    uint8ArrayToHex bytes ≠ "" := by
  cases bytes with
  | nil => exact absurd rfl h
  | cons b rest =>
    intro hEq
    have := congrArg String.data hEq
    simp [uint8ArrayToHex, List.flatMap_cons, byteToHex] at this

/-- C25: let `k` be the hexadecimal string that `getOPRFPrivateKey()` returns on an
Authenticator whose blinding engine holds the key bytes `handler.privateKey` (a non-empty
byte array). A blinding engine initialised with `k` holds the same bytes, and the
operation returns exactly `k` on it; decoding `k` and encoding the result gives `k`, and
encoding the key bytes and decoding the result gives the key bytes. -/
theorem oprf_key_restart (handler : OPRFServerHandler) (randomPrivateKey : List Nat)
    (st st2 : AuthState) (hbytes : ∀ b ∈ handler.privateKey, b < 256)
    (hne : handler.privateKey ≠ []) :
    ∃ k restarted,
      (Authenticator.getOPRFPrivateKey (some handler.getPrivateKey) st).1 = Except.ok k ∧
      OPRFServerHandler.init randomPrivateKey (some k) = some restarted ∧
      restarted.privateKey = handler.privateKey ∧
      (Authenticator.getOPRFPrivateKey (some restarted.getPrivateKey) st2).1 = Except.ok k ∧
      (hexToUint8Array k).map uint8ArrayToHex = some k ∧
      hexToUint8Array (uint8ArrayToHex handler.privateKey) = some handler.privateKey := by
  have hround := hexToUint8Array_uint8ArrayToHex handler.privateKey hbytes
  have hk := uint8ArrayToHex_ne_empty handler.privateKey hne
  refine ⟨uint8ArrayToHex handler.privateKey, ⟨handler.privateKey⟩, rfl, ?_, rfl, rfl, ?_,
    hround⟩
  · simp [OPRFServerHandler.init, hk, hround]
  · simp [hround]

/-- Witness for C25: a key of two bytes. -/
theorem oprf_key_restart_witness :
    ∃ k restarted,
      (Authenticator.getOPRFPrivateKey
        (some (OPRFServerHandler.getPrivateKey ⟨[0x0A, 0xFF]⟩)) ⟨[], [], []⟩).1 =
          Except.ok k ∧
      OPRFServerHandler.init [1, 2] (some k) = some restarted ∧
      restarted.privateKey = [0x0A, 0xFF] ∧
      (Authenticator.getOPRFPrivateKey (some restarted.getPrivateKey) ⟨[], [], []⟩).1 =
        Except.ok k ∧
      (hexToUint8Array k).map uint8ArrayToHex = some k ∧
      hexToUint8Array (uint8ArrayToHex [0x0A, 0xFF]) = some [0x0A, 0xFF] :=
  oprf_key_restart ⟨[0x0A, 0xFF]⟩ [1, 2] ⟨[], [], []⟩ ⟨[], [], []⟩ (by decide) (by decide)

/-! ## Random strings -/

/-- The hexadecimal form of a byte array has two characters per byte. -/
theorem length_flatMap_byteToHex (bytes : List Nat) :
    (bytes.flatMap byteToHex).length = 2 * bytes.length := by
  induction bytes with
  | nil => rfl
  | cons b rest ih =>
    simp only [List.flatMap_cons, List.length_append, ih, byteToHex, List.length_cons,
      List.length_nil]
    omega

/-- A string cut out of a string of hexadecimal digits is one. -/
theorem allHex_take (cs : List Char) (n : Nat) (h : allHex cs = true) :
    allHex (cs.take n) = true := by
  simp only [allHex, List.all_eq_true] at h ⊢
  intro c hc
  exact h c (List.mem_of_mem_take hc)

/-- With a hash of 64 bytes, `generateSecureRandom(length)` returns, for every positive
integer `length`, the first `2 * length` hexadecimal characters of a digest that has 128 of
them: exactly `2 * length` characters as long as `length` is at most 64, and 128 characters
beyond. -/
theorem generateSecureRandom_length (sha512 : List Nat → List Nat)
    (randomBytes timestampEntropy : List Nat) (length : Int)
    (hsha : ∀ input, (sha512 input).length = 64 ∧ ∀ b ∈ sha512 input, b < 256)
    (hpos : 0 < length) :
    ∃ random, generateSecureRandom sha512 randomBytes timestampEntropy length = some random ∧
      allHex random.toList = true ∧
      (random.length : Int) = min (2 * length) 128 := by
  obtain ⟨hlen, hbytes⟩ := hsha (randomBytes ++ timestampEntropy)
  have h1 : ¬ length ≤ 0 := by omega
  refine ⟨String.mk (((sha512 (randomBytes ++ timestampEntropy)).flatMap byteToHex).take
    (length * 2).toNat), by simp only [generateSecureRandom, h1, if_false], ?_, ?_⟩
  · exact allHex_take _ _ (allHex_flatMap_byteToHex _ hbytes)
  · simp only [String.length, List.length_take, length_flatMap_byteToHex, hlen]
    omega

/-- With a hash of 64 bytes, the salt or pepper that `_generateRandom(SALT_N_PEPPER_LENGTH)`
returns is a string of 64 hexadecimal characters. -/
theorem generateRandom_salt (sha512 : List Nat → List Nat)
    (randomBytes timestampEntropy : List Nat)
    (hsha : ∀ input, (sha512 input).length = 64 ∧ ∀ b ∈ sha512 input, b < 256) :
    ∃ random, _generateRandom sha512 randomBytes timestampEntropy SALT_N_PEPPER_LENGTH =
        some random ∧
      generateSecureRandom sha512 randomBytes timestampEntropy SALT_N_PEPPER_LENGTH =
        some random ∧
      allHex random.toList = true ∧ random.length = 64 := by
  obtain ⟨random, h, hhex, hlen⟩ := generateSecureRandom_length sha512 randomBytes
    timestampEntropy SALT_N_PEPPER_LENGTH hsha (by decide)
  refine ⟨random, ?_, h, hhex, ?_⟩
  · have h2 : ¬ SALT_N_PEPPER_LENGTH ≤ 0 := by decide
    simp only [_generateRandom, h2, if_false, h]
  · simp only [SALT_N_PEPPER_LENGTH] at hlen
    omega

/-- With a hash of 64 bytes, `coco_client_step_1` returns exactly
`number_of_authenticators` salts, each a string of 64 hexadecimal characters, and the
pepper of `coco_verifier_step_0` is such a string too. -/
theorem salts_and_pepper (sha512 : List Nat → List Nat) (entropy : Nat → List Nat × List Nat)
    (number_of_authenticators : Int) (randomBytes timestampEntropy : List Nat)
    (hsha : ∀ input, (sha512 input).length = 64 ∧ ∀ b ∈ sha512 input, b < 256)
    (hpos : 0 < number_of_authenticators) :
    (∃ salts, coco_client_step_1 sha512 entropy number_of_authenticators = Except.ok salts ∧
      (salts.length : Int) = number_of_authenticators ∧
      ∀ salt ∈ salts, allHex salt.toList = true ∧ salt.length = 64) ∧
    (∃ pepper, coco_verifier_step_0 (generateSecureRandom sha512 randomBytes timestampEntropy
        SALT_N_PEPPER_LENGTH) = JSVal.str pepper ∧
      allHex pepper.toList = true ∧ pepper.length = 64) := by
  refine ⟨?_, ?_⟩
  · obtain ⟨salts, hall, hmap⟩ := allOrNone_of_forall
      ((List.range number_of_authenticators.toNat).map (fun i =>
        _generateRandom sha512 (entropy i).1 (entropy i).2 SALT_N_PEPPER_LENGTH)) (by
        intro call hcall
        obtain ⟨i, _, rfl⟩ := List.mem_map.mp hcall
        obtain ⟨random, h, _⟩ := generateRandom_salt sha512 (entropy i).1 (entropy i).2 hsha
        simp [h])
    have h1 : ¬ number_of_authenticators ≤ 0 := by omega
    refine ⟨salts, ?_, ?_, ?_⟩
    · simp only [coco_client_step_1, h1, if_false, hall]
    · have := congrArg List.length hmap
      simp only [List.length_map, List.length_range] at this
      omega
    · intro salt hsalt
      have hmem : some salt ∈ salts.map some := List.mem_map.mpr ⟨salt, hsalt, rfl⟩
      rw [← hmap] at hmem
      obtain ⟨i, _, hi⟩ := List.mem_map.mp hmem
      obtain ⟨random, h, _, hhex, hlen⟩ :=
        generateRandom_salt sha512 (entropy i).1 (entropy i).2 hsha
      rw [h] at hi
      cases hi
      exact ⟨hhex, hlen⟩
  · obtain ⟨random, _, h, hhex, hlen⟩ :=
      generateRandom_salt sha512 randomBytes timestampEntropy hsha
    exact ⟨random, by simp [coco_verifier_step_0, h], hhex, hlen⟩

/-- C26: with the sample hash of 64 bytes, `generateSecureRandom(65)` returns a string of
128 hexadecimal characters, the whole digest, and not the 130 characters of 65 bytes;
`generateSecureRandom(32)` returns 64 characters. -/
theorem generateSecureRandom_truncates_at_digest :
    (generateSecureRandom sampleSha512 [1, 2, 3] [49, 55] 65).map String.length = some 128 ∧
    (128 : Nat) ≠ 2 * 65 ∧
    (generateSecureRandom sampleSha512 [1, 2, 3] [49, 55] 32).map String.length = some 64 :=
  ⟨rfl, by decide, rfl⟩

/-! ## The Verifier's attribute checks on a canonical list -/

/-- Normal form of the Verifier's attribute block on a public list `[iat, exp, scope]`
whose first two values read as the integers `i` and `e`. -/
theorem verifierAttributeCheck_eq (expected : String) (window now i e : Int)
    (iat exp scope : String)
    (hi : Number iat = JSNum.fin i 1) (he : Number exp = JSNum.fin e 1)
    (hx : Number expected = JSNum.nan) (hw : window.natAbs < 9007199254740992) :
    verifierAttributeCheck expected window now [⟨iat, false⟩, ⟨exp, false⟩, ⟨scope, false⟩] =
      if now < i then some "Invalid `iat` attribute."
      else if i < e then
        (if e ≤ now then some "Invalid `exp` attribute."
         else if window < e - i then some "Invalid `exp` attribute."
         else if scope = expected then none else some "Invalid `scope` attribute.")
      else if (Number scope).gt (JSNum.fin i 1) = true then
        (if (JSNum.fin now 1).ge (Number scope) = true then some "Invalid `exp` attribute."
         else if ((Number scope).sub (JSNum.fin i 1)).gt (JSNum.fin window 1) = true then
          some "Invalid `exp` attribute."
         else some "Invalid `scope` attribute.")
      else some "Invalid `exp` attribute." := by
  have hne1 : (iat == expected) = false := by
    rw [beq_eq_false_iff_ne]
    intro h; rw [h, hx] at hi; exact JSNum.noConfusion hi
  have hne2 : (exp == expected) = false := by
    rw [beq_eq_false_iff_ne]
    intro h; rw [h, hx] at he; exact JSNum.noConfusion he
  have hI : List.find? (fun attr : RawAttribute =>
      !attr.is_private && !(Number attr.value).isNaN)
      [⟨iat, false⟩, ⟨exp, false⟩, ⟨scope, false⟩] = some ⟨iat, false⟩ := by
    simp [List.find?, hi, JSNum.isNaN]
  have hS : List.find? (fun attr : RawAttribute => !attr.is_private && attr.value == expected)
      [⟨iat, false⟩, ⟨exp, false⟩, ⟨scope, false⟩] =
      if scope = expected then some ⟨scope, false⟩ else none := by
    by_cases h : scope = expected
    · simp [List.find?, hne1, hne2, h]
    · have h' : (scope == expected) = false := by simpa using h
      simp [List.find?, hne1, hne2, h, h']
  have hE : List.find? (fun attr : RawAttribute =>
      !attr.is_private && !(Number attr.value).isNaN &&
        (Number attr.value).gt (JSNum.fin i 1))
      [⟨iat, false⟩, ⟨exp, false⟩, ⟨scope, false⟩] =
      if i < e then some ⟨exp, false⟩
      else if (Number scope).gt (JSNum.fin i 1) = true then some ⟨scope, false⟩
      else none := by
    by_cases h : i < e
    · simp [List.find?, hi, he, JSNum.gt_fin_one, JSNum.isNaN, h]
    · cases hb : (Number scope).gt (JSNum.fin i 1)
      · simp [List.find?, hi, he, JSNum.gt_fin_one, JSNum.isNaN, h, hb]
      · have hn := JSNum.isNaN_of_gt _ _ hb
        have hin : (JSNum.fin i 1).isNaN = false := rfl
        have hen : (JSNum.fin e 1).isNaN = false := rfl
        simp [List.find?, hi, he, JSNum.gt_fin_one, hin, hen, h, hb, hn]
  have hin : (JSNum.fin i 1).isNaN = false := rfl
  have hen : (JSNum.fin e 1).isNaN = false := rfl
  have hnn : JSNum.nan.isNaN = true := rfl
  simp only [verifierAttributeCheck, hI, hS, hi, JSNum.orZero_fin_one, hE,
    JSNum.gt_fin_one]
  by_cases h1 : now < i
  · simp [h1, hin]
  · by_cases h2 : i < e
    · by_cases h0 : e ≤ now
      · simp [h1, h2, h0, he, JSNum.ge_fin_one, hin, hen]
      · by_cases h3 : window < e - i
        · simp [h1, h2, h0, h3, he, JSNum.sub_gt_fin_one _ _ _ hw, JSNum.gt_fin_one, JSNum.ge_fin_one,
            hin, hen]
        · by_cases h4 : scope = expected
          · simp [h1, h2, h0, h3, h4, he, JSNum.sub_gt_fin_one _ _ _ hw, JSNum.gt_fin_one,
              JSNum.ge_fin_one, hin, hen]
          · simp [h1, h2, h0, h3, h4, he, JSNum.sub_gt_fin_one _ _ _ hw, JSNum.gt_fin_one,
              JSNum.ge_fin_one, hin, hen]
    · cases hb : (Number scope).gt (JSNum.fin i 1)
      · simp [h1, h2, hb, hin, hnn]
      · have hn := JSNum.isNaN_of_gt _ _ hb
        have h4 : scope ≠ expected := by
          intro h; rw [h, hx] at hn; exact absurd hn (by decide)
        by_cases h6 : (JSNum.fin now 1).ge (Number scope) = true
        · simp [h1, h2, hb, h4, h6, hn, hin]
        · by_cases h5 : ((Number scope).sub (JSNum.fin i 1)).gt (JSNum.fin window 1) = true
          · simp [h1, h2, hb, h4, h5, h6, hn, hin]
          · simp [h1, h2, hb, h4, h5, h6, hn, hin]

/-- C27 (as the code has it): on a public attribute list `[iat, exp, scope]` whose `iat`
and `exp` strings read as the integers `i` and `e`, and for every clock value, the
attribute checks of `coco_verifier_step_2` pass exactly when `i ≤ now < e`,
`e - i ≤ 2592000` and the scope is `access:uid`; the step then asks the engine to verify
the proof. Otherwise it returns one of the three attribute errors and verifies no proof.
An expired token (`e ≤ now`) is rejected in this way; the error is
`Invalid exp attribute` when its `iat` is not in the future and precedes its `exp`, and
`Invalid iat attribute` when its `iat` is in the future. -/
theorem verifier_attribute_checks_canonical (E : Engine) (now i e : Int)
    (iat exp scope : String) (verificationKeys : List String) (proof : String)
    (hi : Number iat = JSNum.fin i 1) (he : Number exp = JSNum.fin e 1) :
    (verifierAttributeCheck "access:uid" VERIFIER_TOKEN_VALIDITY now
        [⟨iat, false⟩, ⟨exp, false⟩, ⟨scope, false⟩] = none ↔
      (i ≤ now ∧ now < e ∧ e - i ≤ 2592000 ∧ scope = "access:uid")) ∧
    ((i ≤ now ∧ now < e ∧ e - i ≤ 2592000 ∧ scope = "access:uid") →
      coco_verifier_step_2 E now (JSVal.arr verificationKeys) proof
          [⟨iat, false⟩, ⟨exp, false⟩, ⟨scope, false⟩] =
        (VerifyResult.bool ((E.aggregateAndVerify (JSVal.arr verificationKeys) proof
            [⟨iat, false⟩, ⟨exp, false⟩, ⟨scope, false⟩]).getD false),
          [EngineCall.verify (JSVal.arr verificationKeys) proof
            [⟨iat, false⟩, ⟨exp, false⟩, ⟨scope, false⟩]])) ∧
    (¬ (i ≤ now ∧ now < e ∧ e - i ≤ 2592000 ∧ scope = "access:uid") →
      ∃ msg, coco_verifier_step_2 E now (JSVal.arr verificationKeys) proof
          [⟨iat, false⟩, ⟨exp, false⟩, ⟨scope, false⟩] = (VerifyResult.error msg, []) ∧
        (msg = "Invalid `iat` attribute." ∨ msg = "Invalid `exp` attribute." ∨
          msg = "Invalid `scope` attribute.")) ∧
    (e ≤ now → i ≤ now → i < e →
      coco_verifier_step_2 E now (JSVal.arr verificationKeys) proof
          [⟨iat, false⟩, ⟨exp, false⟩, ⟨scope, false⟩] =
        (VerifyResult.error "Invalid `exp` attribute.", [])) ∧
    (e ≤ now → now < i →
      coco_verifier_step_2 E now (JSVal.arr verificationKeys) proof
          [⟨iat, false⟩, ⟨exp, false⟩, ⟨scope, false⟩] =
        (VerifyResult.error "Invalid `iat` attribute.", [])) := by
  have hx : Number "access:uid" = JSNum.nan := by decide
  have hc := verifierAttributeCheck_eq "access:uid" VERIFIER_TOKEN_VALIDITY now i e iat exp
    scope hi he hx (by decide)
  have hw : VERIFIER_TOKEN_VALIDITY = 2592000 := rfl
  rw [hw] at hc
  have hiff : verifierAttributeCheck "access:uid" VERIFIER_TOKEN_VALIDITY now
        [⟨iat, false⟩, ⟨exp, false⟩, ⟨scope, false⟩] = none ↔
      (i ≤ now ∧ now < e ∧ e - i ≤ 2592000 ∧ scope = "access:uid") := by
    rw [hw, hc]
    by_cases h1 : now < i
    · simp only [h1, if_true]
      constructor
      · intro h; exact absurd h (by simp)
      · intro h; omega
    · by_cases h2 : i < e
      · by_cases h0 : e ≤ now
        · simp only [h1, h2, h0, if_true, if_false]
          constructor
          · intro h; exact absurd h (by simp)
          · intro h; omega
        · by_cases h3 : (2592000 : Int) < e - i
          · simp only [h1, h2, h0, h3, if_true, if_false]
            constructor
            · intro h; exact absurd h (by simp)
            · intro h; omega
          · by_cases h4 : scope = "access:uid"
            · simp only [h1, h2, h0, h3, h4, if_true, if_false, true_iff]
              exact ⟨by omega, by omega, by omega, trivial⟩
            · simp only [h1, h2, h0, h3, h4, if_true, if_false]
              constructor
              · intro h; exact absurd h (by simp)
              · intro h; exact h.2.2.2.elim
      · simp only [h1, h2, if_false]
        constructor
        · intro h
          split at h
          · split at h
            · exact absurd h (by simp)
            · split at h <;> exact absurd h (by simp)
          · exact absurd h (by simp)
        · intro h; omega
  have hmsg : ∀ msg, verifierAttributeCheck "access:uid" VERIFIER_TOKEN_VALIDITY now
        [⟨iat, false⟩, ⟨exp, false⟩, ⟨scope, false⟩] = some msg →
      (msg = "Invalid `iat` attribute." ∨ msg = "Invalid `exp` attribute." ∨
        msg = "Invalid `scope` attribute.") := by
    intro msg h
    rw [hw, hc] at h
    split_ifs at h <;> cases h <;> simp
  refine ⟨hiff, ?_, ?_, ?_, ?_⟩
  · intro hp
    have := hiff.mpr hp
    simp [coco_verifier_step_2, this, _verifyProof]
  · intro hn
    cases hv : verifierAttributeCheck "access:uid" VERIFIER_TOKEN_VALIDITY now
        [⟨iat, false⟩, ⟨exp, false⟩, ⟨scope, false⟩] with
    | none => exact absurd (hiff.mp hv) hn
    | some msg =>
      exact ⟨msg, by simp [coco_verifier_step_2, hv], hmsg msg hv⟩
  · intro h0 h1 h2
    have h1' : ¬ now < i := by omega
    have : verifierAttributeCheck "access:uid" VERIFIER_TOKEN_VALIDITY now
        [⟨iat, false⟩, ⟨exp, false⟩, ⟨scope, false⟩] = some "Invalid `exp` attribute." := by
      rw [hw, hc]; simp [h1', h2, h0]
    simp [coco_verifier_step_2, this]
  · intro _ h1
    have : verifierAttributeCheck "access:uid" VERIFIER_TOKEN_VALIDITY now
        [⟨iat, false⟩, ⟨exp, false⟩, ⟨scope, false⟩] = some "Invalid `iat` attribute." := by
      rw [hw, hc]; simp [h1]
    simp [coco_verifier_step_2, this]

/-- Witness for C27: the token `[1000, 1060, access:uid]` at time 1000. -/
theorem verifier_attribute_checks_canonical_witness :
    coco_verifier_step_2 sampleEngine 1000 (JSVal.arr ["key-1"]) "good-proof"
        [⟨"1000", false⟩, ⟨"1060", false⟩, ⟨"access:uid", false⟩] =
      (VerifyResult.bool ((sampleEngine.aggregateAndVerify (JSVal.arr ["key-1"]) "good-proof"
          [⟨"1000", false⟩, ⟨"1060", false⟩, ⟨"access:uid", false⟩]).getD false),
        [EngineCall.verify (JSVal.arr ["key-1"]) "good-proof"
          [⟨"1000", false⟩, ⟨"1060", false⟩, ⟨"access:uid", false⟩]]) :=
  (verifier_attribute_checks_canonical sampleEngine 1000 1000 1060 "1000" "1060" "access:uid"
    ["key-1"] "good-proof" (by decide) (by decide)).2.1 (by decide)

/-- C27, counterexample: at time 1500 the public list `[2000, 1000, access:uid]` is
expired (`now >= exp`), and the step rejects it with `Invalid iat attribute`, not with
`Invalid exp attribute`. -/
theorem expired_token_other_error_counterexample :
    Number "2000" = JSNum.fin 2000 1 ∧ Number "1000" = JSNum.fin 1000 1 ∧
    (1000 : Int) ≤ 1500 ∧
    coco_verifier_step_2 sampleEngine 1500 (JSVal.arr ["key-1"]) "good-proof"
        [⟨"2000", false⟩, ⟨"1000", false⟩, ⟨"access:uid", false⟩] =
      (VerifyResult.error "Invalid `iat` attribute.", []) := by
  decide

/-! ## The input encoding of `H` -/

/-- The code point of a character is below `0x110000`. -/
theorem Char.toNat_lt_of_valid (c : Char) : c.toNat < 0x110000 := by
  have h := c.valid
  simp only [Char.toNat, UInt32.isValidChar, Nat.isValidChar] at *
  omega

/-- Two characters with the same code point are the same. -/
theorem Char.eq_of_toNat_eq (c d : Char) (h : c.toNat = d.toNat) : c = d :=
  Char.ext (UInt32.ext h)

/-- The UTF-8 forms of code points are prefix-free: from two sequences that agree, the
first code points and the remainders can be read back. -/
theorem utf8EncodeCodePoint_append_inj (a b : Nat) (r1 r2 : List Nat)
    (ha : a < 0x110000) (hb : b < 0x110000)
    (h : utf8EncodeCodePoint a ++ r1 = utf8EncodeCodePoint b ++ r2) : a = b ∧ r1 = r2 := by
  unfold utf8EncodeCodePoint at h
  split_ifs at h <;>
    simp only [List.cons_append, List.nil_append, List.cons.injEq] at h <;>
    first
      | (exfalso; omega)
      | exact ⟨by omega, by simp only [h]⟩

/-- The UTF-8 form of a string determines the string. -/
theorem utf8Encode_injective : ∀ (l1 l2 : List Char), utf8Encode l1 = utf8Encode l2 →
    l1 = l2 := by
  intro l1
  induction l1 with
  | nil =>
    intro l2 h
    cases l2 with
    | nil => rfl
    | cons d ds =>
      exfalso
      simp only [utf8Encode, List.flatMap_nil, List.flatMap_cons] at h
      have := congrArg List.length h
      unfold utf8EncodeCodePoint at this
      split_ifs at this <;> simp at this
  | cons c cs ih =>
    intro l2 h
    cases l2 with
    | nil =>
      exfalso
      simp only [utf8Encode, List.flatMap_nil, List.flatMap_cons] at h
      have := congrArg List.length h
      unfold utf8EncodeCodePoint at this
      split_ifs at this <;> simp at this
    | cons d ds =>
      simp only [utf8Encode, List.flatMap_cons] at h
      obtain ⟨hcd, hrest⟩ := utf8EncodeCodePoint_append_inj c.toNat d.toNat _ _
        (Char.toNat_lt_of_valid c) (Char.toNat_lt_of_valid d) h
      rw [Char.eq_of_toNat_eq c d hcd, ih ds hrest]

/-- C30 (as the code has it): among secrets that are not hexadecimal strings (they are
empty or hold a character outside `[0-9a-fA-F]`), the encoding is injective: for every
salt, two different such secrets give `H` different byte sequences to hash. -/
theorem combinedInput_injective_on_text (salt s1 s2 : String)
    (h1 : isHexString s1 = false) (h2 : isHexString s2 = false) (hne : s1 ≠ s2) :
    H.combinedInput [s1, salt] ≠ H.combinedInput [s2, salt] := by
  intro h
  simp only [H.combinedInput, List.flatMap_cons, List.flatMap_nil, List.append_nil,
    H.inputBuffer, h1, h2] at h
  have h3 := List.append_cancel_right h
  simp only [Bool.false_eq_true, if_false] at h3
  have h4 := utf8Encode_injective _ _ h3
  exact hne (String.ext h4)

/-- Witness for C30: the secrets `password` and `Password` under the salt `00ff`. -/
theorem combinedInput_injective_on_text_witness :
    H.combinedInput ["password", "00ff"] ≠ H.combinedInput ["Password", "00ff"] :=
  combinedInput_injective_on_text "00ff" "password" "Password" (by decide) (by decide)
    (by decide)

/-- C30, counterexample: the secrets `ab` and `AB` are different strings, both are read
as hexadecimal, and both give the single byte `0xAB`; so do `ab` and `abc`, the last
digit of an odd number of digits being dropped. Under the salt `00ff` the byte
sequences handed to Argon2 are the same. -/
theorem combinedInput_collision_counterexample :
    "ab" ≠ "AB" ∧ H.combinedInput ["ab", "00ff"] = H.combinedInput ["AB", "00ff"] ∧
    "ab" ≠ "abc" ∧ H.combinedInput ["ab", "00ff"] = H.combinedInput ["abc", "00ff"] ∧
    H.combinedInput ["ab", "00ff"] = [0xAB, 0x00, 0xFF] := by
  decide

/-! ## The Verifier's collections of usernames and records -/

theorem Verifier.length_mutateObjects (refs : List Nat) (f : UserRecord → UserRecord)
    (i : Nat) (heap : List UserRecord) :
    (Verifier.mutateObjects refs f i heap).length = heap.length := by
  induction heap generalizing i with
  | nil => rfl
  | cons o rest ih => simp [Verifier.mutateObjects, ih]

/-- Every Verifier operation acts on the collections of usernames and records in one of
the five ways of `storeEffect`. -/
theorem Verifier.step_storeEffect (E : Engine) (now : Int) (call : VerifierCall)
    (st : VerifierState) : storeEffect call st (Verifier.step E now call st) := by
  cases call with
  | initPepper random =>
    left
    simp only [Verifier.step, Verifier.initPepper]
    split <;> exact ⟨rfl, rfl, rfl⟩
  | handleRegistrationRequest uuid username req pk attrs =>
    left
    simp only [Verifier.step, Verifier.handleRegistrationRequest]
    split
    · exact ⟨rfl, rfl, rfl⟩
    · split <;> exact ⟨rfl, rfl, rfl⟩
  | handleLoginRequest username =>
    left
    simp only [Verifier.step, Verifier.handleLoginRequest]
    split <;> exact ⟨rfl, rfl, rfl⟩
  | completeRegistration username userId salts keys proof attrs =>
    simp only [Verifier.step, Verifier.completeRegistration]
    split
    · exact Or.inl ⟨rfl, rfl, rfl⟩
    · rename_i hnone
      split
      · exact Or.inl ⟨rfl, rfl, rfl⟩
      · split
        · right; left
          exact ⟨username, userId, salts, keys, proof, attrs, rfl, hnone, rfl, rfl, by simp⟩
        · exact Or.inl ⟨rfl, rfl, rfl⟩
  | completeLogin username keys proof attrs =>
    left
    simp only [Verifier.step, Verifier.completeLogin]
    split
    · exact ⟨rfl, rfl, rfl⟩
    · split
      · exact ⟨rfl, rfl, rfl⟩
      · split
        · exact ⟨rfl, rfl, by simp [Verifier.updateInStorage, Verifier.length_mutateObjects]⟩
        · exact ⟨rfl, rfl, rfl⟩
  | credentialLogin username keys proof attrs =>
    left
    simp only [Verifier.step, Verifier.credentialLogin]
    split
    · exact ⟨rfl, rfl, rfl⟩
    · split
      · exact ⟨rfl, rfl, rfl⟩
      · split
        · exact ⟨rfl, rfl, rfl⟩
        · split <;> exact ⟨rfl, rfl, rfl⟩
  | handleUpdateSaltsRequest username new_salts keys proof attrs =>
    simp only [Verifier.step, Verifier.handleUpdateSaltsRequest]
    split
    · exact Or.inl ⟨rfl, rfl, rfl⟩
    · rename_i mapping hmap
      split
      · exact Or.inl ⟨rfl, rfl, rfl⟩
      · split
        · split
          · rename_i ref href
            right; right; left
            exact ⟨mapping.userId, ref, href, rfl, rfl,
              by simp [Verifier.length_mutateObjects]⟩
          · exact Or.inl ⟨rfl, rfl, rfl⟩
        · exact Or.inl ⟨rfl, rfl, rfl⟩
  | handleDeleteUserRequest username keys proof attrs =>
    simp only [Verifier.step, Verifier.handleDeleteUserRequest]
    split
    · exact Or.inl ⟨rfl, rfl, rfl⟩
    · rename_i mapping hmap
      split
      · exact Or.inl ⟨rfl, rfl, rfl⟩
      · split
        · right; right; right; left
          exact ⟨username, mapping, hmap, rfl, rfl, rfl⟩
        · exact Or.inl ⟨rfl, rfl, rfl⟩
  | handleUsernameUpdateRequest username new_username keys proof attrs =>
    simp only [Verifier.step, Verifier.handleUsernameUpdateRequest]
    split
    · exact Or.inl ⟨rfl, rfl, rfl⟩
    · rename_i mapping hmap
      split
      · exact Or.inl ⟨rfl, rfl, rfl⟩
      · rename_i hnew
        split
        · exact Or.inl ⟨rfl, rfl, rfl⟩
        · split
          · right; right; right; right
            exact ⟨username, new_username, mapping, hmap, hnew, rfl, rfl, rfl⟩
          · exact Or.inl ⟨rfl, rfl, rfl⟩

theorem Verifier.getFromStorage_eq_none {α : Type} (c : List (Item α)) (k : String)
    (h : Verifier.getFromStorage c k = none) :
    DatabaseHandler.retrieve c (JSVal.str k) = [] := by
  unfold Verifier.getFromStorage at h
  cases hr : DatabaseHandler.retrieve c (JSVal.str k) with
  | nil => rfl
  | cons data rest => simp [hr] at h

theorem DatabaseHandler.mem_delete {α : Type} (c : List (Item α)) (k : String)
    (item : Item α) :
    item ∈ DatabaseHandler.delete c (JSVal.str k) ↔ item ∈ c ∧ item.key ≠ k := by
  simp [DatabaseHandler.delete, List.mem_filter, strictEqualsKey]

theorem DatabaseHandler.mem_save {α : Type} (c : List (Item α)) (data item : Item α) :
    item ∈ DatabaseHandler.save c data ↔ item ∈ c ∨ item = data := by
  simp [DatabaseHandler.save]

/-- A write of `storeEffect` leaves at most one mapping item per username when there was
at most one before. -/
theorem storeEffect_mapping_unique (call : VerifierCall) (st st2 : VerifierState)
    (heff : storeEffect call st st2)
    (h : ∀ username : String,
      (DatabaseHandler.retrieve st.username_to_userid (JSVal.str username)).length ≤ 1) :
    ∀ username : String,
      (DatabaseHandler.retrieve st2.username_to_userid (JSVal.str username)).length ≤ 1 := by
  intro q
  rcases heff with ⟨h1, _, _⟩ | ⟨username, userId, _, _, _, _, _, hnone, h1, _, _⟩ |
    ⟨_, _, _, h1, _, _⟩ | ⟨username, mapping, _, h1, _, _⟩ |
    ⟨username, new_username, mapping, _, hnew, h1, _, _⟩
  · rw [h1]; exact h q
  · rw [h1]
    have hs := DatabaseHandler.retrieve_save st.username_to_userid username ⟨userId⟩ q
    simp only [DatabaseHandler.save] at hs
    rw [hs]
    by_cases hq : username = q
    · subst hq
      simp [Verifier.getFromStorage_eq_none _ _ hnone]
    · simpa [hq] using h q
  · rw [h1]; exact h q
  · rw [h1]
    by_cases hq : q = username
    · subst hq
      simp [DatabaseHandler.retrieve_delete_self]
    · rw [DatabaseHandler.retrieve_delete_other _ _ _ hq]
      exact h q
  · rw [h1]
    by_cases hq : q = username
    · subst hq
      simp [DatabaseHandler.retrieve_delete_self]
    · rw [DatabaseHandler.retrieve_delete_other _ _ _ hq, DatabaseHandler.retrieve_save]
      by_cases hn : new_username = q
      · subst hn
        simp [Verifier.getFromStorage_eq_none _ _ hnew]
      · simpa [hn] using h q

/-- C28 (as the code has it): every Verifier state reachable from the empty local store
holds at most one mapping item per username: no operation creates a second mapping for a
username that has one. -/
theorem verifier_mapping_unique (st : VerifierState) (hreach : VerifierReachable anyCall st)
    (username : String) :
    (DatabaseHandler.retrieve st.username_to_userid (JSVal.str username)).length ≤ 1 := by
  revert username
  induction hreach with
  | start registry => intro username; simp [DatabaseHandler.retrieve]
  | publish st verificationKey _ ih => exact ih
  | step E now call st _ _ ih =>
    exact storeEffect_mapping_unique call st _ (Verifier.step_storeEffect E now call st) ih

/-- Witness for C28: the state after `alice` registered and updated her salts. -/
theorem verifier_mapping_unique_witness :
    (DatabaseHandler.retrieve aliceUpdatedSalts.username_to_userid
      (JSVal.str "alice")).length ≤ 1 :=
  verifier_mapping_unique aliceUpdatedSalts
    (VerifierReachable.step sampleEngine 1000 _ _
      (VerifierReachable.step sampleEngine 1000 _ _
        (VerifierReachable.start [⟨"key-1", "key-1"⟩]) trivial) trivial) "alice"

/-- C28, counterexample: two reachable states that hold two record items for `uid-1`. In
the first `alice` registered and then updated her salts (the record object is saved once
more); in the second `bob` registered under the `userId` that `alice` has. -/
theorem verifier_record_items_counterexample :
    VerifierReachable anyCall aliceUpdatedSalts ∧
    (DatabaseHandler.retrieve aliceUpdatedSalts.userid_to_userdata
      (JSVal.str "uid-1")).length = 2 ∧
    VerifierReachable anyCall bobRegisteredSameId ∧
    (DatabaseHandler.retrieve bobRegisteredSameId.userid_to_userdata
      (JSVal.str "uid-1")).length = 2 :=
  ⟨VerifierReachable.step sampleEngine 1000 _ _
      (VerifierReachable.step sampleEngine 1000 _ _
        (VerifierReachable.start [⟨"key-1", "key-1"⟩]) trivial) trivial,
    by decide,
    VerifierReachable.step sampleEngine 1000 _ _
      (VerifierReachable.step sampleEngine 1000 _ _
        (VerifierReachable.start [⟨"key-1", "key-1"⟩]) trivial) trivial,
    by decide⟩

/-- A write of `storeEffect` made by a call under a fresh `userId` keeps the record
invariant. -/
theorem storeEffect_recordInvariant (call : VerifierCall) (st st2 : VerifierState)
    (heff : storeEffect call st st2) (hfresh : freshUserId st call)
    (h : recordInvariant st) : recordInvariant st2 := by
  obtain ⟨ha, hb, hc⟩ := h
  unfold heapWellFormed at hc
  unfold recordInvariant heapWellFormed
  rcases heff with ⟨h1, h2, h3⟩ |
    ⟨username, userId, salts, keys, proof, attrs, hcall, hnone, h1, h2, h3⟩ |
    ⟨userId, ref, href, h1, h2, h3⟩ | ⟨username, mapping, hmap, h1, h2, h3⟩ |
    ⟨username, new_username, mapping, hmap, hnew, h1, h2, h3⟩
  · rw [h1, h2, h3]; exact ⟨ha, hb, hc⟩
  · subst hcall
    simp only [freshUserId] at hfresh
    rw [h1, h2, h3]
    refine ⟨?_, ?_, ?_⟩
    · intro item hitem
      rcases List.mem_append.mp hitem with hold | hnew
      · obtain ⟨r, hr, hk⟩ := ha item hold
        exact ⟨r, List.mem_append_left _ hr, hk⟩
      · simp only [List.mem_singleton] at hnew
        subst hnew
        exact ⟨⟨userId, st.heap.length⟩, by simp, rfl⟩
    · intro item hitem other hother heq
      rcases List.mem_append.mp hitem with hold | hnew
      · rcases List.mem_append.mp hother with hold2 | hnew2
        · exact hb item hold other hold2 heq
        · simp only [List.mem_singleton] at hnew2
          subst hnew2
          exact absurd heq (hfresh item hold)
      · simp only [List.mem_singleton] at hnew
        subst hnew
        rcases List.mem_append.mp hother with hold2 | hnew2
        · exact absurd heq.symm (hfresh other hold2)
        · simp only [List.mem_singleton] at hnew2
          subst hnew2
          rfl
    · intro item hitem
      rcases List.mem_append.mp hitem with hold | hnew
      · have := hc item hold
        omega
      · simp only [List.mem_singleton] at hnew
        subst hnew
        simp
  · rw [h1, h2, h3]
    refine ⟨?_, hb, ?_⟩
    · intro item hitem
      obtain ⟨r, hr, hk⟩ := ha item hitem
      exact ⟨r, List.mem_append_left _ hr, hk⟩
    · intro item hitem
      rcases List.mem_append.mp hitem with hold | hnew
      · exact hc item hold
      · simp only [List.mem_singleton] at hnew
        subst hnew
        exact hc _ (Verifier.getFromStorage_mem _ _ _ href)
  · have hmem := Verifier.getFromStorage_mem _ _ _ hmap
    rw [h1, h2, h3]
    refine ⟨?_, ?_, ?_⟩
    · intro item hitem
      obtain ⟨hin, hkey⟩ := (DatabaseHandler.mem_delete _ _ _).mp hitem
      have hid : item.value.userId ≠ mapping.userId := by
        intro heq
        exact hkey (hb item hin _ hmem heq)
      obtain ⟨r, hr, hk⟩ := ha item hin
      exact ⟨r, (DatabaseHandler.mem_delete _ _ _).mpr ⟨hr, by rw [hk]; exact hid⟩, hk⟩
    · intro item hitem other hother heq
      exact hb item ((DatabaseHandler.mem_delete _ _ _).mp hitem).1 other
        ((DatabaseHandler.mem_delete _ _ _).mp hother).1 heq
    · intro item hitem
      exact hc item ((DatabaseHandler.mem_delete _ _ _).mp hitem).1
  · have hmem := Verifier.getFromStorage_mem _ _ _ hmap
    rw [h1, h2, h3]
    have hsplit : ∀ item, item ∈ DatabaseHandler.delete
        (DatabaseHandler.save st.username_to_userid ⟨new_username, ⟨mapping.userId⟩⟩)
        (JSVal.str username) →
        (item ∈ st.username_to_userid ∧ item.key ≠ username) ∨
          item = ⟨new_username, ⟨mapping.userId⟩⟩ := by
      intro item hitem
      obtain ⟨hin, hkey⟩ := (DatabaseHandler.mem_delete _ _ _).mp hitem
      rcases (DatabaseHandler.mem_save _ _ _).mp hin with hold | hnew2
      · exact Or.inl ⟨hold, hkey⟩
      · exact Or.inr hnew2
    refine ⟨?_, ?_, hc⟩
    · intro item hitem
      rcases hsplit item hitem with ⟨hold, _⟩ | hnew2
      · exact ha item hold
      · subst hnew2
        exact ha ⟨username, mapping⟩ hmem
    · intro item hitem other hother heq
      rcases hsplit item hitem with ⟨hold, hkey⟩ | hnew2
      · rcases hsplit other hother with ⟨hold2, _⟩ | hnew3
        · exact hb item hold other hold2 heq
        · subst hnew3
          exact absurd (hb item hold _ hmem heq) hkey
      · subst hnew2
        rcases hsplit other hother with ⟨hold2, hkey2⟩ | hnew3
        · exact absurd (hb other hold2 _ hmem heq.symm) hkey2
        · subst hnew3
          rfl

/-- Every state reached by calls under fresh `userId`s satisfies the record invariant. -/
theorem recordInvariant_of_reachable (st : VerifierState)
    (hreach : VerifierReachable freshUserId st) : recordInvariant st := by
  induction hreach with
  | start registry =>
    refine ⟨?_, ?_, ?_⟩
    · intro item hitem; simp at hitem
    · intro item hitem; simp at hitem
    · intro item hitem; simp at hitem
  | publish st verificationKey _ ih => exact ih
  | step E now call st _ hallowed ih =>
    exact storeEffect_recordInvariant call st _ (Verifier.step_storeEffect E now call st)
      hallowed ih

/-- C29 (as the code has it): in every Verifier state reachable from the empty local store
by operations in which `completeRegistration` is only called under a `userId` that no
username is mapped to at that time (as when the `userId` is the fresh identifier that
`handleRegistrationRequest` issued), each mapped username maps to a `userId` that has a
record, so `credentialLogin` finds the record and returns a response. -/
theorem verifier_mapped_user_has_record (E : Engine) (now : Int) (st : VerifierState)
    (hreach : VerifierReachable freshUserId st) (username : String) (mapping : UserMapping)
    (keys : List String) (proof : String) (attrs : List RawAttribute)
    (hmap : Verifier.getFromStorage st.username_to_userid username = some mapping) :
    (∃ record, Verifier.getUserData st mapping.userId = some record) ∧
    ∃ response, (Verifier.credentialLogin E now username keys proof attrs st).1 =
      some response := by
  obtain ⟨ha, _, hc⟩ := recordInvariant_of_reachable st hreach
  have hmem := Verifier.getFromStorage_mem _ _ _ hmap
  have hkey := ha _ hmem
  have hsome : ∃ ref, Verifier.getFromStorage st.userid_to_userdata mapping.userId =
      some ref := by
    cases hg : Verifier.getFromStorage st.userid_to_userdata mapping.userId with
    | some ref => exact ⟨ref, rfl⟩
    | none =>
      exact absurd hkey ((DatabaseHandler.retrieve_eq_nil_iff _ _).mp
        (Verifier.getFromStorage_eq_none _ _ hg))
  obtain ⟨ref, href⟩ := hsome
  have hlt : ref < st.heap.length := hc _ (Verifier.getFromStorage_mem _ _ _ href)
  have hrec : Verifier.getUserData st mapping.userId = some (st.heap.get ⟨ref, hlt⟩) := by
    simp [Verifier.getUserData, href, List.getElem?_eq_getElem hlt]
  refine ⟨⟨_, hrec⟩, ?_⟩
  simp only [Verifier.credentialLogin, hmap, hrec]
  split
  · exact ⟨_, rfl⟩
  · split <;> exact ⟨_, rfl⟩

/-- Witness for C29: `alice` after her registration and a salt update. -/
theorem verifier_mapped_user_has_record_witness :
    (∃ record, Verifier.getUserData aliceUpdatedSalts "uid-1" = some record) ∧
    ∃ response, (Verifier.credentialLogin sampleEngine 1000 "alice" ["key-1"] "good-proof"
      (sampleAttributes "access:uid") aliceUpdatedSalts).1 = some response :=
  verifier_mapped_user_has_record sampleEngine 1000 aliceUpdatedSalts
    (VerifierReachable.step sampleEngine 1000 _ _
      (VerifierReachable.step sampleEngine 1000 _ _
        (VerifierReachable.start [⟨"key-1", "key-1"⟩])
        (fun item hitem => absurd hitem (List.not_mem_nil item))) trivial)
    "alice" ⟨"uid-1"⟩ ["key-1"] "good-proof" (sampleAttributes "access:uid") (by decide)

/-- C29, counterexample: `alice` and `bob` both complete a registration under the
caller-supplied `uid-1`, then `alice` is deleted. The state is reachable, `bob` is still
mapped to `uid-1`, no record is left for `uid-1`, and `credentialLogin` for `bob` throws. -/
theorem verifier_mapped_user_without_record_counterexample :
    VerifierReachable anyCall aliceDeleted ∧
    Verifier.getFromStorage aliceDeleted.username_to_userid "bob" = some ⟨"uid-1"⟩ ∧
    Verifier.getUserData aliceDeleted "uid-1" = none ∧
    (Verifier.credentialLogin sampleEngine 1000 "bob" ["key-1"] "good-proof"
      (sampleAttributes "access:uid") aliceDeleted).1 = none :=
  ⟨VerifierReachable.step sampleEngine 1000 _ _
      (VerifierReachable.step sampleEngine 1000 _ _
        (VerifierReachable.step sampleEngine 1000 _ _
          (VerifierReachable.start [⟨"key-1", "key-1"⟩]) trivial) trivial) trivial,
    by decide, by decide, by decide⟩

end Coco
